import Mathlib

/-!
# Ray tracer geometry core: a shallow embedding of `objects.c` and `stl.c`

The C code computes on `float`.  Every function of the code is embedded once,
over a type `α` that carries the operations the code uses (`+`, `-`, `*`, `/`,
unary minus, the comparisons and the conversion from `unsigned`), and is read
in two arithmetics:

* `α = F32`, IEEE 754 binary32 as the hardware computes it: every operation
  rounds to nearest (ties to even), overflows to an infinity, divides by zero
  to an infinity and propagates NaN; comparisons with NaN are false.  This is
  the arithmetic of the program.
* `α` a linearly ordered field (`ℚ`, `ℝ`): exact arithmetic without rounding.
  It is used for the statements that only restate guards and comparisons, and
  as the reference that the `F32` results are compared with.

Conventions:

* `Vec3` is `float[3]`, i.e. a function on `Fin 3`; `X = 0`, `Y = 1`, `Z = 2`.
* Output parameters become return values; a function returning `bool` and
  writing `*distance` / `normal` returns an `Option` of what it wrote.
* `sqrtf`, `cosf` and `sinf` are parameters of every function that
  (transitively) calls them; for `F32` the correctly rounded `F32.sqrt` is
  available.
* Reading an array outside its bounds is undefined behaviour in C; the
  embedding makes such a read fail (`none`).
-/

namespace Raytracer

/-! ## Binary32 arithmetic

`F32` is the C type `float` (IEEE 754 binary32) on a platform that evaluates
`float` expressions in `float` (`FLT_EVAL_METHOD` 0): every operation returns
the exact result rounded to the nearest representable value, ties to even,
overflowing to an infinity. -/

/-- A `float`: a finite value (a rational number; `fin 0` is `+0.0`), `-0.0`,
the two infinities or NaN.  The values the operations return are always
representable; `F32.representable` says so of an input. -/
inductive F32 where
  | fin : ℚ → F32
  | nzero : F32
  | pinf : F32
  | ninf : F32
  | nan : F32
deriving DecidableEq

namespace F32

/-- Halving loop behind `ilog2`. -/
def ilog2_aux : Nat → Nat → Nat
  | 0, _ => 0
  | fuel + 1, n => if n < 2 then 0 else ilog2_aux fuel (n / 2) + 1

/-- The position of the leading bit of `n`: `2 ^ ilog2 n ≤ n < 2 ^ (ilog2 n + 1)`
for `n > 0`. -/
def ilog2 (n : Nat) : Nat := ilog2_aux n n

/-- The power `2 ^ k` for an integer `k`. -/
def pow2 (k : Int) : ℚ := if 0 ≤ k then 2 ^ k.toNat else 1 / 2 ^ (-k).toNat

/-- The binary exponent of `a > 0`: `2 ^ exponent a ≤ a < 2 ^ (exponent a + 1)`. -/
def exponent (a : ℚ) : Int :=
  let k : Int := (ilog2 a.num.natAbs : Int) - (ilog2 a.den : Int)
  if pow2 k ≤ a then k else k - 1

/-- The integer nearest to `x ≥ 0`, ties to even. -/
def round_even (x : ℚ) : Nat :=
  let n := x.num.natAbs
  let d := x.den
  let m := n / d
  let r := n % d
  if 2 * r < d then m else if d < 2 * r then m + 1 else if m % 2 = 0 then m else m + 1

/-- The multiple of the unit in the last place nearest to `a ≥ 0`: 24
significant bits, exponents from -126 (below it the values are subnormal). -/
def round_abs (a : ℚ) : ℚ :=
  if a = 0 then 0
  else
    let ulp := pow2 (max (exponent a) (-126) - 23)
    (round_even (a / ulp) : ℚ) * ulp

/-- Rounding of the exact result `x` of an operation; `neg` is the sign that a
zero result takes. -/
def round (neg : Bool) (x : ℚ) : F32 :=
  let r := round_abs |x|
  if 2 ^ 128 ≤ r then (if x < 0 then ninf else pinf)
  else if r = 0 then (if neg = true then nzero else fin 0)
  else fin (if x < 0 then -r else r)

/-- The value of a finite `float`. -/
def value : F32 → Option ℚ
  | fin q => some q
  | nzero => some 0
  | _ => none

/-- The value of a finite `float` as a rational number (0 for the infinities
and NaN, which the statements exclude). -/
def toRat : F32 → ℚ
  | fin q => q
  | _ => 0

/-- Finite: neither an infinity nor NaN. -/
def isFinite : F32 → Bool
  | fin _ => true
  | nzero => true
  | _ => false

/-- A value that a `float` variable can hold: rounding leaves it unchanged. -/
def representable : F32 → Bool
  | fin q => decide (round false q = fin q)
  | _ => true

/-- The sign bit (false for NaN, whose sign is not used). -/
def sign : F32 → Bool
  | fin q => decide (q < 0)
  | nzero => true
  | ninf => true
  | _ => false

/-- The product `a * b`: zero times an infinity is NaN. -/
def mul (a b : F32) : F32 :=
  match a.value, b.value with
  | some x, some y => round (xor a.sign b.sign) (x * y)
  | some x, none =>
    if b = nan ∨ x = 0 then nan else if xor a.sign b.sign = true then ninf else pinf
  | none, some y =>
    if a = nan ∨ y = 0 then nan else if xor a.sign b.sign = true then ninf else pinf
  | none, none => if a = nan ∨ b = nan then nan else if xor a.sign b.sign = true then ninf else pinf

/-- The quotient `a / b`: a non-zero value over zero is an infinity with the
product of the signs, `0 / 0` and `inf / inf` are NaN. -/
def div (a b : F32) : F32 :=
  match a.value, b.value with
  | some x, some y =>
    if y = 0 then (if x = 0 then nan else if xor a.sign b.sign = true then ninf else pinf)
    else round (xor a.sign b.sign) (x / y)
  | some _, none => if b = nan then nan else if xor a.sign b.sign = true then nzero else fin 0
  | none, some _ => if a = nan then nan else if xor a.sign b.sign = true then ninf else pinf
  | none, none => nan

/-- The sum `a + b`: an exact zero sum is `+0.0` unless both terms are
negative zeros; `inf + -inf` is NaN. -/
def add (a b : F32) : F32 :=
  match a.value, b.value with
  | some x, some y => round (a.sign && b.sign) (x + y)
  | some _, none => b
  | none, some _ => a
  | none, none => if a = b then a else nan

/-- The negation `-a`: flips the sign bit. -/
def neg : F32 → F32
  | fin q => if q = 0 then nzero else fin (-q)
  | nzero => fin 0
  | pinf => ninf
  | ninf => pinf
  | nan => nan

/-- The difference `a - b`. -/
def sub (a b : F32) : F32 := add a (neg b)

/-- The comparison `a < b`: false when either side is NaN; the two zeros are
equal. -/
def lt (a b : F32) : Bool :=
  match a, b with
  | nan, _ => false
  | _, nan => false
  | pinf, _ => false
  | _, ninf => false
  | ninf, _ => true
  | _, pinf => true
  | a, b => decide (a.toRat < b.toRat)

/-- The comparison `a <= b`: false when either side is NaN. -/
def le (a b : F32) : Bool :=
  match a, b with
  | nan, _ => false
  | _, nan => false
  | ninf, _ => true
  | _, pinf => true
  | pinf, _ => false
  | _, ninf => false
  | a, b => decide (a.toRat ≤ b.toRat)

/-- Bit-by-bit integer square root. -/
def isqrt_aux : Nat → Nat → Nat → Nat
  | 0, n, r => if (r + 1) * (r + 1) ≤ n then r + 1 else r
  | b + 1, n, r =>
    isqrt_aux b n (if (r + 2 ^ (b + 1)) * (r + 2 ^ (b + 1)) ≤ n then r + 2 ^ (b + 1) else r)

/-- The integer part of the square root of `n`. -/
def isqrt (n : Nat) : Nat := isqrt_aux (ilog2 n / 2 + 1) n 0

/-- The representable value nearest to the square root of `q > 0`. -/
def sqrt_pos (q : ℚ) : ℚ :=
  let ulp := pow2 (max (exponent q / 2) (-126) - 23)
  let y := q / (ulp * ulp)
  let m := isqrt (y.num.natAbs / y.den)
  let c : ℚ := (m : ℚ) * m + m + 1 / 4
  (if y < c then (m : ℚ) else if c < y then (m : ℚ) + 1
    else if m % 2 = 0 then (m : ℚ) else (m : ℚ) + 1) * ulp

/-- The function `sqrtf` of the C library, which IEEE 754 requires to be
correctly rounded. -/
def sqrt : F32 → F32
  | fin q => if q < 0 then nan else if q = 0 then fin 0 else fin (sqrt_pos q)
  | nzero => nzero
  | pinf => pinf
  | ninf => nan
  | nan => nan

instance : Zero F32 := ⟨fin 0⟩

instance : One F32 := ⟨fin 1⟩

instance : Add F32 := ⟨add⟩

instance : Sub F32 := ⟨sub⟩

instance : Mul F32 := ⟨mul⟩

instance : Div F32 := ⟨div⟩

instance : Neg F32 := ⟨neg⟩

instance : LT F32 := ⟨fun a b => lt a b = true⟩

instance : LE F32 := ⟨fun a b => le a b = true⟩

instance : DecidableRel (α := F32) (· < ·) :=
  fun a b => inferInstanceAs (Decidable (lt a b = true))

instance : DecidableRel (α := F32) (· ≤ ·) :=
  fun a b => inferInstanceAs (Decidable (le a b = true))

/-- Conversion of an `unsigned` to `float`. -/
instance : NatCast F32 := ⟨fun n => round false n⟩

end F32

section Definitions

variable {α : Type} [Zero α] [One α] [Add α] [Sub α] [Mul α] [Div α] [Neg α] [LT α] [LE α]
  [NatCast α] [DecidableRel (α := α) (· < ·)] [DecidableRel (α := α) (· ≤ ·)] [DecidableEq α]

/-! ## Constants and functions of the C library -/

/-- Largest finite `float`: `(2 - 2^-23) * 2^127`, an integer. -/
def FLT_MAX : α := ((2 ^ 128 - 2 ^ 104 : ℕ) : α)

/-- Smallest positive normal `float`: `2^-126`. -/
def FLT_MIN : α := 1 / ((2 ^ 126 : ℕ) : α)

/-- The function `fabsf` of the C library (of a negative zero it returns the
negative zero, which compares equal to the `+0.0` that `fabsf` returns). -/
def fabsf (x : α) : α := if x < 0 then -x else x

/-! ## Vector kernel (`algorithm.h`) -/

/-- Three floats, indexed by axis. -/
abbrev Vec3 (α : Type) := Fin 3 → α

/-- Two floats, indexed by image axis. -/
abbrev Vec2 (α : Type) := Fin 2 → α

/-- Modelled from the spec: `algorithm.h` is not among the source files; the
spec lists the 3D vector operations (add, subtract, scale, dot, cross,
normalize, magnitude).  `sqr x` is the square of `x`. -/
def sqr (x : α) : α := x * x

/-- Modelled from the spec: component-wise sum (`algorithm.h` is missing). -/
def add3 (a b : Vec3 α) : Vec3 α := fun i => a i + b i

/-- Modelled from the spec: component-wise sum of three vectors
(`algorithm.h` is missing). -/
def add3_3 (a b c : Vec3 α) : Vec3 α := fun i => a i + b i + c i

/-- Modelled from the spec: component-wise difference (`algorithm.h` is
missing). -/
def subtract3 (a b : Vec3 α) : Vec3 α := fun i => a i - b i

/-- Modelled from the spec: scaling by a scalar (`algorithm.h` is missing). -/
def multiply3 (v : Vec3 α) (s : α) : Vec3 α := fun i => v i * s

/-- Modelled from the spec: adding a scalar to every component
(`algorithm.h` is missing). -/
def add3s (v : Vec3 α) (s : α) : Vec3 α := fun i => v i + s

/-- Modelled from the spec: subtracting a scalar from every component
(`algorithm.h` is missing). -/
def subtract3s (v : Vec3 α) (s : α) : Vec3 α := fun i => v i - s

/-- Modelled from the spec: dot product (`algorithm.h` is missing). -/
def dot3 (a b : Vec3 α) : α := a 0 * b 0 + a 1 * b 1 + a 2 * b 2

/-- Modelled from the spec: cross product (`algorithm.h` is missing). -/
def cross (a b : Vec3 α) : Vec3 α :=
  ![a 1 * b 2 - a 2 * b 1, a 2 * b 0 - a 0 * b 2, a 0 * b 1 - a 1 * b 0]

/-- Modelled from the spec: Euclidean length (`algorithm.h` is missing). -/
def magnitude3 (sqrtf : α → α) (v : Vec3 α) : α :=
  sqrtf (sqr (v 0) + sqr (v 1) + sqr (v 2))

/-- Modelled from the spec: scaling to unit length (`algorithm.h` is
missing). -/
def normalize3 (sqrtf : α → α) (v : Vec3 α) : Vec3 α :=
  multiply3 v (1 / magnitude3 sqrtf v)

/-- A ray: `origin + t * direction`; the direction need not be a unit vector. -/
structure Line (α : Type) where
  position : Vec3 α
  vector : Vec3 α

/-! ## Plane -/

/-- Plane `normal . p = d`. -/
structure Plane (α : Type) where
  epsilon : α
  normal : Vec3 α
  d : α

/-- Closest hit of a ray with a plane: the distance and the normal written on a
hit. -/
def get_intersection_plane (plane : Plane α) (ray : Line α) : Option (α × Vec3 α) :=
  let a := dot3 plane.normal ray.vector
  if fabsf a < plane.epsilon then none
  else
    let distance := (plane.d - dot3 plane.normal ray.position) / dot3 plane.normal ray.vector
    if distance > plane.epsilon then some (distance, plane.normal)
    else none

/-- Occlusion query of a ray with a plane. -/
def intersects_in_range_plane (plane : Plane α) (ray : Line α) (min_distance : α) : Bool :=
  let a := dot3 plane.normal ray.vector
  if fabsf a < plane.epsilon then false
  else
    let distance := (plane.d - dot3 plane.normal ray.position) / dot3 plane.normal ray.vector
    decide (distance > plane.epsilon ∧ distance < min_distance)

/-- Plane through `point` with the given normal. -/
def init_plane (epsilon : α) (normal point : Vec3 α) : Plane α :=
  { epsilon := epsilon, normal := normal, d := dot3 normal point }

/-! ## Primitive intersection routines (`algorithm.h`) -/

/-- Modelled from the spec: `moller_trumbore` lives in the missing
`algorithm` unit.  The spec (section 4.3): with `e1 = edges[0]`,
`e2 = edges[1]`, `pvec = D x e2`, `det = e1 . pvec`; no hit if
`|det| < epsilon`; barycentric `u`, `v` by Cramer's rule, rejected if `u` is
outside `[0,1]`, `v < 0` or `u + v > 1`; the ray parameter `t` is a hit only if
`t > epsilon`.  The result is the distance written on a hit. -/
def moller_trumbore (vertex : Vec3 α) (edges : Fin 2 → Vec3 α)
    (line_position line_vector : Vec3 α) (epsilon : α) : Option α :=
  let pvec := cross line_vector (edges 1)
  let det := dot3 (edges 0) pvec
  if fabsf det < epsilon then none
  else
    let inv_det := 1 / det
    let tvec := subtract3 line_position vertex
    let u := dot3 tvec pvec * inv_det
    if u < 0 ∨ u > 1 then none
    else
      let qvec := cross tvec (edges 0)
      let v := dot3 line_vector qvec * inv_det
      if v < 0 ∨ u + v > 1 then none
      else
        let t := dot3 (edges 1) qvec * inv_det
        if t > epsilon then some t else none

/-- Modelled from the spec: `line_intersects_sphere` lives in the missing
`algorithm` unit.  The spec (section 4.3): solve `|O + tD - C|^2 = r^2`; no hit
if the discriminant is negative; take the smaller root if it exceeds epsilon,
else the larger root if it exceeds epsilon, else no hit. -/
def line_intersects_sphere (sqrtf : α → α) (sphere_position : Vec3 α) (sphere_radius : α)
    (line_position line_vector : Vec3 α) (epsilon : α) : Option α :=
  let oc := subtract3 line_position sphere_position
  let a := dot3 line_vector line_vector
  let b := 2 * dot3 line_vector oc
  let c := dot3 oc oc - sqr sphere_radius
  let discriminant := sqr b - 4 * a * c
  if discriminant < 0 then none
  else
    let t1 := (-b - sqrtf discriminant) / (2 * a)
    if t1 > epsilon then some t1
    else
      let t2 := (-b + sqrtf discriminant) / (2 * a)
      if t2 > epsilon then some t2 else none

/-! ## Bounding shapes -/

/-- Bounding sphere: centre and radius. -/
structure BoundingSphere (α : Type) where
  epsilon : α
  position : Vec3 α
  radius : α

/-- Bounding cuboid: `corners 0` is the min corner, `corners 1` the max
corner. -/
structure BoundingCuboid (α : Type) where
  epsilon : α
  corners : Fin 2 → Vec3 α

/-- The C handle is a union of pointers to the two variants; the variant is
selected by the `intersects` function pointer stored in the common prefix. -/
inductive BoundingShape (α : Type) where
  | sphere : BoundingSphere α → BoundingShape α
  | cuboid : BoundingCuboid α → BoundingShape α

/-- Sphere pre-filter: any hit of the ray with the sphere; the distance is
discarded. -/
def intersects_bounding_sphere (sqrtf : α → α) (sphere : BoundingSphere α) (ray : Line α) :
    Bool :=
  (line_intersects_sphere sqrtf sphere.position sphere.radius ray.position ray.vector
    sphere.epsilon).isSome

/-- Constructor of a bounding sphere. -/
def init_bounding_sphere (epsilon : α) (position : Vec3 α) (radius : α) : BoundingSphere α :=
  { epsilon := epsilon, position := position, radius := radius }

/-- Slab test of a ray against an axis-aligned box.  Each `if`/`else` of the
C code assigns a pair (`tmin`, `tmax`), (`tymin`, `tymax`), (`tzmin`, `tzmax`);
`tx`, `ty`, `tz` are those pairs and `txy` is (`tmin`, `tmax`) after the two
updates that follow the first rejection test. -/
def intersects_bounding_cuboid (cuboid : BoundingCuboid α) (ray : Line α) : Bool :=
  let divx := 1 / ray.vector 0
  let tx :=
    if divx ≥ 0 then
      ((cuboid.corners 0 0 - ray.position 0) * divx, (cuboid.corners 1 0 - ray.position 0) * divx)
    else
      ((cuboid.corners 1 0 - ray.position 0) * divx, (cuboid.corners 0 0 - ray.position 0) * divx)
  let divy := 1 / ray.vector 1
  let ty :=
    if divy ≥ 0 then
      ((cuboid.corners 0 1 - ray.position 1) * divy, (cuboid.corners 1 1 - ray.position 1) * divy)
    else
      ((cuboid.corners 1 1 - ray.position 1) * divy, (cuboid.corners 0 1 - ray.position 1) * divy)
  if tx.1 > ty.2 ∨ ty.1 > tx.2 then false
  else
    let txy := (if ty.1 > tx.1 then ty.1 else tx.1, if ty.2 < tx.2 then ty.2 else tx.2)
    let divz := 1 / ray.vector 2
    let tz :=
      if divz ≥ 0 then
        ((cuboid.corners 0 2 - ray.position 2) * divz, (cuboid.corners 1 2 - ray.position 2) * divz)
      else
        ((cuboid.corners 1 2 - ray.position 2) * divz, (cuboid.corners 0 2 - ray.position 2) * divz)
    if txy.1 > tz.2 ∨ tz.1 > txy.2 then false
    else true

/-- Constructor of a bounding cuboid. -/
def init_bounding_cuboid (epsilon : α) (corners : Fin 2 → Vec3 α) : BoundingCuboid α :=
  { epsilon := epsilon, corners := corners }

/-- The call `shape.common->intersects(shape, ray)`. -/
def BoundingShape.intersects (sqrtf : α → α) (shape : BoundingShape α) (ray : Line α) : Bool :=
  match shape with
  | .sphere s => intersects_bounding_sphere sqrtf s ray
  | .cuboid c => intersects_bounding_cuboid c ray

/-! ## Mesh -/

/-- Triangle ABC of a mesh, with its two edge vectors and face normal. -/
structure MeshTriangle (α : Type) where
  vertices : Fin 3 → Vec3 α
  edges : Fin 2 → Vec3 α
  normal : Vec3 α

/-- A mesh: `triangles` has `num_triangles` entries.  Of the common object
members only `epsilon` is used by this unit. -/
structure Mesh (α : Type) where
  epsilon : α
  triangles : List (MeshTriangle α)
  bounding_shape : BoundingShape α

/-- Body of the loop of `get_intersection_mesh`; the state is `*distance` and
`closest_triangle` (`none` is `NULL`). -/
def get_intersection_mesh_step (epsilon : α) (ray : Line α)
    (st : α × Option (MeshTriangle α)) (triangle : MeshTriangle α) :
    α × Option (MeshTriangle α) :=
  match moller_trumbore (triangle.vertices 0) triangle.edges ray.position ray.vector
      epsilon with
  | some cur_distance => if cur_distance < st.1 then (cur_distance, some triangle) else st
  | none => st

/-- Closest hit of a ray with a mesh (build without `SHOW_BOUNDING_SHAPES`).
The test `*distance == FLT_MAX` is written with `=`: a `float` compares equal
to `FLT_MAX` exactly when it is `FLT_MAX`. -/
def get_intersection_mesh (sqrtf : α → α) (mesh : Mesh α) (ray : Line α) :
    Option (α × Vec3 α) :=
  if ¬ mesh.bounding_shape.intersects sqrtf ray = true then none
  else
    let st := mesh.triangles.foldl (get_intersection_mesh_step mesh.epsilon ray) (FLT_MAX, none)
    if st.1 = FLT_MAX then none
    else
      match st.2 with
      | some closest_triangle => some (st.1, closest_triangle.normal)
      | none => none

/-- Occlusion query of a ray with a mesh; `List.any` stops at the first
qualifying triangle, as the early `return true` does. -/
def intersects_in_range_mesh (sqrtf : α → α) (mesh : Mesh α) (ray : Line α)
    (min_distance : α) : Bool :=
  if mesh.bounding_shape.intersects sqrtf ray = true then
    mesh.triangles.any (fun triangle =>
      match moller_trumbore (triangle.vertices 0) triangle.edges ray.position ray.vector
          mesh.epsilon with
      | some distance => decide (distance < min_distance)
      | none => false)
  else false

/-- The triangle record that `mesh_set_triangle` writes for three vertices. -/
def mesh_triangle_of (vertices : Fin 3 → Vec3 α) : MeshTriangle α :=
  let edges : Fin 2 → Vec3 α :=
    ![subtract3 (vertices 1) (vertices 0), subtract3 (vertices 2) (vertices 0)]
  { vertices := vertices, edges := edges, normal := cross (edges 0) (edges 1) }

/-- Writes triangle `index` of the mesh (an index outside the array, undefined
in C, leaves the list unchanged). -/
def mesh_set_triangle (mesh : Mesh α) (index : Nat) (vertices : Fin 3 → Vec3 α) : Mesh α :=
  { mesh with triangles := mesh.triangles.set index (mesh_triangle_of vertices) }

/-- Innermost loop body of `mesh_generate_bounding_cuboid`: one axis of one
vertex. -/
def cuboid_scan_direction (vertex : Vec3 α) (corners : Fin 2 → Vec3 α) (direction : Fin 3) :
    Fin 2 → Vec3 α :=
  let corners1 :=
    if vertex direction < corners 0 direction then
      Function.update corners 0 (Function.update (corners 0) direction (vertex direction))
    else corners
  if vertex direction > corners1 1 direction then
    Function.update corners1 1 (Function.update (corners1 1) direction (vertex direction))
  else corners1

/-- Loop over the three axes of one vertex. -/
def cuboid_scan_vertex (corners : Fin 2 → Vec3 α) (vertex : Vec3 α) : Fin 2 → Vec3 α :=
  ([0, 1, 2] : List (Fin 3)).foldl (cuboid_scan_direction vertex) corners

/-- Loop over the three vertices of one triangle. -/
def cuboid_scan_triangle (corners : Fin 2 → Vec3 α) (triangle : MeshTriangle α) :
    Fin 2 → Vec3 α :=
  ([0, 1, 2] : List (Fin 3)).foldl
    (fun corners vertex_index => cuboid_scan_vertex corners (triangle.vertices vertex_index))
    corners

/-- The `corners` array at the end of the scan of `mesh_generate_bounding_cuboid`. -/
def mesh_bounding_corners (mesh : Mesh α) : Fin 2 → Vec3 α :=
  mesh.triangles.foldl cuboid_scan_triangle
    ![![FLT_MAX, FLT_MAX, FLT_MAX], ![FLT_MIN, FLT_MIN, FLT_MIN]]

/-- Axis-aligned bounding box of a mesh, attached as its bounding shape. -/
def mesh_generate_bounding_cuboid (mesh : Mesh α) : Mesh α :=
  { mesh with
    bounding_shape := .cuboid (init_bounding_cuboid mesh.epsilon (mesh_bounding_corners mesh)) }

/-- Innermost loop body of the first scan of `mesh_generate_bounding_sphere`;
the state is (`min_points`, `max_points`). -/
def sphere_scan_direction (vertex : Vec3 α) (st : (Fin 3 → Vec3 α) × (Fin 3 → Vec3 α))
    (direction : Fin 3) : (Fin 3 → Vec3 α) × (Fin 3 → Vec3 α) :=
  let max_points :=
    if vertex direction > st.2 direction direction then Function.update st.2 direction vertex
    else st.2
  let min_points :=
    if vertex direction < st.1 direction direction then Function.update st.1 direction vertex
    else st.1
  (min_points, max_points)

/-- First scan of `mesh_generate_bounding_sphere`, the three axes of one
vertex. -/
def sphere_scan_vertex (st : (Fin 3 → Vec3 α) × (Fin 3 → Vec3 α)) (vertex : Vec3 α) :
    (Fin 3 → Vec3 α) × (Fin 3 → Vec3 α) :=
  ([0, 1, 2] : List (Fin 3)).foldl (sphere_scan_direction vertex) st

/-- First scan of `mesh_generate_bounding_sphere`, one triangle. -/
def sphere_scan_triangle (st : (Fin 3 → Vec3 α) × (Fin 3 → Vec3 α))
    (triangle : MeshTriangle α) : (Fin 3 → Vec3 α) × (Fin 3 → Vec3 α) :=
  ([0, 1, 2] : List (Fin 3)).foldl
    (fun st vertex_index => sphere_scan_vertex st (triangle.vertices vertex_index)) st

/-- Loop body of the choice of the axis of largest separation; the state is
(`max_distance`, `direction`), `direction` being an `unsigned`. -/
def sphere_axis_step (sqrtf : α → α) (distance_vectors : Fin 3 → Vec3 α) (st : α × Nat)
    (i : Fin 3) : α × Nat :=
  let distance := magnitude3 sqrtf (distance_vectors i)
  if st.1 < distance then (distance, i.val) else st

/-- Loop body of the second scan of `mesh_generate_bounding_sphere`, one
vertex; the state is (`sphere_position`, `sphere_radius`, `sphere_radius_sqr`). -/
def sphere_grow_vertex (sqrtf : α → α) (epsilon : α) (st : Vec3 α × α × α) (vertex : Vec3 α) :
    Vec3 α × α × α :=
  let sphere_to_point := subtract3 vertex st.1
  let distance_sqr := sqr (sphere_to_point 0) + sqr (sphere_to_point 1) + sqr (sphere_to_point 2)
  if st.2.2 < distance_sqr then
    let half_distance := 1 / 2 * (sqrtf distance_sqr - st.2.1) + epsilon
    let sphere_radius := st.2.1 + half_distance
    (add3 st.1 (multiply3 (normalize3 sqrtf sphere_to_point) half_distance),
      sphere_radius, sqr sphere_radius)
  else st

/-- Second scan of `mesh_generate_bounding_sphere`, one triangle. -/
def sphere_grow_triangle (sqrtf : α → α) (epsilon : α) (st : Vec3 α × α × α)
    (triangle : MeshTriangle α) : Vec3 α × α × α :=
  ([0, 1, 2] : List (Fin 3)).foldl
    (fun st vertex_index => sphere_grow_vertex sqrtf epsilon st (triangle.vertices vertex_index))
    st

/-- The arrays (`min_points`, `max_points`) after the first scan of
`mesh_generate_bounding_sphere`. -/
def sphere_extreme_points (mesh : Mesh α) : (Fin 3 → Vec3 α) × (Fin 3 → Vec3 α) :=
  mesh.triangles.foldl sphere_scan_triangle
    (![![FLT_MAX, 0, 0], ![0, FLT_MAX, 0], ![0, 0, FLT_MAX]],
      ![![FLT_MIN, 0, 0], ![0, FLT_MIN, 0], ![0, 0, FLT_MIN]])

/-- The array `distance_vectors`: `max_points[i] - min_points[i]`. -/
def sphere_distance_vectors (mesh : Mesh α) : Fin 3 → Vec3 α :=
  fun i => subtract3 ((sphere_extreme_points mesh).2 i) ((sphere_extreme_points mesh).1 i)

/-- The pair (`max_distance`, `direction`) after the loop that chooses the axis
of largest separation.  `direction = -1` stores `UINT_MAX` in the `unsigned`. -/
def sphere_axis (sqrtf : α → α) (mesh : Mesh α) : α × Nat :=
  ([0, 1, 2] : List (Fin 3)).foldl (sphere_axis_step sqrtf (sphere_distance_vectors mesh))
    (FLT_MIN, 4294967295)

/-- Ritter's bounding sphere.  Indexing `distance_vectors` and `min_points`
with a `direction` that is not 0, 1 or 2 is a read outside the arrays, for
which the result is `none`. -/
def mesh_generate_bounding_sphere (sqrtf : α → α) (mesh : Mesh α) : Option (Mesh α) :=
  let min_points := (sphere_extreme_points mesh).1
  let distance_vectors := sphere_distance_vectors mesh
  let max_distance := (sphere_axis sqrtf mesh).1
  let direction := (sphere_axis sqrtf mesh).2
  if h : direction < 3 then
    let sphere_position :=
      add3 (multiply3 (distance_vectors ⟨direction, h⟩) (1 / 2)) (min_points ⟨direction, h⟩)
    let sphere_radius := 1 / 2 * max_distance
    let sphere_radius_sqr := sqr sphere_radius
    let st := mesh.triangles.foldl (sphere_grow_triangle sqrtf mesh.epsilon)
      (sphere_position, sphere_radius, sphere_radius_sqr)
    some { mesh with
      bounding_shape := .sphere (init_bounding_sphere mesh.epsilon st.1 st.2.1) }
  else none

/-! ## Sphere -/

/-- A sphere object with its own bounding cuboid. -/
structure Sphere (α : Type) where
  epsilon : α
  position : Vec3 α
  radius : α
  bounding_shape : BoundingShape α

/-- Closest hit of a ray with a sphere; the normal is the hit point minus the
centre. -/
def get_intersection_sphere (sqrtf : α → α) (sphere : Sphere α) (ray : Line α) :
    Option (α × Vec3 α) :=
  if sphere.bounding_shape.intersects sqrtf ray = true then
    match line_intersects_sphere sqrtf sphere.position sphere.radius ray.position ray.vector
        sphere.epsilon with
    | some distance =>
      some (distance,
        subtract3 (add3 (multiply3 ray.vector distance) ray.position) sphere.position)
    | none => none
  else none

/-- Occlusion query of a ray with a sphere. -/
def intersects_in_range_sphere (sqrtf : α → α) (sphere : Sphere α) (ray : Line α)
    (min_distance : α) : Bool :=
  if sphere.bounding_shape.intersects sqrtf ray = true then
    match line_intersects_sphere sqrtf sphere.position sphere.radius ray.position ray.vector
        sphere.epsilon with
    | some distance => decide (distance < min_distance)
    | none => false
  else false

/-- Constructor of a sphere: the bounding cuboid has corners
`position - radius` and `position + radius`. -/
def init_sphere (epsilon : α) (position : Vec3 α) (radius : α) : Sphere α :=
  let corners : Fin 2 → Vec3 α := ![subtract3s position radius, add3s position radius]
  { epsilon := epsilon, position := position, radius := radius,
    bounding_shape := .cuboid (init_bounding_cuboid epsilon corners) }

/-! ## Triangle -/

/-- A standalone triangle ABC. -/
structure Triangle (α : Type) where
  epsilon : α
  vertices : Fin 3 → Vec3 α
  edges : Fin 2 → Vec3 α
  normal : Vec3 α

/-- Closest hit of a ray with a standalone triangle. -/
def get_intersection_triangle (triangle : Triangle α) (ray : Line α) : Option (α × Vec3 α) :=
  match moller_trumbore (triangle.vertices 0) triangle.edges ray.position ray.vector
      triangle.epsilon with
  | some distance => some (distance, triangle.normal)
  | none => none

/-- Occlusion query of a ray with a standalone triangle. -/
def intersects_in_range_triangle (triangle : Triangle α) (ray : Line α) (min_distance : α) :
    Bool :=
  match moller_trumbore (triangle.vertices 0) triangle.edges ray.position ray.vector
      triangle.epsilon with
  | some distance => decide (distance < min_distance)
  | none => false

/-- Constructor of a standalone triangle. -/
def init_triangle (epsilon : α) (vertices : Fin 3 → Vec3 α) : Triangle α :=
  let edges : Fin 2 → Vec3 α :=
    ![subtract3 (vertices 1) (vertices 0), subtract3 (vertices 2) (vertices 0)]
  { epsilon := epsilon, vertices := vertices, edges := edges,
    normal := cross (edges 0) (edges 1) }

/-! ## Camera -/

/-- Image geometry of a camera (the pixel buffer is left out). -/
structure Image (α : Type) where
  resolution : Fin 2 → Nat
  size : Vec2 α
  vectors : Fin 2 → Vec3 α
  corner : Vec3 α

/-- Camera: `vectors 0` is right, `vectors 1` is up, `vectors 2` is forward. -/
structure Camera (α : Type) where
  position : Vec3 α
  vectors : Fin 3 → Vec3 α
  focal_length : α
  image : Image α

/-- Constructor of a camera.  `.5 - resolution / 2.` is computed in floating
point (no integer division); the `unsigned` resolution is converted to a
float by the cast from `Nat`.  The C expression is a `double`; for a
resolution below `2^24` it is exact in `double` and in `float` alike, and its
product with a `float` is rounded once, as here. -/
def init_camera (sqrtf : α → α) (position : Vec3 α) (vectors : Fin 2 → Vec3 α)
    (focal_length : α) (image_resolution : Fin 2 → Nat) (image_size : Vec2 α) : Camera α :=
  let v0 := normalize3 sqrtf (vectors 0)
  let v1 := normalize3 sqrtf (vectors 1)
  let v2 := cross v0 v1
  let focal_vector := multiply3 v2 focal_length
  let plane_center := add3 focal_vector position
  let image_vectors : Fin 2 → Vec3 α :=
    ![multiply3 v0 (image_size 0 / (image_resolution 0 : α)),
      multiply3 v1 (image_size 1 / (image_resolution 1 : α))]
  let corner_offset_vectors : Fin 2 → Vec3 α :=
    ![multiply3 (image_vectors 0) (1 / 2 - (image_resolution 0 : α) / 2),
      multiply3 (image_vectors 1) (1 / 2 - (image_resolution 1 : α) / 2)]
  { position := position, vectors := ![v0, v1, v2], focal_length := focal_length,
    image :=
      { resolution := image_resolution, size := image_size, vectors := image_vectors,
        corner := add3_3 plane_center (corner_offset_vectors 0) (corner_offset_vectors 1) } }

/-! ## Compositions of the code used in the statements -/

/-- A mesh as `stl_load` builds it: every triangle written by
`mesh_set_triangle`, then `mesh_generate_bounding_cuboid`.  The bounding shape
given before the generator runs is overwritten by it. -/
def mesh_with_cuboid (epsilon : α) (triangles : List (Fin 3 → Vec3 α)) : Mesh α :=
  mesh_generate_bounding_cuboid
    { epsilon := epsilon, triangles := triangles.map mesh_triangle_of,
      bounding_shape := .cuboid (init_bounding_cuboid epsilon ![![0, 0, 0], ![0, 0, 0]]) }

/-- The per-triangle test that the mesh loops run. -/
def mesh_triangle_hit (epsilon : α) (ray : Line α) (triangle : MeshTriangle α) : Option α :=
  moller_trumbore (triangle.vertices 0) triangle.edges ray.position ray.vector epsilon

/-! ## STL loader (`stl.c`) -/

/-- The matrix `rotation_matrix` that `stl_load` builds from the angles
`rot[X]`, `rot[Y]`, `rot[Z]`; `cosf` and `sinf` are parameters. -/
def stl_rotation_matrix (cosf sinf : α → α) (rot : Vec3 α) : Fin 3 → Vec3 α :=
  let a := cosf (rot 2) * sinf (rot 1)
  let b := sinf (rot 2) * sinf (rot 1)
  ![![cosf (rot 2) * cosf (rot 1),
      a * sinf (rot 0) - sinf (rot 2) * cosf (rot 0),
      a * cosf (rot 0) + sinf (rot 2) * sinf (rot 0)],
    ![sinf (rot 2) * cosf (rot 1),
      b * sinf (rot 0) + cosf (rot 2) * cosf (rot 0),
      b * cosf (rot 0) - cosf (rot 2) * sinf (rot 0)],
    ![-sinf (rot 1), cosf (rot 1) * sinf (rot 0), cosf (rot 1) * cosf (rot 0)]]

/-- Body of the loop over `j` in `stl_load`: rotate, scale, translate one
vertex. -/
def stl_transform_vertex (rotation_matrix : Fin 3 → Vec3 α) (position : Vec3 α) (scale : α)
    (vertex : Vec3 α) : Vec3 α :=
  let rotated_vertex : Vec3 α :=
    ![dot3 (rotation_matrix 0) vertex, dot3 (rotation_matrix 1) vertex,
      dot3 (rotation_matrix 2) vertex]
  add3 (multiply3 rotated_vertex scale) position

/-- What `stl_load` reads from the file: the bytes at its start (the read of
five of them fails if there are fewer), the triangle count that
`stl_get_num_triangles` reads after the 80-byte header (`none` if that read
fails) and the vertex triples of the triangle records that follow (the facet
normal and attribute bytes of a record are not used). -/
structure STLFile (α : Type) where
  header : List Char
  num_triangles : Option Nat
  triangles : List (Fin 3 → Vec3 α)

/-- The failures that `err_assert` reports in `stl_load`; a failing `fseek`
(`ERR_STL_IO_FP`) is not modelled. -/
inductive STLError where
  | ERR_STL_IO_READ : STLError
  | ERR_STL_ENCODING : STLError

/-- Loads a mesh from a binary STL file: every vertex is rotated, scaled and
translated, the triangle is written by `mesh_set_triangle`, and the bounding
cuboid is generated at the end. -/
def stl_load (cosf sinf : α → α) (epsilon : α) (file : STLFile α) (position rot : Vec3 α)
    (scale : α) : Except STLError (Mesh α) :=
  if file.header.length < 5 then .error .ERR_STL_IO_READ
  else if file.header.take 5 = ['s', 'o', 'l', 'i', 'd'] then .error .ERR_STL_ENCODING
  else
    let rotation_matrix := stl_rotation_matrix cosf sinf rot
    match file.num_triangles with
    | none => .error .ERR_STL_IO_READ
    | some num_triangles =>
      if file.triangles.length < num_triangles then .error .ERR_STL_IO_READ
      else
        .ok (mesh_with_cuboid epsilon
          ((file.triangles.take num_triangles).map fun stl_triangle j =>
            stl_transform_vertex rotation_matrix position scale (stl_triangle j)))

/-- The pair (`tmin`, `tmax`) that one axis of `intersects_bounding_cuboid`
computes from the two corner coordinates, the ray origin and direction. -/
def slab_interval (c0 c1 p v : α) : α × α :=
  if 1 / v ≥ 0 then ((c0 - p) * (1 / v), (c1 - p) * (1 / v))
  else ((c1 - p) * (1 / v), (c0 - p) * (1 / v))

/-- The two rejection tests of `intersects_bounding_cuboid` on the three pairs
(`tmin`, `tmax`), (`tymin`, `tymax`), (`tzmin`, `tzmax`). -/
def interval_test (tx ty tz : α × α) : Bool :=
  if tx.1 > ty.2 ∨ ty.1 > tx.2 then false
  else if (if ty.1 > tx.1 then ty.1 else tx.1) > tz.2 ∨
      tz.1 > (if ty.2 < tx.2 then ty.2 else tx.2) then false
  else true

end Definitions

section Auxiliary

variable {α : Type} [LinearOrderedField α]

/-! ## Auxiliary definitions of the exact-arithmetic statements -/

/-- The point `q` lies in the closed ball of centre `c` and radius `r`
(stated on squared distances). -/
def sphere_contains (c : Vec3 α) (r : α) (q : Vec3 α) : Prop :=
  sqr (q 0 - c 0) + sqr (q 1 - c 1) + sqr (q 2 - c 2) ≤ sqr r

/-! ## Exact arithmetic with infinities

The values that the slab test computes on `float` when no operation rounds:
exact values extended by the two infinities and NaN.  `slab_test_extended` is
the reference that `intersects_bounding_cuboid` on `F32` is compared with
(`float_intersects_bounding_cuboid_eq_extended`); it is not an embedding of
the code. -/

/-- An exact value, an infinity or NaN. -/
inductive Extended (α : Type) where
  | fin : α → Extended α
  | pinf : Extended α
  | ninf : Extended α
  | nan : Extended α

/-- The quotient `1 / v`: for a zero `v` it is an infinity with the sign of the
zero (`neg_zero` says that the zero is `-0.0`). -/
def Extended.recip (neg_zero : Bool) (v : α) : Extended α :=
  if v = 0 then (if neg_zero = true then .ninf else .pinf) else .fin (1 / v)

/-- The product `a * d` for a finite `a`: zero times an infinity is NaN. -/
def Extended.mul_fin (a : α) (d : Extended α) : Extended α :=
  match d with
  | .fin x => .fin (a * x)
  | .pinf => if 0 < a then .pinf else if a < 0 then .ninf else .nan
  | .ninf => if 0 < a then .ninf else if a < 0 then .pinf else .nan
  | .nan => .nan

/-- The comparison `x < y`; false when either side is NaN. -/
def Extended.lt (x y : Extended α) : Bool :=
  match x, y with
  | .fin a, .fin b => decide (a < b)
  | .fin _, .pinf => true
  | .ninf, .fin _ => true
  | .ninf, .pinf => true
  | _, _ => false

/-- The comparison `d >= 0`. -/
def Extended.ge_zero (d : Extended α) : Bool :=
  match d with
  | .fin x => decide (0 ≤ x)
  | .pinf => true
  | _ => false

/-- The pair (`tmin`, `tmax`) of one axis of the slab test, in exact
arithmetic with infinities. -/
def slab_interval_extended (c0 c1 p v : α) (neg_zero : Bool) : Extended α × Extended α :=
  let div := Extended.recip neg_zero v
  if div.ge_zero = true then (Extended.mul_fin (c0 - p) div, Extended.mul_fin (c1 - p) div)
  else (Extended.mul_fin (c1 - p) div, Extended.mul_fin (c0 - p) div)

/-- The slab test in exact arithmetic with infinities: the comparisons of
`intersects_bounding_cuboid` on the pairs of `slab_interval_extended`;
`neg_zero i` says that a zero component `i` of the direction is `-0.0`.
`a > b` is written `Extended.lt b a`. -/
def slab_test_extended (cuboid : BoundingCuboid α) (ray : Line α)
    (neg_zero : Fin 3 → Bool) : Bool :=
  let divx := Extended.recip (neg_zero 0) (ray.vector 0)
  let tx :=
    if divx.ge_zero = true then
      (Extended.mul_fin (cuboid.corners 0 0 - ray.position 0) divx,
        Extended.mul_fin (cuboid.corners 1 0 - ray.position 0) divx)
    else
      (Extended.mul_fin (cuboid.corners 1 0 - ray.position 0) divx,
        Extended.mul_fin (cuboid.corners 0 0 - ray.position 0) divx)
  let divy := Extended.recip (neg_zero 1) (ray.vector 1)
  let ty :=
    if divy.ge_zero = true then
      (Extended.mul_fin (cuboid.corners 0 1 - ray.position 1) divy,
        Extended.mul_fin (cuboid.corners 1 1 - ray.position 1) divy)
    else
      (Extended.mul_fin (cuboid.corners 1 1 - ray.position 1) divy,
        Extended.mul_fin (cuboid.corners 0 1 - ray.position 1) divy)
  if Extended.lt ty.2 tx.1 = true ∨ Extended.lt tx.2 ty.1 = true then false
  else
    let txy := (if Extended.lt tx.1 ty.1 = true then ty.1 else tx.1,
      if Extended.lt ty.2 tx.2 = true then ty.2 else tx.2)
    let divz := Extended.recip (neg_zero 2) (ray.vector 2)
    let tz :=
      if divz.ge_zero = true then
        (Extended.mul_fin (cuboid.corners 0 2 - ray.position 2) divz,
          Extended.mul_fin (cuboid.corners 1 2 - ray.position 2) divz)
      else
        (Extended.mul_fin (cuboid.corners 1 2 - ray.position 2) divz,
          Extended.mul_fin (cuboid.corners 0 2 - ray.position 2) divz)
    if Extended.lt tz.2 txy.1 = true ∨ Extended.lt txy.2 tz.1 = true then false
    else true

/-- Place of a non-NaN value in the extended line (NaN is sent to the bottom;
it is only used for values known not to be NaN). -/
def Extended.toE (x : Extended α) : WithBot (WithTop α) :=
  match x with
  | .fin a => ((a : WithTop α) : WithBot (WithTop α))
  | .pinf => ((⊤ : WithTop α) : WithBot (WithTop α))
  | .ninf => ⊥
  | .nan => ⊥

/-- The comparisons of `intersects_bounding_cuboid` on the three pairs
(`tmin`, `tmax`), (`tymin`, `tymax`), (`tzmin`, `tzmax`). -/
def interval_test_extended (tx ty tz : Extended α × Extended α) : Bool :=
  if Extended.lt ty.2 tx.1 = true ∨ Extended.lt tx.2 ty.1 = true then false
  else if Extended.lt tz.2 (if Extended.lt tx.1 ty.1 = true then ty.1 else tx.1) = true ∨
      Extended.lt (if Extended.lt ty.2 tx.2 = true then ty.2 else tx.2) tz.1 = true then false
  else true

end Auxiliary

/-! ## Concrete inputs in exact arithmetic -/

/-- Vertices (0,0,0), (1,0,0), (0,1,0). -/
def unit_triangle_vertices : Fin 3 → Vec3 ℚ := ![![0, 0, 0], ![1, 0, 0], ![0, 1, 0]]

/-- The mesh holding the single triangle `unit_triangle_vertices`, with its
generated bounding cuboid. -/
def unit_mesh : Mesh ℚ := mesh_with_cuboid (1 / 1000) [unit_triangle_vertices]

/-- A mesh whose single triangle has its three vertices at the point
(1,1,1). -/
def point_mesh (α : Type) [LinearOrderedField α] : Mesh α :=
  mesh_with_cuboid (1 / 1000) [![![1, 1, 1], ![1, 1, 1], ![1, 1, 1]]]

/-- A mesh whose single triangle (-1,-1,-1), (-2,-1,-1), (-1,-2,-1) has only
negative coordinates. -/
def negative_mesh : Mesh ℚ :=
  mesh_with_cuboid (1 / 1000) [![![-1, -1, -1], ![-2, -1, -1], ![-1, -2, -1]]]

/-- The cuboid with corners (-1,-1,-1) and (1,1,1). -/
def unit_cuboid : BoundingCuboid ℚ :=
  init_bounding_cuboid (1 / 1000) ![![-1, -1, -1], ![1, 1, 1]]

/-- The plane `z = 5` with normal (0,0,1). -/
def plane_z5 : Plane ℚ := { epsilon := 1 / 1000, normal := ![0, 0, 1], d := 5 }

/-- Ray from the origin along (0,0,1). -/
def up_ray : Line ℚ := { position := ![0, 0, 0], vector := ![0, 0, 1] }

/-- Image resolution 640 x 480. -/
def vga_resolution : Fin 2 → Nat := ![640, 480]

/-- Ray from (-5,-5,-5) along (-1,-1,-1): it points away from the unit
cuboid. -/
def back_ray : Line ℚ := { position := ![-5, -5, -5], vector := ![-1, -1, -1] }

/-! ## Values of `float` data in exact arithmetic -/

/-- The value of a finite `float` in a field `K`. -/
def F32.val {K : Type} [DivisionRing K] (x : F32) : K := ((x.toRat : ℚ) : K)

/-- A `float` as an element of the exact arithmetic with infinities. -/
def F32.toExtended {K : Type} [DivisionRing K] : F32 → Extended K
  | .fin q => .fin (q : K)
  | .nzero => .fin 0
  | .pinf => .pinf
  | .ninf => .ninf
  | .nan => .nan

/-- The values of the coordinates of a cuboid. -/
def cuboid_val {K : Type} [DivisionRing K] (cuboid : BoundingCuboid F32) : BoundingCuboid K :=
  { epsilon := cuboid.epsilon.val, corners := fun k i => (cuboid.corners k i).val }

/-- The values of the coordinates of a ray. -/
def line_val {K : Type} [DivisionRing K] (ray : Line F32) : Line K :=
  { position := fun i => (ray.position i).val, vector := fun i => (ray.vector i).val }

/-- One axis of the slab test, with a non-zero direction component `v`, is
computed without rounding error: `v` is finite and the reciprocal `1 / v` and
the two products `(c0 - p) * (1 / v)`, `(c1 - p) * (1 / v)` that the code
computes are finite and have the values of the exact results. -/
def slab_exact (c0 c1 p v : F32) : Prop :=
  v.isFinite = true ∧ (1 / v).value = some (1 / v.toRat) ∧
    ((c0 - p) * (1 / v)).value = some ((c0.toRat - p.toRat) * (1 / v.toRat)) ∧
    ((c1 - p) * (1 / v)).value = some ((c1.toRat - p.toRat) * (1 / v.toRat))

instance (c0 c1 p v : F32) : Decidable (slab_exact c0 c1 p v) :=
  inferInstanceAs (Decidable (_ ∧ _ ∧ _ ∧ _))

/-- One axis of the slab test, with a zero direction component (`+0.0` or
`-0.0`): the two differences `c0 - p`, `c1 - p` that the code computes are
finite and equal to the exact results. -/
def slab_exact_zero (c0 c1 p : F32) : Prop :=
  c0 - p = F32.fin (c0.toRat - p.toRat) ∧ c1 - p = F32.fin (c1.toRat - p.toRat)

instance (c0 c1 p : F32) : Decidable (slab_exact_zero c0 c1 p) :=
  inferInstanceAs (Decidable (_ ∧ _))

/-! ## Concrete `float` inputs -/

/-- The cuboid with corners (-1,-1,-1) and (1,1,1). -/
def unit_box : BoundingCuboid F32 :=
  init_bounding_cuboid (F32.fin (1 / 1024))
    ![![F32.fin (-1), F32.fin (-1), F32.fin (-1)], ![F32.fin 1, F32.fin 1, F32.fin 1]]

/-- Ray from (-40,2,-1) along (41,-1,1): at parameter 1 it passes through the
point (1,1,0) of the edge `x = 1, y = 1` of the unit box. -/
def grazing_ray : Line F32 :=
  { position := ![F32.fin (-40), F32.fin 2, F32.fin (-1)],
    vector := ![F32.fin 41, F32.fin (-1), F32.fin 1] }

/-- Ray from (-5,3,-9) along (2,-1,4): the reciprocals of the direction
components are powers of two. -/
def dyadic_ray : Line F32 :=
  { position := ![F32.fin (-5), F32.fin 3, F32.fin (-9)],
    vector := ![F32.fin 2, F32.fin (-1), F32.fin 4] }

/-- Ray from (-5,0,0) along (1,0,0). -/
def axis_ray32 : Line F32 :=
  { position := ![F32.fin (-5), F32.fin 0, F32.fin 0], vector := ![F32.fin 1, F32.fin 0, F32.fin 0] }

/-- Ray from (-5,0,0) along (1,-0.0,-0.0). -/
def axis_ray32_neg : Line F32 :=
  { position := ![F32.fin (-5), F32.fin 0, F32.fin 0], vector := ![F32.fin 1, F32.nzero, F32.nzero] }

/-- Ray from (-5,2,0) along (1,0,0). -/
def axis_ray32_above : Line F32 :=
  { position := ![F32.fin (-5), F32.fin 2, F32.fin 0], vector := ![F32.fin 1, F32.fin 0, F32.fin 0] }

/-- Ray from (-5,2,0) along (1,-0.0,-0.0). -/
def axis_ray32_above_neg : Line F32 :=
  { position := ![F32.fin (-5), F32.fin 2, F32.fin 0],
    vector := ![F32.fin 1, F32.nzero, F32.nzero] }

/-- Ray from (-40,2,0) along (41,-1,0): parallel to the plane `z = 0`, it passes
through the point (1,1,0) of the unit box at parameter 1. -/
def flat_grazing_ray : Line F32 :=
  { position := ![F32.fin (-40), F32.fin 2, F32.fin 0],
    vector := ![F32.fin 41, F32.fin (-1), F32.fin 0] }

/-- The point (-5,0,0) with the zero vector as direction. -/
def still_ray32 : Line F32 :=
  { position := ![F32.fin (-5), F32.fin 0, F32.fin 0], vector := ![F32.fin 0, F32.fin 0, F32.fin 0] }

/-- Ray from (1/4, 1/4, 1) along (0,0,-1), parallel to the z axis. -/
def spec_ray : Line F32 :=
  { position := ![F32.fin (1 / 4), F32.fin (1 / 4), F32.fin 1],
    vector := ![F32.fin 0, F32.fin 0, F32.fin (-1)] }

/-- Vertices (0,0,-1), (1,0,-1), (0,1,-1): the unit triangle one unit further
down the z axis. -/
def low_triangle_vertices : Fin 3 → Vec3 F32 :=
  ![![F32.fin 0, F32.fin 0, F32.fin (-1)], ![F32.fin 1, F32.fin 0, F32.fin (-1)],
    ![F32.fin 0, F32.fin 1, F32.fin (-1)]]

/-- Vertices (0,0,0), (1,0,0), (0,1,0). -/
def unit_triangle_vertices32 : Fin 3 → Vec3 F32 :=
  ![![F32.fin 0, F32.fin 0, F32.fin 0], ![F32.fin 1, F32.fin 0, F32.fin 0],
    ![F32.fin 0, F32.fin 1, F32.fin 0]]

/-- Vertices (0,0,0), (0,1,0), (1,0,0): the unit triangle with the opposite
orientation, whose stored normal is (0,0,-1). -/
def flipped_triangle_vertices : Fin 3 → Vec3 F32 :=
  ![![F32.fin 0, F32.fin 0, F32.fin 0], ![F32.fin 0, F32.fin 1, F32.fin 0],
    ![F32.fin 1, F32.fin 0, F32.fin 0]]

/-- A mesh of three triangles, with its generated bounding cuboid: the low
triangle first, then the unit triangle twice, in its two orientations. -/
def stacked_mesh : Mesh F32 :=
  mesh_with_cuboid (F32.fin (1 / 1024))
    [low_triangle_vertices, unit_triangle_vertices32, flipped_triangle_vertices]

/-- The mesh holding the single triangle (0,0,0), (1,0,0), (0,1,0), with its
generated bounding cuboid. -/
def unit_mesh32 : Mesh F32 := mesh_with_cuboid (F32.fin (1 / 1024)) [unit_triangle_vertices32]

/-- Ray from `(1/2 - 2^22, 1/2 - 2^22, FLT_MAX)` along `(2^-106, 2^-106, -1)`:
it reaches the interior point `(1/4, 1/4, 0)` of the unit triangle at parameter
`FLT_MAX`. -/
def far_ray32 : Line F32 :=
  { position := ![F32.fin (1 / 2 - 2 ^ 22), F32.fin (1 / 2 - 2 ^ 22),
      F32.fin (2 ^ 128 - 2 ^ 104)],
    vector := ![F32.fin (1 / 2 ^ 106), F32.fin (1 / 2 ^ 106), F32.fin (-1)] }

/-- Ray from (-3/4, -3/4, 0) along (1,1,-1): at parameter 1 it reaches the
point (1/4, 1/4, -1) of the low triangle. -/
def slant_ray : Line F32 :=
  { position := ![F32.fin (-3 / 4), F32.fin (-3 / 4), F32.fin 0],
    vector := ![F32.fin 1, F32.fin 1, F32.fin (-1)] }

/-- Ray from (-1, -1/2, 41) along (1,1,-41): at parameter 1 it reaches the
point (0, 1/2, 0) of the unit triangle. -/
def steep_ray : Line F32 :=
  { position := ![F32.fin (-1), F32.fin (-1 / 2), F32.fin 41],
    vector := ![F32.fin 1, F32.fin 1, F32.fin (-41)] }

/-- The values of the coordinates of a mesh triangle. -/
def triangle_val {K : Type} [DivisionRing K] (triangle : MeshTriangle F32) : MeshTriangle K :=
  { vertices := fun j i => (triangle.vertices j i).val,
    edges := fun j i => (triangle.edges j i).val,
    normal := fun i => (triangle.normal i).val }

/-- The values of the triangles of a mesh (the bounding shape, which the
statements about the values do not use, is left blank). -/
def mesh_val {K : Type} [DivisionRing K] (mesh : Mesh F32) : Mesh K :=
  { epsilon := mesh.epsilon.val, triangles := mesh.triangles.map triangle_val,
    bounding_shape := .cuboid (init_bounding_cuboid 0 ![![0, 0, 0], ![0, 0, 0]]) }

/-- The corners `position - radius` and `position + radius` that `init_sphere`
stores are computed without rounding error: they are finite and have the
values of the exact results. -/
def sphere_corners_exact (position : Vec3 F32) (radius : F32) : Prop :=
  ∀ i, (position i - radius).value = some ((position i).toRat - radius.toRat) ∧
    (position i + radius).value = some ((position i).toRat + radius.toRat)

instance (position : Vec3 F32) (radius : F32) : Decidable (sphere_corners_exact position radius) :=
  inferInstanceAs (Decidable (∀ _, _ ∧ _))

/-- Ray from (16777218, -9/2, -9/2) along (-1/2, 3/2, 3/2): at parameter 3 it
reaches the point (16777216.5, 0, 0), at distance 1/2 from (16777216, 0, 0). -/
def distant_ray : Line F32 :=
  { position := ![F32.fin 16777218, F32.fin (-9 / 2), F32.fin (-9 / 2)],
    vector := ![F32.fin (-1 / 2), F32.fin (3 / 2), F32.fin (3 / 2)] }

/-- The point (16777216, 0, 0); 16777216 is `2^24`. -/
def distant_centre : Vec3 F32 := ![F32.fin 16777216, F32.fin 0, F32.fin 0]

/-- The origin (0,0,0). -/
def origin32 : Vec3 F32 := ![F32.fin 0, F32.fin 0, F32.fin 0]

/-- The values of the coordinates of a vector, as rational numbers. -/
def vec_toRat (v : Vec3 F32) : Vec3 ℚ := fun i => (v i).toRat

/-- The offset of the plane, the denominator `N . D` and the quotient `t` of
`get_intersection_plane` are computed without rounding error: each is finite
and has the value of the exact result on the values of the data. -/
def plane_hit_exact (normal point : Vec3 F32) (ray : Line F32) (t : F32) : Prop :=
  (dot3 normal point).value = some (dot3 (vec_toRat normal) (vec_toRat point)) ∧
  (dot3 normal ray.vector).value =
    some (dot3 (vec_toRat normal) (vec_toRat ray.vector)) ∧
  t.value = some ((dot3 (vec_toRat normal) (vec_toRat point) -
    dot3 (vec_toRat normal) (vec_toRat ray.position)) /
      dot3 (vec_toRat normal) (vec_toRat ray.vector))

instance (normal point : Vec3 F32) (ray : Line F32) (t : F32) :
    Decidable (plane_hit_exact normal point ray t) :=
  inferInstanceAs (Decidable (_ ∧ _ ∧ _))

/-- The normal (0,0,1). -/
def z_axis32 : Vec3 F32 := ![F32.fin 0, F32.fin 0, F32.fin 1]

/-- Ray from the origin along the non-unit direction (0,0,2). -/
def up2_ray32 : Line F32 :=
  { position := ![F32.fin 0, F32.fin 0, F32.fin 0],
    vector := ![F32.fin 0, F32.fin 0, F32.fin 2] }

/-- Ray from (0,0,6) along (0,0,5). -/
def up5_ray : Line F32 :=
  { position := ![F32.fin 0, F32.fin 0, F32.fin 6],
    vector := ![F32.fin 0, F32.fin 0, F32.fin 5] }

/-- The unit vector (1,0,0). -/
def x_axis32 : Vec3 F32 := ![F32.fin 1, F32.fin 0, F32.fin 0]

/-- The unit vector (0,1,0). -/
def y_axis32 : Vec3 F32 := ![F32.fin 0, F32.fin 1, F32.fin 0]

/-- The camera at the origin looking along (0,0,1), focal length 1, with a
640 x 480 image of physical size 4 x 3. -/
def vga_camera : Camera F32 :=
  init_camera F32.sqrt origin32 ![x_axis32, y_axis32] (F32.fin 1) vga_resolution
    ![F32.fin 4, F32.fin 3]

/-- Image resolution 3 x 5 (both odd). -/
def odd_resolution : Fin 2 → Nat := ![3, 5]

/-- The camera at (1,2,3) looking along (0,0,1), focal length 2, with a 3 x 5
image of physical size 6 x 10. -/
def odd_camera : Camera F32 :=
  init_camera F32.sqrt ![F32.fin 1, F32.fin 2, F32.fin 3] ![x_axis32, y_axis32] (F32.fin 2)
    odd_resolution ![F32.fin 6, F32.fin 10]

/-- The vector `v` is normalised without rounding error: its exact length is
the rational number `m > 0` and every stored component of
`normalize3 sqrtf v` is finite with the value of the exact quotient
`v i / m`. -/
def normalize_exact (sqrtf : F32 → F32) (v : Vec3 F32) (m : ℚ) : Prop :=
  0 < m ∧ m * m = dot3 (vec_toRat v) (vec_toRat v) ∧
    ∀ i, (normalize3 sqrtf v i).value = some ((v i).toRat / m)

instance (sqrtf : F32 → F32) (v : Vec3 F32) (m : ℚ) : Decidable (normalize_exact sqrtf v m) :=
  inferInstanceAs (Decidable (_ ∧ _ ∧ ∀ _, _))

/-- The cross product of `a` and `b` is computed without rounding error: every
component is finite with the value of the exact result. -/
def cross_exact (a b : Vec3 F32) : Prop :=
  ∀ i, (cross a b i).value = some (cross (vec_toRat a) (vec_toRat b) i)

instance (a b : Vec3 F32) : Decidable (cross_exact a b) :=
  inferInstanceAs (Decidable (∀ _, _))

/-- The input vectors (2,0,0) and (0,3,0). -/
def axis_vectors : Fin 2 → Vec3 F32 :=
  ![![F32.fin 2, F32.fin 0, F32.fin 0], ![F32.fin 0, F32.fin 3, F32.fin 0]]

/-- The perpendicular input vectors (1,1,0) and (-1,1,0). -/
def diagonal_vectors : Fin 2 → Vec3 F32 :=
  ![![F32.fin 1, F32.fin 1, F32.fin 0], ![F32.fin (-1), F32.fin 1, F32.fin 0]]

/-- The perpendicular input vectors (2^70,0,0) and (0,1,0). -/
def huge_vectors : Fin 2 → Vec3 F32 :=
  ![![F32.fin (2 ^ 70), F32.fin 0, F32.fin 0], ![F32.fin 0, F32.fin 1, F32.fin 0]]

/-- Vertices (0,0,0), (4097,1,1), (0,4097,1): the product `4097 * 4097` of the
cross product is not representable. -/
def skew_triangle_vertices : Fin 3 → Vec3 F32 :=
  ![![F32.fin 0, F32.fin 0, F32.fin 0], ![F32.fin 4097, F32.fin 1, F32.fin 1],
    ![F32.fin 0, F32.fin 4097, F32.fin 1]]

/-- The rotation matrix of `stl_load` is computed without rounding error: the
angles are finite, the values `c`, `s` that `cosf` and `sinf` return at each
angle satisfy `c^2 + s^2 = 1`, and every stored entry is finite with the exact
value of its expression in these values. -/
def rotation_exact (cosf sinf : F32 → F32) (rot : Vec3 F32) : Prop :=
  (∀ k, rot k = F32.fin (rot k).toRat) ∧
  (∀ k, sqr (cosf (rot k)).toRat + sqr (sinf (rot k)).toRat = 1) ∧
  ∀ i j, (stl_rotation_matrix cosf sinf rot i j).value =
    some (stl_rotation_matrix (fun x => (cosf (F32.fin x)).toRat)
      (fun x => (sinf (F32.fin x)).toRat) (vec_toRat rot) i j)

instance (cosf sinf : F32 → F32) (rot : Vec3 F32) : Decidable (rotation_exact cosf sinf rot) :=
  inferInstanceAs (Decidable ((∀ _, _) ∧ (∀ _, _) ∧ ∀ _ _, _))

/-- The vertex `v` is transformed without rounding error: every stored
coordinate of its image is finite with the exact value of
`(row . v) * scale + position` on the stored matrix. -/
def transform_exact (cosf sinf : F32 → F32) (position rot : Vec3 F32) (scale : F32)
    (v : Vec3 F32) : Prop :=
  ∀ i, (stl_transform_vertex (stl_rotation_matrix cosf sinf rot) position scale v i).value =
    some (stl_transform_vertex (fun k => vec_toRat (stl_rotation_matrix cosf sinf rot k))
      (vec_toRat position) scale.toRat (vec_toRat v) i)

instance (cosf sinf : F32 → F32) (position rot : Vec3 F32) (scale : F32) (v : Vec3 F32) :
    Decidable (transform_exact cosf sinf position rot scale v) :=
  inferInstanceAs (Decidable (∀ _, _))

/-- The squared distance of the values of two vectors. -/
def distance_sq (u v : Vec3 F32) : ℚ :=
  sqr ((u 0).toRat - (v 0).toRat) + sqr ((u 1).toRat - (v 1).toRat) +
    sqr ((u 2).toRat - (v 2).toRat)

/-- A binary STL file with one triangle, the unit triangle. -/
def unit_file : STLFile F32 :=
  { header := ['b', 'i', 'n', 'a', 'r', 'y'], num_triangles := some 1,
    triangles := [unit_triangle_vertices32] }

/-- The `float` nearest to 1/10. -/
def tenth : F32 := F32.fin (13421773 / 134217728)

section Theorems

variable {α : Type} [LinearOrderedField α]

/-! ## Theorems -/

/-! ### The C library in exact arithmetic -/

theorem fabsf_eq_abs (x : α) : fabsf x = |x| := by
  unfold fabsf
  split_ifs with h
  · exact (abs_of_neg h).symm
  · exact (abs_of_nonneg (not_lt.mp h)).symm

theorem FLT_MAX_eq : (FLT_MAX : α) = 2 ^ 128 - 2 ^ 104 := by
  unfold FLT_MAX
  norm_num

theorem FLT_MIN_eq : (FLT_MIN : α) = 1 / 2 ^ 126 := by
  unfold FLT_MIN
  norm_num

/-! ### Slab test -/

theorem slab_interval_mem (c0 c1 p v : α) (hv : v ≠ 0) (t : α) :
    (c0 ≤ p + t * v ∧ p + t * v ≤ c1) ↔
      ((slab_interval c0 c1 p v).1 ≤ t ∧ t ≤ (slab_interval c0 c1 p v).2) := by
  unfold slab_interval
  rcases lt_or_gt_of_ne hv with hneg | hpos
  · have h1 : ¬ (1 / v ≥ 0) := by
      have : 1 / v < 0 := one_div_neg.mpr hneg
      exact not_le.mpr this
    simp only [h1, if_false, mul_one_div]
    rw [div_le_iff_of_neg hneg, le_div_iff_of_neg hneg]
    constructor
    · rintro ⟨h2, h3⟩
      constructor <;> linarith
    · rintro ⟨h2, h3⟩
      constructor <;> linarith
  · have h1 : 1 / v ≥ 0 := le_of_lt (one_div_pos.mpr hpos)
    simp only [h1, if_true, mul_one_div]
    rw [div_le_iff₀ hpos, le_div_iff₀ hpos]
    constructor
    · rintro ⟨h2, h3⟩
      constructor <;> linarith
    · rintro ⟨h2, h3⟩
      constructor <;> linarith

theorem slab_interval_ordered (c0 c1 p v : α) (hv : v ≠ 0) (hc : c0 ≤ c1) :
    (slab_interval c0 c1 p v).1 ≤ (slab_interval c0 c1 p v).2 := by
  have h := (slab_interval_mem c0 c1 p v hv ((c0 - p) / v)).mp
    (by rw [div_mul_cancel₀ _ hv]; constructor <;> linarith)
  exact le_trans h.1 h.2

theorem interval_test_iff (a1 a2 b1 b2 c1 c2 : α) (ha : a1 ≤ a2) (hb : b1 ≤ b2)
    (hc : c1 ≤ c2) :
    ((if a1 > b2 ∨ b1 > a2 then false
      else if (if b1 > a1 then b1 else a1) > c2 ∨ c1 > (if b2 < a2 then b2 else a2) then false
      else true) = true) ↔
    ∃ t : α, (a1 ≤ t ∧ t ≤ a2) ∧ (b1 ≤ t ∧ t ≤ b2) ∧ (c1 ≤ t ∧ t ≤ c2) := by
  constructor
  · intro h
    by_cases h1 : a1 > b2 ∨ b1 > a2
    · rw [if_pos h1] at h
      exact absurd h (by decide)
    by_cases h2 : (if b1 > a1 then b1 else a1) > c2 ∨ c1 > (if b2 < a2 then b2 else a2)
    · rw [if_neg h1, if_pos h2] at h
      exact absurd h (by decide)
    simp only [not_or, not_lt, gt_iff_lt] at h1 h2
    obtain ⟨h3, h4⟩ := h1
    obtain ⟨h5, h6⟩ := h2
    have h7 : a1 ≤ c2 ∧ b1 ≤ c2 := by
      split_ifs at h5 with h8
      · exact ⟨le_trans (le_of_lt h8) h5, h5⟩
      · exact ⟨h5, le_trans (not_lt.mp h8) h5⟩
    have h9 : c1 ≤ a2 ∧ c1 ≤ b2 := by
      split_ifs at h6 with h8
      · exact ⟨le_trans h6 (le_of_lt h8), h6⟩
      · exact ⟨h6, le_trans h6 (not_lt.mp h8)⟩
    refine ⟨max a1 (max b1 c1), ⟨le_max_left _ _, ?_⟩, ⟨?_, ?_⟩, ⟨?_, ?_⟩⟩
    · exact max_le ha (max_le h4 h9.1)
    · exact le_trans (le_max_left _ _) (le_max_right _ _)
    · exact max_le h3 (max_le hb h9.2)
    · exact le_trans (le_max_right _ _) (le_max_right _ _)
    · exact max_le h7.1 (max_le h7.2 hc)
  · rintro ⟨t, ⟨h1, h2⟩, ⟨h3, h4⟩, ⟨h5, h6⟩⟩
    have h7 : ¬ (a1 > b2 ∨ b1 > a2) := by
      simp only [not_or, not_lt, gt_iff_lt]
      exact ⟨le_trans h1 h4, le_trans h3 h2⟩
    have h8 : ¬ ((if b1 > a1 then b1 else a1) > c2 ∨ c1 > (if b2 < a2 then b2 else a2)) := by
      simp only [not_or, not_lt, gt_iff_lt]
      constructor
      · split_ifs
        · exact le_trans h3 h6
        · exact le_trans h1 h6
      · split_ifs
        · exact le_trans h5 h4
        · exact le_trans h5 h2
    simp only [h7, h8, if_false]

theorem intersects_bounding_cuboid_eq (cuboid : BoundingCuboid α) (ray : Line α) :
    intersects_bounding_cuboid cuboid ray =
      (let tx := slab_interval (cuboid.corners 0 0) (cuboid.corners 1 0) (ray.position 0)
          (ray.vector 0)
       let ty := slab_interval (cuboid.corners 0 1) (cuboid.corners 1 1) (ray.position 1)
          (ray.vector 1)
       let tz := slab_interval (cuboid.corners 0 2) (cuboid.corners 1 2) (ray.position 2)
          (ray.vector 2)
       if tx.1 > ty.2 ∨ ty.1 > tx.2 then false
       else if (if ty.1 > tx.1 then ty.1 else tx.1) > tz.2 ∨
          tz.1 > (if ty.2 < tx.2 then ty.2 else tx.2) then false
       else true) := by
  rfl

/-- Helper: if some point of the line lies in the box, the slab test
succeeds (the direction having no zero component). -/
theorem cuboid_accepts_of_point_in_box (cuboid : BoundingCuboid α) (ray : Line α)
    (hv : ∀ i, ray.vector i ≠ 0) (t : α)
    (hbox : ∀ i, cuboid.corners 0 i ≤ ray.position i + t * ray.vector i ∧
      ray.position i + t * ray.vector i ≤ cuboid.corners 1 i) :
    intersects_bounding_cuboid cuboid ray = true := by
  have hc : ∀ i, cuboid.corners 0 i ≤ cuboid.corners 1 i :=
    fun i => le_trans (hbox i).1 (hbox i).2
  rw [intersects_bounding_cuboid_eq]
  simp only []
  rw [interval_test_iff _ _ _ _ _ _ (slab_interval_ordered _ _ _ _ (hv 0) (hc 0))
    (slab_interval_ordered _ _ _ _ (hv 1) (hc 1)) (slab_interval_ordered _ _ _ _ (hv 2) (hc 2))]
  exact ⟨t, (slab_interval_mem _ _ _ _ (hv 0) t).mp (hbox 0),
    (slab_interval_mem _ _ _ _ (hv 1) t).mp (hbox 1),
    (slab_interval_mem _ _ _ _ (hv 2) t).mp (hbox 2)⟩

/-- Exact arithmetic: for a cuboid with ordered corners and a ray whose direction has no zero
component, `intersects_bounding_cuboid` returns true exactly when some
parameter `t` (of any sign) puts `position + t * vector` inside the closed
box, i.e. when the infinite line meets the box. -/
theorem exact_intersects_bounding_cuboid_iff_line_meets_box (cuboid : BoundingCuboid α)
    (ray : Line α) (hc : ∀ i, cuboid.corners 0 i ≤ cuboid.corners 1 i)
    (hv : ∀ i, ray.vector i ≠ 0) :
    intersects_bounding_cuboid cuboid ray = true ↔
      ∃ t : α, ∀ i, cuboid.corners 0 i ≤ ray.position i + t * ray.vector i ∧
        ray.position i + t * ray.vector i ≤ cuboid.corners 1 i := by
  rw [intersects_bounding_cuboid_eq]
  simp only []
  rw [interval_test_iff _ _ _ _ _ _ (slab_interval_ordered _ _ _ _ (hv 0) (hc 0))
    (slab_interval_ordered _ _ _ _ (hv 1) (hc 1)) (slab_interval_ordered _ _ _ _ (hv 2) (hc 2))]
  constructor
  · rintro ⟨t, h0, h1, h2⟩
    refine ⟨t, fun i => ?_⟩
    fin_cases i
    · exact (slab_interval_mem _ _ _ _ (hv 0) t).mpr h0
    · exact (slab_interval_mem _ _ _ _ (hv 1) t).mpr h1
    · exact (slab_interval_mem _ _ _ _ (hv 2) t).mpr h2
  · rintro ⟨t, h⟩
    exact ⟨t, (slab_interval_mem _ _ _ _ (hv 0) t).mp (h 0),
      (slab_interval_mem _ _ _ _ (hv 1) t).mp (h 1),
      (slab_interval_mem _ _ _ _ (hv 2) t).mp (h 2)⟩

/-! ### The bounding cuboid of a mesh -/

theorem cuboid_scan_direction_min (vertex : Vec3 α) (corners : Fin 2 → Vec3 α)
    (direction k : Fin 3) :
    cuboid_scan_direction vertex corners direction 0 k =
      if k = direction then min (corners 0 k) (vertex k) else corners 0 k := by
  unfold cuboid_scan_direction
  by_cases hk : k = direction
  · subst hk
    by_cases h1 : vertex k < corners 0 k
    · by_cases h2 : vertex k > corners 1 k
      · simp [h1, h2, min_eq_right (le_of_lt h1)]
      · simp [h1, h2, min_eq_right (le_of_lt h1)]
    · by_cases h2 : vertex k > corners 1 k
      · simp [h1, h2, min_eq_left (not_lt.mp h1)]
      · simp [h1, h2, min_eq_left (not_lt.mp h1)]
  · by_cases h1 : vertex direction < corners 0 direction
    · by_cases h2 : vertex direction > corners 1 direction
      · simp [h1, h2, hk]
      · simp [h1, h2, hk]
    · by_cases h2 : vertex direction > corners 1 direction
      · simp [h1, h2, hk]
      · simp [h1, h2, hk]

theorem cuboid_scan_direction_max (vertex : Vec3 α) (corners : Fin 2 → Vec3 α)
    (direction k : Fin 3) :
    cuboid_scan_direction vertex corners direction 1 k =
      if k = direction then max (corners 1 k) (vertex k) else corners 1 k := by
  unfold cuboid_scan_direction
  by_cases hk : k = direction
  · subst hk
    by_cases h1 : vertex k < corners 0 k
    · by_cases h2 : vertex k > corners 1 k
      · simp [h1, h2, max_eq_right (le_of_lt h2)]
      · simp [h1, h2, max_eq_left (not_lt.mp h2)]
    · by_cases h2 : vertex k > corners 1 k
      · simp [h1, h2, max_eq_right (le_of_lt h2)]
      · simp [h1, h2, max_eq_left (not_lt.mp h2)]
  · by_cases h1 : vertex direction < corners 0 direction
    · by_cases h2 : vertex direction > corners 1 direction
      · simp [h1, h2, hk]
      · simp [h1, h2, hk]
    · by_cases h2 : vertex direction > corners 1 direction
      · simp [h1, h2, hk]
      · simp [h1, h2, hk]

theorem cuboid_scan_vertex_min (corners : Fin 2 → Vec3 α) (vertex : Vec3 α) (k : Fin 3) :
    cuboid_scan_vertex corners vertex 0 k = min (corners 0 k) (vertex k) := by
  unfold cuboid_scan_vertex
  simp only [List.foldl_cons, List.foldl_nil, cuboid_scan_direction_min]
  fin_cases k <;> simp

theorem cuboid_scan_vertex_max (corners : Fin 2 → Vec3 α) (vertex : Vec3 α) (k : Fin 3) :
    cuboid_scan_vertex corners vertex 1 k = max (corners 1 k) (vertex k) := by
  unfold cuboid_scan_vertex
  simp only [List.foldl_cons, List.foldl_nil, cuboid_scan_direction_max]
  fin_cases k <;> simp

theorem cuboid_scan_triangle_min (corners : Fin 2 → Vec3 α) (triangle : MeshTriangle α)
    (k : Fin 3) :
    cuboid_scan_triangle corners triangle 0 k =
      min (min (min (corners 0 k) (triangle.vertices 0 k)) (triangle.vertices 1 k))
        (triangle.vertices 2 k) := by
  unfold cuboid_scan_triangle
  simp only [List.foldl_cons, List.foldl_nil, cuboid_scan_vertex_min]

theorem cuboid_scan_triangle_max (corners : Fin 2 → Vec3 α) (triangle : MeshTriangle α)
    (k : Fin 3) :
    cuboid_scan_triangle corners triangle 1 k =
      max (max (max (corners 1 k) (triangle.vertices 0 k)) (triangle.vertices 1 k))
        (triangle.vertices 2 k) := by
  unfold cuboid_scan_triangle
  simp only [List.foldl_cons, List.foldl_nil, cuboid_scan_vertex_max]

/-- The scan only lowers the min corner and raises the max corner, and after
it every scanned vertex lies between the two corners. -/
theorem cuboid_scan_bounds (l : List (MeshTriangle α)) (corners : Fin 2 → Vec3 α) (k : Fin 3) :
    (l.foldl cuboid_scan_triangle corners 0 k ≤ corners 0 k ∧
      corners 1 k ≤ l.foldl cuboid_scan_triangle corners 1 k) ∧
    ∀ tri ∈ l, ∀ j : Fin 3,
      l.foldl cuboid_scan_triangle corners 0 k ≤ tri.vertices j k ∧
      tri.vertices j k ≤ l.foldl cuboid_scan_triangle corners 1 k := by
  induction l generalizing corners with
  | nil =>
    exact ⟨⟨le_refl _, le_refl _⟩, fun tri h => absurd h (List.not_mem_nil tri)⟩
  | cons a l ih =>
    rw [List.foldl_cons]
    obtain ⟨⟨h1, h2⟩, h3⟩ := ih (cuboid_scan_triangle corners a)
    rw [cuboid_scan_triangle_min] at h1
    rw [cuboid_scan_triangle_max] at h2
    refine ⟨⟨?_, ?_⟩, ?_⟩
    · exact le_trans h1 (le_trans (min_le_left _ _) (le_trans (min_le_left _ _) (min_le_left _ _)))
    · exact le_trans (le_trans (le_max_left _ _) (le_trans (le_max_left _ _) (le_max_left _ _))) h2
    · intro tri htri j
      rcases List.mem_cons.mp htri with h | h
      · subst h
        constructor
        · refine le_trans h1 ?_
          fin_cases j
          · exact le_trans (min_le_left _ _) (le_trans (min_le_left _ _) (min_le_right _ _))
          · exact le_trans (min_le_left _ _) (min_le_right _ _)
          · exact min_le_right _ _
        · refine le_trans ?_ h2
          fin_cases j
          · exact le_trans (le_trans (le_max_right _ _) (le_max_left _ _)) (le_max_left _ _)
          · exact le_trans (le_max_right _ _) (le_max_left _ _)
          · exact le_max_right _ _
      · exact h3 tri h j

theorem mesh_bounding_corners_bounds (mesh : Mesh α) (tri : MeshTriangle α)
    (htri : tri ∈ mesh.triangles) (j k : Fin 3) :
    mesh_bounding_corners mesh 0 k ≤ tri.vertices j k ∧
      tri.vertices j k ≤ mesh_bounding_corners mesh 1 k :=
  (cuboid_scan_bounds mesh.triangles _ k).2 tri htri j

/-- The scan leaves each coordinate of the min corner at its start value or at
a scanned vertex coordinate, and likewise for the max corner. -/
theorem cuboid_scan_attained (l : List (MeshTriangle α)) (corners : Fin 2 → Vec3 α)
    (k : Fin 3) :
    (l.foldl cuboid_scan_triangle corners 0 k = corners 0 k ∨
      ∃ tri ∈ l, ∃ j : Fin 3, l.foldl cuboid_scan_triangle corners 0 k = tri.vertices j k) ∧
    (l.foldl cuboid_scan_triangle corners 1 k = corners 1 k ∨
      ∃ tri ∈ l, ∃ j : Fin 3, l.foldl cuboid_scan_triangle corners 1 k = tri.vertices j k) := by
  induction l generalizing corners with
  | nil => exact ⟨Or.inl rfl, Or.inl rfl⟩
  | cons a l ih =>
    rw [List.foldl_cons]
    obtain ⟨h0, h1⟩ := ih (cuboid_scan_triangle corners a)
    constructor
    · rcases h0 with h | ⟨tri, htri, j, h⟩
      · rw [h, cuboid_scan_triangle_min]
        rcases min_choice (min (min (corners 0 k) (a.vertices 0 k)) (a.vertices 1 k))
          (a.vertices 2 k) with h2 | h2
        · rw [h2]
          rcases min_choice (min (corners 0 k) (a.vertices 0 k)) (a.vertices 1 k) with h3 | h3
          · rw [h3]
            rcases min_choice (corners 0 k) (a.vertices 0 k) with h4 | h4
            · exact Or.inl h4
            · exact Or.inr ⟨a, List.mem_cons_self _ _, 0, h4⟩
          · exact Or.inr ⟨a, List.mem_cons_self _ _, 1, by rw [h3]⟩
        · exact Or.inr ⟨a, List.mem_cons_self _ _, 2, h2⟩
      · exact Or.inr ⟨tri, List.mem_cons_of_mem _ htri, j, h⟩
    · rcases h1 with h | ⟨tri, htri, j, h⟩
      · rw [h, cuboid_scan_triangle_max]
        rcases max_choice (max (max (corners 1 k) (a.vertices 0 k)) (a.vertices 1 k))
          (a.vertices 2 k) with h2 | h2
        · rw [h2]
          rcases max_choice (max (corners 1 k) (a.vertices 0 k)) (a.vertices 1 k) with h3 | h3
          · rw [h3]
            rcases max_choice (corners 1 k) (a.vertices 0 k) with h4 | h4
            · exact Or.inl h4
            · exact Or.inr ⟨a, List.mem_cons_self _ _, 0, h4⟩
          · exact Or.inr ⟨a, List.mem_cons_self _ _, 1, by rw [h3]⟩
        · exact Or.inr ⟨a, List.mem_cons_self _ _, 2, h2⟩
      · exact Or.inr ⟨tri, List.mem_cons_of_mem _ htri, j, h⟩

/-- What `mesh_generate_bounding_cuboid` computes: for a mesh with at least one
triangle and coordinates at most `FLT_MAX`, the min corner is on each axis the
minimum vertex coordinate; the max corner is on each axis the larger of
`FLT_MIN` and the maximum vertex coordinate. -/
theorem mesh_bounding_corners_spec (mesh : Mesh α) (hne : mesh.triangles ≠ [])
    (hfin : ∀ tri ∈ mesh.triangles, ∀ j k : Fin 3, tri.vertices j k ≤ FLT_MAX) (k : Fin 3) :
    ((∀ tri ∈ mesh.triangles, ∀ j : Fin 3, mesh_bounding_corners mesh 0 k ≤ tri.vertices j k) ∧
      ∃ tri ∈ mesh.triangles, ∃ j : Fin 3, mesh_bounding_corners mesh 0 k = tri.vertices j k) ∧
    ((∀ tri ∈ mesh.triangles, ∀ j : Fin 3, tri.vertices j k ≤ mesh_bounding_corners mesh 1 k) ∧
      FLT_MIN ≤ mesh_bounding_corners mesh 1 k ∧
      (mesh_bounding_corners mesh 1 k = FLT_MIN ∨
        ∃ tri ∈ mesh.triangles, ∃ j : Fin 3,
          mesh_bounding_corners mesh 1 k = tri.vertices j k)) := by
  have hb := cuboid_scan_bounds mesh.triangles
    ![![FLT_MAX, FLT_MAX, FLT_MAX], ![FLT_MIN, FLT_MIN, FLT_MIN]] k
  have ha := cuboid_scan_attained mesh.triangles
    ![![FLT_MAX, FLT_MAX, FLT_MAX], ![FLT_MIN, FLT_MIN, FLT_MIN]] k
  have hmax0 : (![![FLT_MAX, FLT_MAX, FLT_MAX], ![FLT_MIN, FLT_MIN, FLT_MIN]] :
      Fin 2 → Vec3 α) 0 k = FLT_MAX := by fin_cases k <;> rfl
  have hmin0 : (![![FLT_MAX, FLT_MAX, FLT_MAX], ![FLT_MIN, FLT_MIN, FLT_MIN]] :
      Fin 2 → Vec3 α) 1 k = FLT_MIN := by fin_cases k <;> rfl
  rw [hmax0, hmin0] at hb ha
  refine ⟨⟨fun tri htri j => (hb.2 tri htri j).1, ?_⟩,
    ⟨fun tri htri j => (hb.2 tri htri j).2, hb.1.2, ha.2⟩⟩
  rcases ha.1 with h | h
  · obtain ⟨tri, htri⟩ := List.exists_mem_of_ne_nil _ hne
    refine ⟨tri, htri, 0, ?_⟩
    have h1 := (hb.2 tri htri 0).1
    have h2 := hfin tri htri 0 k
    unfold mesh_bounding_corners
    rw [h] at h1 ⊢
    exact le_antisymm h1 h2
  · exact h

theorem FLT_MIN_pos : (0 : α) < FLT_MIN := by
  rw [FLT_MIN_eq]
  positivity

theorem FLT_MIN_lt_one : (FLT_MIN : α) < 1 := by
  rw [FLT_MIN_eq]
  rw [div_lt_one (by positivity)]
  exact one_lt_pow₀ (by norm_num) (by norm_num)

theorem one_lt_FLT_MAX : (1 : α) < FLT_MAX := by
  rw [FLT_MAX_eq]
  have h : (2 : α) ^ 128 = 2 ^ 104 * 2 ^ 24 := by norm_num
  have h2 : (1 : α) ≤ 2 ^ 104 := one_le_pow₀ (by norm_num)
  rw [h]
  have h3 : (2 : α) ^ 24 = 16777216 := by norm_num
  rw [h3]
  linarith

/-! ### Evaluation on the concrete inputs -/

theorem unit_mesh_triangles : unit_mesh.triangles = [mesh_triangle_of unit_triangle_vertices] :=
  rfl

theorem negative_mesh_corners : mesh_bounding_corners negative_mesh =
    ![![-2, -2, -1], ![FLT_MIN, FLT_MIN, FLT_MIN]] := by
  have h1 := @FLT_MIN_pos ℚ _
  have h2 := @one_lt_FLT_MAX ℚ _
  funext i k
  fin_cases i
  · show mesh_bounding_corners negative_mesh 0 k = _
    unfold mesh_bounding_corners
    simp only [negative_mesh, mesh_with_cuboid, mesh_generate_bounding_cuboid, List.map,
      List.foldl_cons, List.foldl_nil, cuboid_scan_triangle_min]
    fin_cases k <;> simp [mesh_triangle_of, Matrix.vecHead, Matrix.vecTail] <;> linarith
  · show mesh_bounding_corners negative_mesh 1 k = _
    unfold mesh_bounding_corners
    simp only [negative_mesh, mesh_with_cuboid, mesh_generate_bounding_cuboid, List.map,
      List.foldl_cons, List.foldl_nil, cuboid_scan_triangle_max]
    fin_cases k <;> simp [mesh_triangle_of, Matrix.vecHead, Matrix.vecTail] <;> linarith

/-- C6 fails on `negative_mesh`: every vertex coordinate is at most -1, but the
max corner produced by `mesh_generate_bounding_cuboid` is
`(FLT_MIN, FLT_MIN, FLT_MIN)`, the positive start value of the scan, and not
the maximum coordinate of the vertices. -/
theorem mesh_generate_bounding_cuboid_negative_mesh :
    (mesh_generate_bounding_cuboid negative_mesh).bounding_shape =
        .cuboid (init_bounding_cuboid (1 / 1000)
          ![![-2, -2, -1], ![FLT_MIN, FLT_MIN, FLT_MIN]]) ∧
      negative_mesh.triangles =
        [mesh_triangle_of ![![-1, -1, -1], ![-2, -1, -1], ![-1, -2, -1]]] ∧
      (-1 : ℚ) < FLT_MIN := by
  refine ⟨?_, rfl, ?_⟩
  · show BoundingShape.cuboid (init_bounding_cuboid negative_mesh.epsilon
      (mesh_bounding_corners negative_mesh)) = _
    rw [negative_mesh_corners]
    rfl
  · have h := @FLT_MIN_pos ℚ _
    linarith

/-! ### The bounding sphere of a mesh -/

theorem sphere_scan_vertex_eq (vertex : Vec3 α) (st : (Fin 3 → Vec3 α) × (Fin 3 → Vec3 α)) :
    sphere_scan_vertex st vertex =
      (fun d => if vertex d < st.1 d d then vertex else st.1 d,
        fun d => if vertex d > st.2 d d then vertex else st.2 d) := by
  simp only [sphere_scan_vertex, List.foldl_cons, List.foldl_nil, sphere_scan_direction]
  refine Prod.ext ?_ ?_
  · funext d
    fin_cases d
    · by_cases h0 : vertex 0 < st.1 0 0 <;> by_cases h1 : vertex 1 < st.1 1 1 <;>
        by_cases h2 : vertex 2 < st.1 2 2 <;> simp [h0, h1, h2]
    · by_cases h0 : vertex 0 < st.1 0 0 <;> by_cases h1 : vertex 1 < st.1 1 1 <;>
        by_cases h2 : vertex 2 < st.1 2 2 <;> simp [h0, h1, h2]
    · by_cases h0 : vertex 0 < st.1 0 0 <;> by_cases h1 : vertex 1 < st.1 1 1 <;>
        by_cases h2 : vertex 2 < st.1 2 2 <;> simp [h0, h1, h2]
  · funext d
    fin_cases d
    · by_cases h0 : vertex 0 > st.2 0 0 <;> by_cases h1 : vertex 1 > st.2 1 1 <;>
        by_cases h2 : vertex 2 > st.2 2 2 <;> simp [h0, h1, h2]
    · by_cases h0 : vertex 0 > st.2 0 0 <;> by_cases h1 : vertex 1 > st.2 1 1 <;>
        by_cases h2 : vertex 2 > st.2 2 2 <;> simp [h0, h1, h2]
    · by_cases h0 : vertex 0 > st.2 0 0 <;> by_cases h1 : vertex 1 > st.2 1 1 <;>
        by_cases h2 : vertex 2 > st.2 2 2 <;> simp [h0, h1, h2]

theorem point_mesh_scan :
    sphere_extreme_points (point_mesh α) = (fun _ => ![1, 1, 1], fun _ => ![1, 1, 1]) := by
  have h1 := @FLT_MIN_lt_one α _
  have h2 := @one_lt_FLT_MAX α _
  have hv : ∀ j : Fin 3, (![![1, 1, 1], ![1, 1, 1], ![1, 1, 1]] : Fin 3 → Vec3 α) j = ![1, 1, 1] := by
    intro j
    fin_cases j <;> rfl
  have hc : ∀ d : Fin 3, (![1, 1, 1] : Vec3 α) d = 1 := by
    intro d
    fin_cases d <;> rfl
  have hstep1 : sphere_scan_vertex
      (![![FLT_MAX, 0, 0], ![0, FLT_MAX, 0], ![0, 0, FLT_MAX]],
        ![![FLT_MIN, 0, 0], ![0, FLT_MIN, 0], ![0, 0, FLT_MIN]]) (![1, 1, 1] : Vec3 α) =
      (fun _ => ![1, 1, 1], fun _ => ![1, 1, 1]) := by
    rw [sphere_scan_vertex_eq]
    refine Prod.ext ?_ ?_
    · funext d
      fin_cases d <;> simp [h2]
    · funext d
      fin_cases d <;> simp [h1]
  have hstep2 : sphere_scan_vertex
      (fun _ => ![1, 1, 1], fun _ => ![1, 1, 1]) (![1, 1, 1] : Vec3 α) =
      (fun _ => ![1, 1, 1], fun _ => ![1, 1, 1]) := by
    rw [sphere_scan_vertex_eq]
    refine Prod.ext ?_ ?_
    · funext d
      simp only [hc, lt_irrefl, if_false]
    · funext d
      simp only [hc, gt_iff_lt, lt_irrefl, if_false]
  show List.foldl sphere_scan_triangle _
    [mesh_triangle_of ![![1, 1, 1], ![1, 1, 1], ![1, 1, 1]]] = _
  simp only [List.foldl_cons, List.foldl_nil, sphere_scan_triangle]
  have hv2 : ∀ j : Fin 3,
      (mesh_triangle_of (![![1, 1, 1], ![1, 1, 1], ![1, 1, 1]] : Fin 3 → Vec3 α)).vertices j =
        ![1, 1, 1] := hv
  rw [hv2 0, hv2 1, hv2 2, hstep1, hstep2, hstep2]

theorem point_mesh_no_sphere (sqrtf : α → α) (h0 : sqrtf 0 ≤ FLT_MIN) :
    mesh_generate_bounding_sphere sqrtf (point_mesh α) = none := by
  have haxis : sphere_axis sqrtf (point_mesh α) = (FLT_MIN, 4294967295) := by
    unfold sphere_axis sphere_distance_vectors
    rw [point_mesh_scan]
    simp [sphere_axis_step, magnitude3, subtract3, sqr, not_lt.mpr h0]
  unfold mesh_generate_bounding_sphere
  simp only [haxis]
  rfl

/-- The axis loop leaves a valid index in `direction` exactly when some
axis-extreme separation exceeds `FLT_MIN`. -/
theorem sphere_axis_valid_iff (sqrtf : α → α) (mesh : Mesh α) :
    (sphere_axis sqrtf mesh).2 < 3 ↔
      ∃ i : Fin 3, FLT_MIN < magnitude3 sqrtf (sphere_distance_vectors mesh i) := by
  unfold sphere_axis
  simp only [List.foldl_cons, List.foldl_nil, sphere_axis_step, Fin.exists_fin_succ,
    Fin.exists_fin_two, Fin.succ_zero_eq_one, Fin.succ_one_eq_two]
  generalize magnitude3 sqrtf (sphere_distance_vectors mesh 0) = d0
  generalize magnitude3 sqrtf (sphere_distance_vectors mesh 1) = d1
  generalize magnitude3 sqrtf (sphere_distance_vectors mesh 2) = d2
  by_cases h0 : FLT_MIN < d0
  · simp only [h0, if_true]
    by_cases h1 : d0 < d1
    · simp only [h1, if_true]
      by_cases h2 : d1 < d2 <;> simp [h2]
    · simp only [h1, if_false]
      by_cases h2 : d0 < d2 <;> simp [h2]
  · simp only [h0, if_false]
    by_cases h1 : FLT_MIN < d1
    · simp only [h1, if_true]
      by_cases h2 : d1 < d2 <;> simp [h2]
    · simp only [h1, if_false]
      by_cases h2 : FLT_MIN < d2 <;> simp [h2]

theorem mesh_generate_bounding_sphere_isSome_iff (sqrtf : α → α) (mesh : Mesh α) :
    (mesh_generate_bounding_sphere sqrtf mesh).isSome = true ↔
      ∃ i : Fin 3, FLT_MIN < magnitude3 sqrtf (sphere_distance_vectors mesh i) := by
  rw [← sphere_axis_valid_iff]
  unfold mesh_generate_bounding_sphere
  simp only []
  split_ifs with h
  · simp [h]
  · simp [h]

theorem dot_bound_of_norm_bounds (a0 a1 a2 b0 b1 b2 r d : α) (hr : 0 ≤ r) (hd : 0 ≤ d)
    (ha : a0 * a0 + a1 * a1 + a2 * a2 ≤ r * r) (hb : b0 * b0 + b1 * b1 + b2 * b2 ≤ d * d) :
    -(r * d) ≤ a0 * b0 + a1 * b1 + a2 * b2 := by
  have hcs : (a0 * b0 + a1 * b1 + a2 * b2) * (a0 * b0 + a1 * b1 + a2 * b2) ≤
      (a0 * a0 + a1 * a1 + a2 * a2) * (b0 * b0 + b1 * b1 + b2 * b2) := by
    nlinarith [mul_self_nonneg (a0 * b1 - a1 * b0), mul_self_nonneg (a0 * b2 - a2 * b0),
      mul_self_nonneg (a1 * b2 - a2 * b1)]
  have h2 : (a0 * a0 + a1 * a1 + a2 * a2) * (b0 * b0 + b1 * b1 + b2 * b2) ≤
      (r * r) * (d * d) :=
    mul_le_mul ha hb
      (add_nonneg (add_nonneg (mul_self_nonneg _) (mul_self_nonneg _)) (mul_self_nonneg _))
      (mul_self_nonneg r)
  have h3 : sqr (a0 * b0 + a1 * b1 + a2 * b2) ≤ sqr (r * d) := by
    unfold sqr
    calc (a0 * b0 + a1 * b1 + a2 * b2) * (a0 * b0 + a1 * b1 + a2 * b2)
        ≤ (r * r) * (d * d) := le_trans hcs h2
      _ = r * d * (r * d) := by ring
  by_contra hc
  have h4 : a0 * b0 + a1 * b1 + a2 * b2 < -(r * d) := not_le.mp hc
  have h5 : 0 ≤ r * d := mul_nonneg hr hd
  unfold sqr at h3
  nlinarith

theorem grow_keeps_point (a0 a1 a2 b0 b1 b2 r d h k : α) (hr : 0 ≤ r) (hd : 0 ≤ d)
    (hk0 : 0 ≤ k) (hk : k * d = h)
    (ha : a0 * a0 + a1 * a1 + a2 * a2 ≤ r * r) (hb : b0 * b0 + b1 * b1 + b2 * b2 = d * d) :
    (a0 - b0 * k) * (a0 - b0 * k) + (a1 - b1 * k) * (a1 - b1 * k) +
      (a2 - b2 * k) * (a2 - b2 * k) ≤ (r + h) * (r + h) := by
  have hdot := dot_bound_of_norm_bounds a0 a1 a2 b0 b1 b2 r d hr hd ha (le_of_eq hb)
  have hexp : (a0 - b0 * k) * (a0 - b0 * k) + (a1 - b1 * k) * (a1 - b1 * k) +
      (a2 - b2 * k) * (a2 - b2 * k) =
      (a0 * a0 + a1 * a1 + a2 * a2) - 2 * k * (a0 * b0 + a1 * b1 + a2 * b2) +
        k * k * (b0 * b0 + b1 * b1 + b2 * b2) := by ring
  rw [hexp, hb]
  have h1 : k * k * (d * d) = h * h := by rw [← hk]; ring
  rw [h1]
  have h2 : 0 ≤ k * (r * d + (a0 * b0 + a1 * b1 + a2 * b2)) :=
    mul_nonneg hk0 (by linarith)
  have h3 : k * (r * d) = r * h := by rw [← hk]; ring
  nlinarith

theorem grow_reaches_vertex (b0 b1 b2 r d h k eps : α) (hr : 0 ≤ r) (hd : 0 ≤ d)
    (heps : 0 ≤ eps) (hh : h = 1 / 2 * (d - r) + eps) (hk : k * d = h)
    (hb : b0 * b0 + b1 * b1 + b2 * b2 = d * d) :
    (b0 - b0 * k) * (b0 - b0 * k) + (b1 - b1 * k) * (b1 - b1 * k) +
      (b2 - b2 * k) * (b2 - b2 * k) ≤ (r + h) * (r + h) := by
  have hexp : (b0 - b0 * k) * (b0 - b0 * k) + (b1 - b1 * k) * (b1 - b1 * k) +
      (b2 - b2 * k) * (b2 - b2 * k) =
      (1 - k) * (1 - k) * (b0 * b0 + b1 * b1 + b2 * b2) := by ring
  rw [hexp, hb]
  have h1 : (1 - k) * (1 - k) * (d * d) = (d - h) * (d - h) := by rw [← hk]; ring
  rw [h1]
  have h2 : (r + h) * (r + h) - (d - h) * (d - h) = (r + d) * (2 * eps) := by
    rw [hh]; ring
  have h3 : 0 ≤ (r + d) * (2 * eps) := mul_nonneg (by linarith) (by linarith)
  linarith

theorem sphere_grow_vertex_spec (sqrtf : α → α)
    (hs : ∀ x, 0 ≤ x → 0 ≤ sqrtf x ∧ sqrtf x * sqrtf x = x) (epsilon : α)
    (heps : 0 ≤ epsilon) (st : Vec3 α × α × α) (hr : 0 ≤ st.2.1) (hsq : st.2.2 = sqr st.2.1)
    (v : Vec3 α) :
    0 ≤ (sphere_grow_vertex sqrtf epsilon st v).2.1 ∧
      (sphere_grow_vertex sqrtf epsilon st v).2.2 =
        sqr (sphere_grow_vertex sqrtf epsilon st v).2.1 ∧
      sphere_contains (sphere_grow_vertex sqrtf epsilon st v).1
        (sphere_grow_vertex sqrtf epsilon st v).2.1 v ∧
      ∀ q, sphere_contains st.1 st.2.1 q →
        sphere_contains (sphere_grow_vertex sqrtf epsilon st v).1
          (sphere_grow_vertex sqrtf epsilon st v).2.1 q := by
  obtain ⟨c, r, rs⟩ := st
  simp only at hr hsq
  subst hsq
  unfold sphere_grow_vertex
  simp only []
  by_cases h : sqr r <
      sqr (subtract3 v c 0) + sqr (subtract3 v c 1) + sqr (subtract3 v c 2)
  · rw [if_pos h]
    simp only []
    have hdsq : 0 ≤ sqr (subtract3 v c 0) + sqr (subtract3 v c 1) + sqr (subtract3 v c 2) :=
      add_nonneg (add_nonneg (mul_self_nonneg _) (mul_self_nonneg _)) (mul_self_nonneg _)
    obtain ⟨hd0, hdd⟩ := hs _ hdsq
    have hm : magnitude3 sqrtf (subtract3 v c) =
        sqrtf (sqr (subtract3 v c 0) + sqr (subtract3 v c 1) + sqr (subtract3 v c 2)) := rfl
    generalize hdgen :
      sqrtf (sqr (subtract3 v c 0) + sqr (subtract3 v c 1) + sqr (subtract3 v c 2)) = d
      at hd0 hdd hm
    rw [← hdd] at h
    have hrd : r < d := by
      by_contra hc
      have h1 : d ≤ r := not_lt.mp hc
      have h2 : d * d ≤ r * r := mul_le_mul h1 h1 hd0 hr
      unfold sqr at h
      exact absurd h (not_lt.mpr h2)
    have hdpos : 0 < d := lt_of_le_of_lt hr hrd
    have hh0 : 0 ≤ 1 / 2 * (d - r) + epsilon := by
      have : 0 ≤ 1 / 2 * (d - r) := mul_nonneg (by norm_num) (by linarith)
      linarith
    have hk : 1 / d * (1 / 2 * (d - r) + epsilon) * d = 1 / 2 * (d - r) + epsilon := by
      field_simp
      ring
    have hk0 : 0 ≤ 1 / d * (1 / 2 * (d - r) + epsilon) :=
      mul_nonneg (le_of_lt (one_div_pos.mpr hdpos)) hh0
    have hb : (v 0 - c 0) * (v 0 - c 0) + (v 1 - c 1) * (v 1 - c 1) +
        (v 2 - c 2) * (v 2 - c 2) = d * d := by
      rw [hdd]
      rfl
    have hcoord : ∀ (q : Vec3 α) (i : Fin 3),
        q i - add3 c (multiply3 (normalize3 sqrtf (subtract3 v c))
          (1 / 2 * (d - r) + epsilon)) i =
        (q i - c i) - (v i - c i) * (1 / d * (1 / 2 * (d - r) + epsilon)) := by
      intro q i
      unfold add3 multiply3 normalize3
      rw [hm]
      unfold multiply3 subtract3
      ring
    refine ⟨by linarith, by first | rfl | trivial, ?_, ?_⟩
    · unfold sphere_contains sqr
      rw [hcoord v 0, hcoord v 1, hcoord v 2]
      exact grow_reaches_vertex _ _ _ r d _ _ epsilon hr hd0 heps rfl hk hb
    · intro q hq
      unfold sphere_contains sqr at hq ⊢
      rw [hcoord q 0, hcoord q 1, hcoord q 2]
      exact grow_keeps_point _ _ _ _ _ _ r d _ _ hr hd0 hk0 hk hq hb
  · rw [if_neg h]
    refine ⟨hr, rfl, ?_, fun q hq => hq⟩
    exact not_lt.mp h

theorem sphere_grow_triangle_spec (sqrtf : α → α)
    (hs : ∀ x, 0 ≤ x → 0 ≤ sqrtf x ∧ sqrtf x * sqrtf x = x) (epsilon : α)
    (heps : 0 ≤ epsilon) (st : Vec3 α × α × α) (hr : 0 ≤ st.2.1) (hsq : st.2.2 = sqr st.2.1)
    (tri : MeshTriangle α) :
    0 ≤ (sphere_grow_triangle sqrtf epsilon st tri).2.1 ∧
      (sphere_grow_triangle sqrtf epsilon st tri).2.2 =
        sqr (sphere_grow_triangle sqrtf epsilon st tri).2.1 ∧
      (∀ j, sphere_contains (sphere_grow_triangle sqrtf epsilon st tri).1
        (sphere_grow_triangle sqrtf epsilon st tri).2.1 (tri.vertices j)) ∧
      ∀ q, sphere_contains st.1 st.2.1 q →
        sphere_contains (sphere_grow_triangle sqrtf epsilon st tri).1
          (sphere_grow_triangle sqrtf epsilon st tri).2.1 q := by
  unfold sphere_grow_triangle
  simp only [List.foldl_cons, List.foldl_nil]
  obtain ⟨hr1, hsq1, hv1, hk1⟩ :=
    sphere_grow_vertex_spec sqrtf hs epsilon heps st hr hsq (tri.vertices 0)
  obtain ⟨hr2, hsq2, hv2, hk2⟩ :=
    sphere_grow_vertex_spec sqrtf hs epsilon heps _ hr1 hsq1 (tri.vertices 1)
  obtain ⟨hr3, hsq3, hv3, hk3⟩ :=
    sphere_grow_vertex_spec sqrtf hs epsilon heps _ hr2 hsq2 (tri.vertices 2)
  refine ⟨hr3, hsq3, ?_, fun q hq => hk3 q (hk2 q (hk1 q hq))⟩
  intro j
  fin_cases j
  · exact hk3 _ (hk2 _ hv1)
  · exact hk3 _ hv2
  · exact hv3

theorem sphere_grow_list_spec (sqrtf : α → α)
    (hs : ∀ x, 0 ≤ x → 0 ≤ sqrtf x ∧ sqrtf x * sqrtf x = x) (epsilon : α)
    (heps : 0 ≤ epsilon) (l : List (MeshTriangle α)) (st : Vec3 α × α × α)
    (hr : 0 ≤ st.2.1) (hsq : st.2.2 = sqr st.2.1) :
    0 ≤ (l.foldl (sphere_grow_triangle sqrtf epsilon) st).2.1 ∧
      (∀ tri ∈ l, ∀ j, sphere_contains (l.foldl (sphere_grow_triangle sqrtf epsilon) st).1
        (l.foldl (sphere_grow_triangle sqrtf epsilon) st).2.1 (tri.vertices j)) ∧
      ∀ q, sphere_contains st.1 st.2.1 q →
        sphere_contains (l.foldl (sphere_grow_triangle sqrtf epsilon) st).1
          (l.foldl (sphere_grow_triangle sqrtf epsilon) st).2.1 q := by
  induction l generalizing st with
  | nil => exact ⟨hr, fun tri h => absurd h (List.not_mem_nil tri), fun q hq => hq⟩
  | cons a l ih =>
    rw [List.foldl_cons]
    obtain ⟨hr1, hsq1, hv1, hk1⟩ := sphere_grow_triangle_spec sqrtf hs epsilon heps st hr hsq a
    obtain ⟨hr2, hv2, hk2⟩ := ih _ hr1 hsq1
    refine ⟨hr2, ?_, fun q hq => hk2 q (hk1 q hq)⟩
    intro tri htri j
    rcases List.mem_cons.mp htri with h | h
    · rw [h]
      exact hk2 _ (hv1 j)
    · exact hv2 tri h j

theorem sphere_axis_step_ge (sqrtf : α → α) (distance_vectors : Fin 3 → Vec3 α)
    (st : α × Nat) (i : Fin 3) : st.1 ≤ (sphere_axis_step sqrtf distance_vectors st i).1 := by
  unfold sphere_axis_step
  simp only []
  split_ifs with h
  · exact le_of_lt h
  · exact le_refl _

/-- Whenever `mesh_generate_bounding_sphere` produces a bounding shape, it is a
sphere of non-negative radius that contains every vertex of every triangle of
the mesh (for an exact square root and a non-negative epsilon). -/
theorem mesh_generate_bounding_sphere_encloses (sqrtf : α → α)
    (hs : ∀ x, 0 ≤ x → 0 ≤ sqrtf x ∧ sqrtf x * sqrtf x = x) (mesh mesh2 : Mesh α)
    (heps : 0 ≤ mesh.epsilon)
    (h : mesh_generate_bounding_sphere sqrtf mesh = some mesh2) :
    ∃ sphere : BoundingSphere α, mesh2.bounding_shape = .sphere sphere ∧
      0 ≤ sphere.radius ∧
      ∀ tri ∈ mesh.triangles, ∀ j,
        sphere_contains sphere.position sphere.radius (tri.vertices j) := by
  unfold mesh_generate_bounding_sphere at h
  simp only [] at h
  split_ifs at h with hdir
  have h2 := Option.some.inj h
  rw [← h2]
  refine ⟨_, rfl, ?_⟩
  have hr0 : 0 ≤ 1 / 2 * (sphere_axis sqrtf mesh).1 := by
    unfold sphere_axis
    simp only [List.foldl_cons, List.foldl_nil]
    have h0 : (0 : α) < FLT_MIN := by rw [FLT_MIN_eq]; positivity
    refine mul_nonneg (by norm_num) ?_
    refine le_trans (le_of_lt h0) ?_
    refine le_trans ?_ (sphere_axis_step_ge _ _ _ _)
    refine le_trans ?_ (sphere_axis_step_ge _ _ _ _)
    exact sphere_axis_step_ge _ _ (FLT_MIN, 4294967295) _
  obtain ⟨hr, hv, _⟩ := sphere_grow_list_spec sqrtf hs mesh.epsilon heps mesh.triangles
    (add3 (multiply3 (sphere_distance_vectors mesh ⟨(sphere_axis sqrtf mesh).2, hdir⟩) (1 / 2))
        ((sphere_extreme_points mesh).1 ⟨(sphere_axis sqrtf mesh).2, hdir⟩),
      1 / 2 * (sphere_axis sqrtf mesh).1, sqr (1 / 2 * (sphere_axis sqrtf mesh).1)) hr0 rfl
  exact ⟨hr, hv⟩

/-- Two points of a ball are at most a diameter apart. -/
theorem sphere_contains_diameter (c : Vec3 α) (r : α) (p q : Vec3 α) (hr : 0 ≤ r)
    (hp : sphere_contains c r p) (hq : sphere_contains c r q) :
    sqr (p 0 - q 0) + sqr (p 1 - q 1) + sqr (p 2 - q 2) ≤ 4 * sqr r := by
  unfold sphere_contains sqr at hp hq
  unfold sqr
  have hdot := dot_bound_of_norm_bounds (p 0 - c 0) (p 1 - c 1) (p 2 - c 2)
    (q 0 - c 0) (q 1 - c 1) (q 2 - c 2) r r hr hr hp hq
  have hexp : (p 0 - q 0) * (p 0 - q 0) + (p 1 - q 1) * (p 1 - q 1) +
      (p 2 - q 2) * (p 2 - q 2) =
      ((p 0 - c 0) * (p 0 - c 0) + (p 1 - c 1) * (p 1 - c 1) + (p 2 - c 2) * (p 2 - c 2)) +
      ((q 0 - c 0) * (q 0 - c 0) + (q 1 - c 1) * (q 1 - c 1) + (q 2 - c 2) * (q 2 - c 2)) -
      2 * ((p 0 - c 0) * (q 0 - c 0) + (p 1 - c 1) * (q 1 - c 1) +
        (p 2 - c 2) * (q 2 - c 2)) := by ring
  rw [hexp]
  linarith

/-- Cube case of the enclosure: when a sphere is produced for a mesh having the
opposite cube corners `(s/2, s/2, s/2)` and `(-s/2, -s/2, -s/2)` among its
vertices, its radius `r` satisfies `3 * s^2 <= 4 * r^2`, i.e.
`r >= s * sqrt 3 / 2`. -/
theorem mesh_generate_bounding_sphere_cube_radius (sqrtf : α → α)
    (hs : ∀ x, 0 ≤ x → 0 ≤ sqrtf x ∧ sqrtf x * sqrtf x = x) (mesh mesh2 : Mesh α)
    (heps : 0 ≤ mesh.epsilon)
    (h : mesh_generate_bounding_sphere sqrtf mesh = some mesh2) (s : α)
    (tri1 tri2 : MeshTriangle α) (h1 : tri1 ∈ mesh.triangles) (h2 : tri2 ∈ mesh.triangles)
    (j1 j2 : Fin 3) (hv1 : tri1.vertices j1 = ![s / 2, s / 2, s / 2])
    (hv2 : tri2.vertices j2 = ![-s / 2, -s / 2, -s / 2]) :
    ∃ sphere : BoundingSphere α, mesh2.bounding_shape = .sphere sphere ∧
      0 ≤ sphere.radius ∧ 3 * sqr s ≤ 4 * sqr sphere.radius := by
  obtain ⟨sphere, hshape, hr, hall⟩ :=
    mesh_generate_bounding_sphere_encloses sqrtf hs mesh mesh2 heps h
  refine ⟨sphere, hshape, hr, ?_⟩
  have hd := sphere_contains_diameter sphere.position sphere.radius _ _ hr
    (hall tri1 h1 j1) (hall tri2 h2 j2)
  rw [hv1, hv2] at hd
  have he : sqr ((![s / 2, s / 2, s / 2] : Vec3 α) 0 - (![-s / 2, -s / 2, -s / 2] : Vec3 α) 0) +
      sqr ((![s / 2, s / 2, s / 2] : Vec3 α) 1 - (![-s / 2, -s / 2, -s / 2] : Vec3 α) 1) +
      sqr ((![s / 2, s / 2, s / 2] : Vec3 α) 2 - (![-s / 2, -s / 2, -s / 2] : Vec3 α) 2) =
      3 * sqr s := by
    simp [sqr]
    ring
  rw [he] at hd
  exact hd

/-- C4 fails on `point_mesh` (with the real square root): the three
axis-extreme separations are 0, none exceeds `FLT_MIN`, so `direction` keeps
the value stored by `direction = -1` and the read of `distance_vectors` is
outside the array: no sphere is produced. -/
theorem mesh_generate_bounding_sphere_point_mesh :
    mesh_generate_bounding_sphere Real.sqrt (point_mesh ℝ) = none ∧
      (point_mesh ℝ).triangles = [mesh_triangle_of ![![1, 1, 1], ![1, 1, 1], ![1, 1, 1]]] := by
  refine ⟨point_mesh_no_sphere Real.sqrt ?_, rfl⟩
  rw [Real.sqrt_zero]
  exact le_of_lt FLT_MIN_pos

/-! ### Plane -/

/-- Helper: a coordinate whose square is at most `r^2` lies in `[-r, r]`. -/
theorem abs_bound_of_sqr_le (x r : α) (hr : 0 ≤ r) (h : sqr x ≤ sqr r) : -r ≤ x ∧ x ≤ r := by
  unfold sqr at h
  constructor
  · by_contra hc
    have : r < -x := by linarith [not_le.mp hc]
    nlinarith
  · by_contra hc
    have : r < x := not_le.mp hc
    nlinarith

/-! ### The slab test does not clip to the forward half-line -/

/-- C12: the cuboid test does not clip to the forward half of the ray.  For the
box (-1,-1,-1)..(1,1,1) (ordered corners) and the ray from (-5,-5,-5) along
(-1,-1,-1) (no zero component), no point `position + t * vector` with `t > 0`
lies in the box, yet `intersects_bounding_cuboid` returns true. -/
theorem intersects_bounding_cuboid_accepts_backward_ray :
    (∀ i, unit_cuboid.corners 0 i ≤ unit_cuboid.corners 1 i) ∧
      (∀ i, back_ray.vector i ≠ 0) ∧
      (∀ t : ℚ, 0 < t → ¬ ∀ i,
        unit_cuboid.corners 0 i ≤ back_ray.position i + t * back_ray.vector i ∧
        back_ray.position i + t * back_ray.vector i ≤ unit_cuboid.corners 1 i) ∧
      intersects_bounding_cuboid unit_cuboid back_ray = true := by
  refine ⟨?_, ?_, ?_, ?_⟩
  · intro i
    fin_cases i <;> simp [unit_cuboid, init_bounding_cuboid]
  · intro i
    fin_cases i <;> simp [back_ray]
  · intro t ht h
    have h0 := (h 0).1
    simp [unit_cuboid, init_bounding_cuboid, back_ray] at h0
    linarith
  · refine cuboid_accepts_of_point_in_box _ _ ?_ (-5) ?_
    · intro i
      fin_cases i <;> simp [back_ray]
    · intro i
      fin_cases i <;> simp [unit_cuboid, init_bounding_cuboid, back_ray]

/-! ### The slab test in exact arithmetic with infinities -/

theorem slab_test_extended_eq (cuboid : BoundingCuboid α) (ray : Line α)
    (neg_zero : Fin 3 → Bool) :
    slab_test_extended cuboid ray neg_zero =
      interval_test_extended
        (slab_interval_extended (cuboid.corners 0 0) (cuboid.corners 1 0) (ray.position 0)
          (ray.vector 0) (neg_zero 0))
        (slab_interval_extended (cuboid.corners 0 1) (cuboid.corners 1 1) (ray.position 1)
          (ray.vector 1) (neg_zero 1))
        (slab_interval_extended (cuboid.corners 0 2) (cuboid.corners 1 2) (ray.position 2)
          (ray.vector 2) (neg_zero 2)) := by
  rfl

/-- Three non-empty closed intervals of a linear order have a common point
exactly when the two rejection tests of the slab method both fail. -/
theorem interval_overlap_iff {β : Type} [LinearOrder β] (a1 a2 b1 b2 c1 c2 : β)
    (ha : a1 ≤ a2) (hb : b1 ≤ b2) (hc : c1 ≤ c2) :
    (¬ (b2 < a1 ∨ a2 < b1) ∧
      ¬ (c2 < (if a1 < b1 then b1 else a1) ∨ (if b2 < a2 then b2 else a2) < c1)) ↔
    ∃ t : β, (a1 ≤ t ∧ t ≤ a2) ∧ (b1 ≤ t ∧ t ≤ b2) ∧ (c1 ≤ t ∧ t ≤ c2) := by
  constructor
  · rintro ⟨h1, h2⟩
    simp only [not_or, not_lt] at h1 h2
    obtain ⟨h3, h4⟩ := h1
    obtain ⟨h5, h6⟩ := h2
    have h7 : a1 ≤ c2 ∧ b1 ≤ c2 := by
      split_ifs at h5 with h8
      · exact ⟨le_trans (le_of_lt h8) h5, h5⟩
      · exact ⟨h5, le_trans (not_lt.mp h8) h5⟩
    have h9 : c1 ≤ a2 ∧ c1 ≤ b2 := by
      split_ifs at h6 with h8
      · exact ⟨le_trans h6 (le_of_lt h8), h6⟩
      · exact ⟨h6, le_trans h6 (not_lt.mp h8)⟩
    refine ⟨max a1 (max b1 c1), ⟨le_max_left _ _, ?_⟩, ⟨?_, ?_⟩, ⟨?_, ?_⟩⟩
    · exact max_le ha (max_le h4 h9.1)
    · exact le_trans (le_max_left _ _) (le_max_right _ _)
    · exact max_le h3 (max_le hb h9.2)
    · exact le_trans (le_max_right _ _) (le_max_right _ _)
    · exact max_le h7.1 (max_le h7.2 hc)
  · rintro ⟨t, ⟨h1, h2⟩, ⟨h3, h4⟩, ⟨h5, h6⟩⟩
    constructor
    · simp only [not_or, not_lt]
      exact ⟨le_trans h1 h4, le_trans h3 h2⟩
    · simp only [not_or, not_lt]
      constructor
      · split_ifs
        · exact le_trans h3 h6
        · exact le_trans h1 h6
      · split_ifs
        · exact le_trans h5 h4
        · exact le_trans h5 h2

/-- On values that are not NaN, `Extended.lt` is the order of the extended line. -/
theorem Extended.lt_iff_toE (x y : Extended α) (hx : x ≠ .nan) (hy : y ≠ .nan) :
    Extended.lt x y = true ↔ x.toE < y.toE := by
  cases x <;> cases y <;> simp [Extended.lt, Extended.toE] at hx hy ⊢
  rw [← WithBot.coe_top]
  exact WithBot.coe_lt_coe.mpr (WithTop.coe_lt_top _)

/-- On pairs without NaN, the comparisons of the slab test succeed exactly
when the two rejection tests fail in the extended line. -/
theorem interval_test_extended_iff (tx ty tz : Extended α × Extended α) (hx1 : tx.1 ≠ .nan)
    (hx2 : tx.2 ≠ .nan) (hy1 : ty.1 ≠ .nan) (hy2 : ty.2 ≠ .nan) (hz1 : tz.1 ≠ .nan)
    (hz2 : tz.2 ≠ .nan) :
    interval_test_extended tx ty tz = true ↔
      (¬ (ty.2.toE < tx.1.toE ∨ tx.2.toE < ty.1.toE) ∧
        ¬ (tz.2.toE < (if tx.1.toE < ty.1.toE then ty.1.toE else tx.1.toE) ∨
          (if ty.2.toE < tx.2.toE then ty.2.toE else tx.2.toE) < tz.1.toE)) := by
  have hlo : (if Extended.lt tx.1 ty.1 = true then ty.1 else tx.1) ≠ .nan := by
    split_ifs
    · exact hy1
    · exact hx1
  have hhi : (if Extended.lt ty.2 tx.2 = true then ty.2 else tx.2) ≠ .nan := by
    split_ifs
    · exact hy2
    · exact hx2
  have elo : (if Extended.lt tx.1 ty.1 = true then ty.1 else tx.1).toE =
      (if tx.1.toE < ty.1.toE then ty.1.toE else tx.1.toE) := by
    by_cases h : Extended.lt tx.1 ty.1 = true
    · rw [if_pos h, if_pos ((Extended.lt_iff_toE _ _ hx1 hy1).mp h)]
    · rw [if_neg h, if_neg (fun h2 => h ((Extended.lt_iff_toE _ _ hx1 hy1).mpr h2))]
  have ehi : (if Extended.lt ty.2 tx.2 = true then ty.2 else tx.2).toE =
      (if ty.2.toE < tx.2.toE then ty.2.toE else tx.2.toE) := by
    by_cases h : Extended.lt ty.2 tx.2 = true
    · rw [if_pos h, if_pos ((Extended.lt_iff_toE _ _ hy2 hx2).mp h)]
    · rw [if_neg h, if_neg (fun h2 => h ((Extended.lt_iff_toE _ _ hy2 hx2).mpr h2))]
  rw [← elo, ← ehi, ← Extended.lt_iff_toE _ _ hy2 hx1, ← Extended.lt_iff_toE _ _ hx2 hy1,
    ← Extended.lt_iff_toE _ _ hz2 hlo, ← Extended.lt_iff_toE _ _ hhi hz1]
  unfold interval_test_extended
  by_cases h1 : Extended.lt ty.2 tx.1 = true ∨ Extended.lt tx.2 ty.1 = true
  · rw [if_pos h1]
    constructor
    · intro h
      exact absurd h (by decide)
    · rintro ⟨h2, _⟩
      exact absurd h1 h2
  · rw [if_neg h1]
    by_cases h2 : Extended.lt tz.2 (if Extended.lt tx.1 ty.1 = true then ty.1 else tx.1) = true ∨
        Extended.lt (if Extended.lt ty.2 tx.2 = true then ty.2 else tx.2) tz.1 = true
    · rw [if_pos h2]
      constructor
      · intro h
        exact absurd h (by decide)
      · rintro ⟨_, h3⟩
        exact absurd h2 h3
    · rw [if_neg h2]
      exact ⟨fun _ => ⟨h1, h2⟩, fun _ => rfl⟩

/-- With a non-zero direction component the extended pair is the finite pair
of `slab_interval` in exact arithmetic. -/
theorem slab_interval_extended_of_ne_zero (c0 c1 p v : α) (neg_zero : Bool) (hv : v ≠ 0) :
    slab_interval_extended c0 c1 p v neg_zero =
      (.fin (slab_interval c0 c1 p v).1, .fin (slab_interval c0 c1 p v).2) := by
  unfold slab_interval_extended slab_interval Extended.recip
  simp only [hv, if_false, Extended.ge_zero, decide_eq_true_eq]
  by_cases h : 0 ≤ 1 / v
  · simp only [h, if_true, Extended.mul_fin, ge_iff_le]
  · simp only [h, if_false, Extended.mul_fin, ge_iff_le]

/-- One axis of the extended slab test, for ordered corners and an origin that is
not on a slab boundary when the direction component is zero: no NaN arises,
the pair is ordered in the extended line, and a finite parameter lies between
its two ends exactly when the point of the line is inside the slab. -/
theorem slab_interval_extended_spec (c0 c1 p v : α) (neg_zero : Bool) (hc : c0 ≤ c1)
    (hb : v = 0 → p ≠ c0 ∧ p ≠ c1) :
    (slab_interval_extended c0 c1 p v neg_zero).1 ≠ .nan ∧
      (slab_interval_extended c0 c1 p v neg_zero).2 ≠ .nan ∧
      (slab_interval_extended c0 c1 p v neg_zero).1.toE ≤
        (slab_interval_extended c0 c1 p v neg_zero).2.toE ∧
      ∀ t : α,
        ((slab_interval_extended c0 c1 p v neg_zero).1.toE ≤ ((t : WithTop α) : WithBot (WithTop α)) ∧
          ((t : WithTop α) : WithBot (WithTop α)) ≤
            (slab_interval_extended c0 c1 p v neg_zero).2.toE) ↔
        (c0 ≤ p + t * v ∧ p + t * v ≤ c1) := by
  by_cases hv : v = 0
  · obtain ⟨h0, h1⟩ := hb hv
    subst hv
    have hrec : ∀ nz : Bool, Extended.recip nz (0 : α) = if nz = true then .ninf else .pinf := by
      intro nz
      unfold Extended.recip
      simp
    unfold slab_interval_extended
    rw [hrec]
    rcases lt_trichotomy p c0 with hlt | heq | hgt
    · have e0 : 0 < c0 - p := sub_pos.mpr hlt
      have e1 : 0 < c1 - p := sub_pos.mpr (lt_of_lt_of_le hlt hc)
      have hnot : ¬ c0 ≤ p := not_le.mpr hlt
      cases neg_zero <;> simp [Extended.ge_zero, Extended.mul_fin, Extended.toE, e0, e1, hnot]
    · exact absurd heq h0
    · rcases lt_trichotomy p c1 with hlt1 | heq1 | hgt1
      · have e0 : c0 - p < 0 := sub_neg.mpr hgt
        have e1 : 0 < c1 - p := sub_pos.mpr hlt1
        have n0 : ¬ 0 < c0 - p := not_lt.mpr (le_of_lt e0)
        cases neg_zero <;>
          simp [Extended.ge_zero, Extended.mul_fin, Extended.toE, e0, e1, n0, le_of_lt hgt, le_of_lt hlt1]
      · exact absurd heq1 h1
      · have e0 : c0 - p < 0 := sub_neg.mpr (lt_of_le_of_lt hc hgt1)
        have e1 : c1 - p < 0 := sub_neg.mpr hgt1
        have n0 : ¬ 0 < c0 - p := not_lt.mpr (le_of_lt e0)
        have n1 : ¬ 0 < c1 - p := not_lt.mpr (le_of_lt e1)
        have hnot : ¬ p ≤ c1 := not_le.mpr hgt1
        cases neg_zero <;> simp [Extended.ge_zero, Extended.mul_fin, Extended.toE, e0, e1, n0, n1, hnot]
  · rw [slab_interval_extended_of_ne_zero c0 c1 p v neg_zero hv]
    refine ⟨by simp, by simp, ?_, ?_⟩
    · simp only [Extended.toE, WithBot.coe_le_coe, WithTop.coe_le_coe]
      exact slab_interval_ordered c0 c1 p v hv hc
    · intro t
      simp only [Extended.toE, WithBot.coe_le_coe, WithTop.coe_le_coe]
      exact (slab_interval_mem c0 c1 p v hv t).symm

/-- A point of the extended line between two finite values is finite. -/
theorem finite_of_between (a b : α) (e : WithBot (WithTop α))
    (h1 : ((a : WithTop α) : WithBot (WithTop α)) ≤ e)
    (h2 : e ≤ ((b : WithTop α) : WithBot (WithTop α))) :
    ∃ t : α, e = ((t : WithTop α) : WithBot (WithTop α)) := by
  induction e using WithBot.recBotCoe with
  | bot => exact absurd h1 (WithBot.not_coe_le_bot _)
  | coe w =>
    induction w using WithTop.recTopCoe with
    | top =>
      rw [WithBot.coe_le_coe] at h2
      exact absurd h2 (WithTop.not_top_le_coe b)
    | coe t => exact ⟨t, rfl⟩

/-- Exact arithmetic with infinities: for ordered corners, a direction that is
zero on some axes (not on all three) and an origin that is not on a slab
boundary on those axes, `slab_test_extended` returns true exactly when the
infinite line meets the box.  On the cuboid
(-1,-1,-1)..(1,1,1) it returns true for the ray from (-5,0,0) along (1,0,0)
and false for the ray from (-5,2,0) along (1,0,0). -/
theorem exact_slab_test_extended_spec (cuboid : BoundingCuboid α) (ray : Line α)
    (neg_zero : Fin 3 → Bool) (hc : ∀ i, cuboid.corners 0 i ≤ cuboid.corners 1 i)
    (hnz : ∃ i, ray.vector i ≠ 0)
    (hb : ∀ i, ray.vector i = 0 →
      ray.position i ≠ cuboid.corners 0 i ∧ ray.position i ≠ cuboid.corners 1 i) :
    (slab_test_extended cuboid ray neg_zero = true ↔
      ∃ t : α, ∀ i, cuboid.corners 0 i ≤ ray.position i + t * ray.vector i ∧
        ray.position i + t * ray.vector i ≤ cuboid.corners 1 i) ∧
    (cuboid.corners = ![![-1, -1, -1], ![1, 1, 1]] → ray.vector = ![1, 0, 0] →
      (ray.position = ![-5, 0, 0] →
        slab_test_extended cuboid ray neg_zero = true) ∧
      (ray.position = ![-5, 2, 0] →
        slab_test_extended cuboid ray neg_zero = false)) := by
  have key : slab_test_extended cuboid ray neg_zero = true ↔
      ∃ t : α, ∀ i, cuboid.corners 0 i ≤ ray.position i + t * ray.vector i ∧
        ray.position i + t * ray.vector i ≤ cuboid.corners 1 i := by
    obtain ⟨hx1, hx2, hxo, hxm⟩ := slab_interval_extended_spec (cuboid.corners 0 0)
      (cuboid.corners 1 0) (ray.position 0) (ray.vector 0) (neg_zero 0) (hc 0) (hb 0)
    obtain ⟨hy1, hy2, hyo, hym⟩ := slab_interval_extended_spec (cuboid.corners 0 1)
      (cuboid.corners 1 1) (ray.position 1) (ray.vector 1) (neg_zero 1) (hc 1) (hb 1)
    obtain ⟨hz1, hz2, hzo, hzm⟩ := slab_interval_extended_spec (cuboid.corners 0 2)
      (cuboid.corners 1 2) (ray.position 2) (ray.vector 2) (neg_zero 2) (hc 2) (hb 2)
    rw [slab_test_extended_eq, interval_test_extended_iff _ _ _ hx1 hx2 hy1 hy2 hz1 hz2,
      interval_overlap_iff _ _ _ _ _ _ hxo hyo hzo]
    constructor
    · rintro ⟨e, hex, hey, hez⟩
      have hfin : ∃ t : α, e = ((t : WithTop α) : WithBot (WithTop α)) := by
        obtain ⟨i, hi⟩ := hnz
        fin_cases i
        · have hi0 : ray.vector 0 ≠ 0 := hi
          rw [slab_interval_extended_of_ne_zero _ _ _ _ _ hi0] at hex
          exact finite_of_between _ _ e hex.1 hex.2
        · have hi0 : ray.vector 1 ≠ 0 := hi
          rw [slab_interval_extended_of_ne_zero _ _ _ _ _ hi0] at hey
          exact finite_of_between _ _ e hey.1 hey.2
        · have hi0 : ray.vector 2 ≠ 0 := hi
          rw [slab_interval_extended_of_ne_zero _ _ _ _ _ hi0] at hez
          exact finite_of_between _ _ e hez.1 hez.2
      obtain ⟨t, ht⟩ := hfin
      subst ht
      refine ⟨t, fun i => ?_⟩
      fin_cases i
      · exact (hxm t).mp hex
      · exact (hym t).mp hey
      · exact (hzm t).mp hez
    · rintro ⟨t, h⟩
      exact ⟨((t : WithTop α) : WithBot (WithTop α)), (hxm t).mpr (h 0), (hym t).mpr (h 1),
        (hzm t).mpr (h 2)⟩
  refine ⟨key, ?_⟩
  intro hcor hvec
  constructor
  · intro hpos
    rw [key]
    refine ⟨4, fun i => ?_⟩
    rw [hcor, hvec, hpos]
    fin_cases i <;> simp
    norm_num
  · intro hpos
    rw [Bool.eq_false_iff]
    intro h
    obtain ⟨t, ht⟩ := key.mp h
    have h1 := (ht 1).2
    rw [hcor, hvec, hpos] at h1
    norm_num at h1

/-- With no zero direction component the extended slab test agrees with
`intersects_bounding_cuboid` in exact arithmetic. -/
theorem slab_test_extended_of_nonzero (cuboid : BoundingCuboid α) (ray : Line α)
    (neg_zero : Fin 3 → Bool) (hv : ∀ i, ray.vector i ≠ 0) :
    slab_test_extended cuboid ray neg_zero =
      intersects_bounding_cuboid cuboid ray := by
  rw [slab_test_extended_eq, intersects_bounding_cuboid_eq,
    slab_interval_extended_of_ne_zero _ _ _ _ _ (hv 0),
    slab_interval_extended_of_ne_zero _ _ _ _ _ (hv 1),
    slab_interval_extended_of_ne_zero _ _ _ _ _ (hv 2)]
  unfold interval_test_extended
  simp only [Extended.lt, decide_eq_true_eq, gt_iff_lt]
  congr 1
  · split_ifs <;> simp_all [Extended.lt]

/-! ### Axis choice of the bounding sphere, cuboid invariant -/

theorem point_mesh_axis (sqrtf : α → α) (h0 : sqrtf 0 ≤ FLT_MIN) :
    sphere_axis sqrtf (point_mesh α) = (FLT_MIN, 4294967295) := by
  unfold sphere_axis sphere_distance_vectors
  rw [point_mesh_scan]
  simp [sphere_axis_step, magnitude3, subtract3, sqr, not_lt.mpr h0]

/-- C14 fails on `point_mesh` (with the real square root): after the axis loop
`direction` still holds 4294967295, the value stored by `direction = -1`, which
is not 0, 1 or 2, and it is then used to index `distance_vectors` and
`min_points`. -/
theorem sphere_axis_point_mesh :
    sphere_axis Real.sqrt (point_mesh ℝ) = (FLT_MIN, 4294967295) ∧
      ¬ (sphere_axis Real.sqrt (point_mesh ℝ)).2 < 3 ∧
      (point_mesh ℝ).triangles = [mesh_triangle_of ![![1, 1, 1], ![1, 1, 1], ![1, 1, 1]]] := by
  have h : sphere_axis Real.sqrt (point_mesh ℝ) = (FLT_MIN, 4294967295) := by
    refine point_mesh_axis Real.sqrt ?_
    rw [Real.sqrt_zero]
    exact le_of_lt FLT_MIN_pos
  refine ⟨h, ?_, rfl⟩
  rw [h]
  decide

/-- Helper: the cross product is perpendicular to both factors. -/
theorem dot3_cross_self (a b : Vec3 α) :
    dot3 (cross a b) a = 0 ∧ dot3 (cross a b) b = 0 := by
  constructor <;> simp [dot3, cross] <;> ring

/-- Helper: Lagrange's identity for the squared length of a cross product. -/
theorem dot3_cross_cross (a b : Vec3 α) :
    dot3 (cross a b) (cross a b) = dot3 a a * dot3 b b - dot3 a b * dot3 a b := by
  simp [dot3, cross]
  ring

/-! ### STL transform -/

/-- Helper: the entries of `stl_rotation_matrix`. -/
theorem stl_rotation_matrix_rows (cosf sinf : α → α) (rot : Vec3 α) :
    stl_rotation_matrix cosf sinf rot 0 =
        ![cosf (rot 2) * cosf (rot 1),
          cosf (rot 2) * sinf (rot 1) * sinf (rot 0) - sinf (rot 2) * cosf (rot 0),
          cosf (rot 2) * sinf (rot 1) * cosf (rot 0) + sinf (rot 2) * sinf (rot 0)] ∧
      stl_rotation_matrix cosf sinf rot 1 =
        ![sinf (rot 2) * cosf (rot 1),
          sinf (rot 2) * sinf (rot 1) * sinf (rot 0) + cosf (rot 2) * cosf (rot 0),
          sinf (rot 2) * sinf (rot 1) * cosf (rot 0) - cosf (rot 2) * sinf (rot 0)] ∧
      stl_rotation_matrix cosf sinf rot 2 =
        ![-sinf (rot 1), cosf (rot 1) * sinf (rot 0), cosf (rot 1) * cosf (rot 0)] :=
  ⟨rfl, rfl, rfl⟩

/-- Helper: the rows of the rotation matrix are orthonormal and right-handed. -/
theorem stl_rotation_matrix_orthonormal (cosf sinf : α → α) (rot : Vec3 α)
    (htrig : ∀ k, sqr (cosf (rot k)) + sqr (sinf (rot k)) = 1) :
    (∀ i j, dot3 (stl_rotation_matrix cosf sinf rot i) (stl_rotation_matrix cosf sinf rot j) =
      if i = j then 1 else 0) ∧
    cross (stl_rotation_matrix cosf sinf rot 1) (stl_rotation_matrix cosf sinf rot 2) =
      stl_rotation_matrix cosf sinf rot 0 := by
  obtain ⟨hr0, hr1, hr2⟩ := stl_rotation_matrix_rows cosf sinf rot
  have hx := htrig 0
  have hy := htrig 1
  have hz := htrig 2
  unfold sqr at hx hy hz
  generalize cosf (rot 0) = cx at *
  generalize sinf (rot 0) = sx at *
  generalize cosf (rot 1) = cy at *
  generalize sinf (rot 1) = sy at *
  generalize cosf (rot 2) = cz at *
  generalize sinf (rot 2) = sz at *
  constructor
  · intro i j
    fin_cases i <;> fin_cases j <;> simp [hr0, hr1, hr2, dot3]
    · linear_combination (cz * cz * sy * sy + sz * sz) * hx + cz * cz * hy + hz
    · linear_combination cz * sz * (sy * sy - 1) * hx + cz * sz * hy
    · linear_combination cz * cy * sy * hx
    · linear_combination cz * sz * (sy * sy - 1) * hx + cz * sz * hy
    · linear_combination (sz * sz * sy * sy + cz * cz) * hx + sz * sz * hy + hz
    · linear_combination sz * sy * cy * hx
    · linear_combination cz * cy * sy * hx
    · linear_combination sz * sy * cy * hx
    · linear_combination cy * cy * hx + hy
  · rw [hr0, hr1, hr2]
    funext i
    fin_cases i <;> simp [cross]
    · linear_combination cz * cy * hx
    · linear_combination -sz * cx * hy
    · linear_combination sz * sx * hy

/-- Helper: the rotation matrix preserves squared length. -/
theorem stl_rotation_matrix_norm (cosf sinf : α → α) (rot : Vec3 α)
    (htrig : ∀ k, sqr (cosf (rot k)) + sqr (sinf (rot k)) = 1) (w : Vec3 α) :
    sqr (dot3 (stl_rotation_matrix cosf sinf rot 0) w) +
        sqr (dot3 (stl_rotation_matrix cosf sinf rot 1) w) +
        sqr (dot3 (stl_rotation_matrix cosf sinf rot 2) w) =
      sqr (w 0) + sqr (w 1) + sqr (w 2) := by
  obtain ⟨hr0, hr1, hr2⟩ := stl_rotation_matrix_rows cosf sinf rot
  have hx := htrig 0
  have hy := htrig 1
  have hz := htrig 2
  rw [hr0, hr1, hr2]
  unfold sqr at *
  generalize cosf (rot 0) = cx at *
  generalize sinf (rot 0) = sx at *
  generalize cosf (rot 1) = cy at *
  generalize sinf (rot 1) = sy at *
  generalize cosf (rot 2) = cz at *
  generalize sinf (rot 2) = sz at *
  simp [dot3]
  linear_combination
    (w 1 * w 1 + w 2 * w 2) * hx +
    (w 0 * w 0 + (sx * w 1 + cx * w 2) * (sx * w 1 + cx * w 2)) * hy +
    ((cy * w 0 + sy * (sx * w 1 + cx * w 2)) * (cy * w 0 + sy * (sx * w 1 + cx * w 2)) +
      (cx * w 1 - sx * w 2) * (cx * w 1 - sx * w 2)) * hz

/-- Helper: the difference of two transformed vertices is the scaled rotated
difference of the vertices. -/
theorem stl_transform_vertex_sub (rotation_matrix : Fin 3 → Vec3 α) (position : Vec3 α)
    (scale : α) (u v : Vec3 α) (i : Fin 3) :
    subtract3 (stl_transform_vertex rotation_matrix position scale u)
        (stl_transform_vertex rotation_matrix position scale v) i =
      scale * dot3 (rotation_matrix i) (subtract3 u v) := by
  unfold stl_transform_vertex subtract3 add3 multiply3
  fin_cases i <;> simp [dot3] <;> ring

end Theorems

/-! ## Theorems about the `float` arithmetic of the program -/

/-! ### Order of `float` values -/

theorem float_lt_iff (a b : F32) : a < b ↔ F32.lt a b = true := Iff.rfl

theorem float_le_iff (a b : F32) : a ≤ b ↔ F32.le a b = true := Iff.rfl

theorem float_zero_eq : (0 : F32) = F32.fin 0 := rfl

theorem float_fin_le_fin (a b : ℚ) : F32.fin a ≤ F32.fin b ↔ a ≤ b := by
  simp [float_le_iff, F32.le, F32.toRat]

theorem float_lt_irrefl (a : F32) : ¬ a < a := by
  cases a <;> simp [float_lt_iff, F32.lt, F32.toRat]

theorem float_ne_nan_of_lt {a b : F32} (h : a < b) : a ≠ F32.nan ∧ b ≠ F32.nan := by
  cases a <;> cases b <;> simp_all [float_lt_iff, F32.lt]

theorem float_lt_trans {a b c : F32} (h1 : a < b) (h2 : b < c) : a < c := by
  cases a <;> cases b <;> cases c <;> simp_all [float_lt_iff, F32.lt, F32.toRat] <;> linarith

theorem float_le_trans {a b c : F32} (h1 : a ≤ b) (h2 : b ≤ c) : a ≤ c := by
  cases a <;> cases b <;> cases c <;> simp_all [float_le_iff, F32.le, F32.toRat] <;> linarith

theorem float_lt_of_lt_of_le {a b c : F32} (h1 : a < b) (h2 : b ≤ c) : a < c := by
  cases a <;> cases b <;> cases c <;>
    simp_all [float_lt_iff, float_le_iff, F32.lt, F32.le, F32.toRat] <;> linarith

theorem float_lt_of_le_of_lt {a b c : F32} (h1 : a ≤ b) (h2 : b < c) : a < c := by
  cases a <;> cases b <;> cases c <;>
    simp_all [float_lt_iff, float_le_iff, F32.lt, F32.le, F32.toRat] <;> linarith

theorem float_le_of_lt {a b : F32} (h : a < b) : a ≤ b := by
  cases a <;> cases b <;> simp_all [float_lt_iff, float_le_iff, F32.lt, F32.le, F32.toRat] <;>
    linarith

theorem float_not_lt {a b : F32} (ha : a ≠ F32.nan) (hb : b ≠ F32.nan) : ¬ a < b ↔ b ≤ a := by
  cases a <;> cases b <;> simp_all [float_lt_iff, float_le_iff, F32.lt, F32.le, F32.toRat]

theorem float_le_refl {a : F32} (ha : a ≠ F32.nan) : a ≤ a := by
  cases a <;> simp_all [float_le_iff, F32.le, F32.toRat]

theorem float_ne_of_lt {a b : F32} (h : a < b) : a ≠ b := by
  intro h2
  rw [h2] at h
  exact float_lt_irrefl b h

/-- Helper: a `float` with a value is finite and has that value as a rational
number. -/
theorem float_finite_of_value (x : F32) (q : ℚ) (h : x.value = some q) :
    x.isFinite = true ∧ x.toRat = q := by
  cases x <;> simp_all [F32.value, F32.isFinite, F32.toRat]

/-- Helper: the absolute value of a zero is below every positive `float`. -/
theorem float_fabsf_lt_of_value_zero (x epsilon : F32) (h : x.value = some 0)
    (heps : 0 < epsilon) : fabsf x < epsilon := by
  have hx : x = F32.fin 0 ∨ x = F32.nzero := by
    cases x <;> simp_all [F32.value]
  rw [float_lt_iff, float_zero_eq] at heps
  rw [float_lt_iff]
  rcases hx with hx | hx
  · have e : fabsf (F32.fin 0) = F32.fin 0 := by decide!
    rw [hx, e]
    exact heps
  · have e : fabsf F32.nzero = F32.nzero := by decide!
    rw [hx, e]
    cases epsilon <;> simp_all [F32.lt, F32.toRat]

theorem float_FLT_MAX_eq : (FLT_MAX : F32) = F32.fin (2 ^ 128 - 2 ^ 104) := by decide!

theorem float_FLT_MIN_eq : (FLT_MIN : F32) = F32.fin (1 / 2 ^ 126) := by decide!
/-! ### Closest-hit scan of a mesh -/

/-- A hit of `moller_trumbore` lies strictly beyond epsilon; in particular its
distance is not NaN. -/
theorem float_mesh_triangle_hit_gt (epsilon : F32) (ray : Line F32) (tri : MeshTriangle F32)
    (d : F32) (h : mesh_triangle_hit epsilon ray tri = some d) : epsilon < d := by
  unfold mesh_triangle_hit moller_trumbore at h
  simp only [] at h
  split_ifs at h with h1 h2 h3 h4
  rw [← Option.some.inj h]
  exact h4

theorem float_mesh_triangle_hit_ne_nan (epsilon : F32) (ray : Line F32) (tri : MeshTriangle F32)
    (d : F32) (h : mesh_triangle_hit epsilon ray tri = some d) : d ≠ F32.nan :=
  (float_ne_nan_of_lt (float_mesh_triangle_hit_gt epsilon ray tri d h)).2

theorem float_get_intersection_mesh_step_eq (epsilon : F32) (ray : Line F32)
    (st : F32 × Option (MeshTriangle F32)) (triangle : MeshTriangle F32) :
    get_intersection_mesh_step epsilon ray st triangle =
      match mesh_triangle_hit epsilon ray triangle with
      | some cur_distance => if cur_distance < st.1 then (cur_distance, some triangle) else st
      | none => st := by
  unfold get_intersection_mesh_step mesh_triangle_hit
  cases moller_trumbore (triangle.vertices 0) triangle.edges ray.position ray.vector epsilon <;>
    rfl

/-- Loop invariant of the closest-hit scan, in `float` arithmetic. -/
theorem float_mesh_scan_invariant (epsilon : F32) (ray : Line F32) (d0 : F32)
    (hd0 : d0 ≠ F32.nan) (l : List (MeshTriangle F32)) :
    (l.foldl (get_intersection_mesh_step epsilon ray) (d0, none) = (d0, none) ∧
        ∀ tri ∈ l, ∀ d, mesh_triangle_hit epsilon ray tri = some d → d0 ≤ d) ∨
      ((l.foldl (get_intersection_mesh_step epsilon ray) (d0, none)).1 < d0 ∧
        ∃ (i : Nat) (t : MeshTriangle F32), l[i]? = some t ∧
        (l.foldl (get_intersection_mesh_step epsilon ray) (d0, none)).2 = some t ∧
        mesh_triangle_hit epsilon ray t =
          some (l.foldl (get_intersection_mesh_step epsilon ray) (d0, none)).1 ∧
        (∀ tri ∈ l, ∀ d, mesh_triangle_hit epsilon ray tri = some d →
          (l.foldl (get_intersection_mesh_step epsilon ray) (d0, none)).1 ≤ d) ∧
        ∀ (j : Nat) (t2 : MeshTriangle F32) (d : F32), j < i → l[j]? = some t2 →
          mesh_triangle_hit epsilon ray t2 = some d →
          (l.foldl (get_intersection_mesh_step epsilon ray) (d0, none)).1 < d) := by
  induction l using List.reverseRecOn with
  | nil =>
    left
    exact ⟨rfl, fun tri h => absurd h (List.not_mem_nil tri)⟩
  | append_singleton l a ih =>
    rw [List.foldl_append, List.foldl_cons, List.foldl_nil, float_get_intersection_mesh_step_eq]
    rcases ih with ⟨hst, hall⟩ | ⟨hlt, i, t, hi, hst2, hhit, hmin, hfirst⟩
    · -- nothing found so far
      rw [hst]
      cases hcur : mesh_triangle_hit epsilon ray a with
      | none =>
        left
        refine ⟨rfl, fun tri htri d hd => ?_⟩
        rcases List.mem_append.mp htri with h | h
        · exact hall tri h d hd
        · rw [List.mem_singleton.mp h, hcur] at hd
          exact absurd hd (by simp)
      | some cur =>
        have hcn : cur ≠ F32.nan := float_mesh_triangle_hit_ne_nan epsilon ray a cur hcur
        by_cases hc : cur < d0
        · right
          simp only []
          rw [if_pos hc]
          refine ⟨hc, l.length, a, List.getElem?_concat_length l a, rfl, hcur, ?_, ?_⟩
          · intro tri htri d hd
            rcases List.mem_append.mp htri with h | h
            · exact float_le_trans (float_le_of_lt hc) (hall tri h d hd)
            · rw [List.mem_singleton.mp h, hcur] at hd
              rw [← Option.some.inj hd]
              exact float_le_refl hcn
          · intro j t2 d hj hj2 hd
            rw [List.getElem?_append_left hj] at hj2
            exact float_lt_of_lt_of_le hc (hall t2 (List.getElem?_mem hj2) d hd)
        · left
          simp only []
          rw [if_neg hc]
          refine ⟨rfl, fun tri htri d hd => ?_⟩
          rcases List.mem_append.mp htri with h | h
          · exact hall tri h d hd
          · rw [List.mem_singleton.mp h, hcur] at hd
            rw [← Option.some.inj hd]
            exact (float_not_lt hcn hd0).mp hc
    · -- a closest triangle is known
      right
      have hil : i < l.length := by
        rcases Nat.lt_or_ge i l.length with h | h
        · exact h
        · rw [List.getElem?_eq_none h] at hi
          exact absurd hi (by simp)
      have hsn : (l.foldl (get_intersection_mesh_step epsilon ray) (d0, none)).1 ≠ F32.nan :=
        (float_ne_nan_of_lt hlt).1
      cases hcur : mesh_triangle_hit epsilon ray a with
      | none =>
        simp only []
        refine ⟨hlt, i, t, ?_, hst2, hhit, ?_, ?_⟩
        · rw [List.getElem?_append_left hil]
          exact hi
        · intro tri htri d hd
          rcases List.mem_append.mp htri with h | h
          · exact hmin tri h d hd
          · rw [List.mem_singleton.mp h, hcur] at hd
            exact absurd hd (by simp)
        · intro j t2 d hj hj2 hd
          rw [List.getElem?_append_left (Nat.lt_trans hj hil)] at hj2
          exact hfirst j t2 d hj hj2 hd
      | some cur =>
        have hcn : cur ≠ F32.nan := float_mesh_triangle_hit_ne_nan epsilon ray a cur hcur
        by_cases hc : cur < (l.foldl (get_intersection_mesh_step epsilon ray) (d0, none)).1
        · simp only []
          rw [if_pos hc]
          refine ⟨float_lt_trans hc hlt, l.length, a, List.getElem?_concat_length l a, rfl, hcur,
            ?_, ?_⟩
          · intro tri htri d hd
            rcases List.mem_append.mp htri with h | h
            · exact float_le_trans (float_le_of_lt hc) (hmin tri h d hd)
            · rw [List.mem_singleton.mp h, hcur] at hd
              rw [← Option.some.inj hd]
              exact float_le_refl hcn
          · intro j t2 d hj hj2 hd
            rw [List.getElem?_append_left hj] at hj2
            exact float_lt_of_lt_of_le hc (hmin t2 (List.getElem?_mem hj2) d hd)
        · simp only []
          rw [if_neg hc]
          refine ⟨hlt, i, t, ?_, hst2, hhit, ?_, ?_⟩
          · rw [List.getElem?_append_left hil]
            exact hi
          · intro tri htri d hd
            rcases List.mem_append.mp htri with h | h
            · exact hmin tri h d hd
            · rw [List.mem_singleton.mp h, hcur] at hd
              rw [← Option.some.inj hd]
              exact (float_not_lt hcn hsn).mp hc
          · intro j t2 d hj hj2 hd
            rw [List.getElem?_append_left (Nat.lt_trans hj hil)] at hj2
            exact hfirst j t2 d hj hj2 hd

theorem float_FLT_MAX_ne_nan : (FLT_MAX : F32) ≠ F32.nan := by
  rw [float_FLT_MAX_eq]
  exact fun h => F32.noConfusion h

/-- Helper: what `get_intersection_mesh` returns once the bounding shape has
accepted the ray, read off the loop invariant. -/
theorem float_get_intersection_mesh_result (sqrtf : F32 → F32) (mesh : Mesh F32) (ray : Line F32)
    (hacc : mesh.bounding_shape.intersects sqrtf ray = true) :
    (get_intersection_mesh sqrtf mesh ray = none ∧
        ∀ tri ∈ mesh.triangles, ∀ d, mesh_triangle_hit mesh.epsilon ray tri = some d →
          FLT_MAX ≤ d) ∨
      ∃ (distance : F32) (i : Nat) (t : MeshTriangle F32),
        get_intersection_mesh sqrtf mesh ray = some (distance, t.normal) ∧
        distance < FLT_MAX ∧ mesh.triangles[i]? = some t ∧
        mesh_triangle_hit mesh.epsilon ray t = some distance ∧
        (∀ tri ∈ mesh.triangles, ∀ d, mesh_triangle_hit mesh.epsilon ray tri = some d →
          distance ≤ d) ∧
        ∀ (j : Nat) (t2 : MeshTriangle F32) (d : F32), j < i → mesh.triangles[j]? = some t2 →
          mesh_triangle_hit mesh.epsilon ray t2 = some d → distance < d := by
  unfold get_intersection_mesh
  simp only [hacc, not_true_eq_false, if_false]
  rcases float_mesh_scan_invariant mesh.epsilon ray FLT_MAX float_FLT_MAX_ne_nan mesh.triangles with
    ⟨hst, hall⟩ | ⟨hlt, i, t, hi, hst2, hhit, hmin, hfirst⟩
  · left
    rw [hst]
    exact ⟨by simp, hall⟩
  · right
    refine ⟨_, i, t, ?_, hlt, hi, hhit, hmin, hfirst⟩
    rw [if_neg (float_ne_of_lt hlt), hst2]
theorem stacked_mesh_triangles : stacked_mesh.triangles =
    [mesh_triangle_of low_triangle_vertices, mesh_triangle_of unit_triangle_vertices32,
      mesh_triangle_of flipped_triangle_vertices] := rfl

theorem stacked_mesh_populated :
    ∀ tri ∈ stacked_mesh.triangles, tri = mesh_triangle_of tri.vertices := by
  intro tri htri
  rw [stacked_mesh_triangles] at htri
  simp only [List.mem_cons, List.mem_singleton, List.not_mem_nil, or_false] at htri
  rcases htri with h | h | h <;> rw [h] <;> rfl

theorem stacked_mesh_accepts :
    stacked_mesh.bounding_shape.intersects F32.sqrt spec_ray = true := by decide!

theorem stacked_mesh_hit :
    get_intersection_mesh F32.sqrt stacked_mesh spec_ray = some (F32.fin 1, ![F32.fin 0, F32.fin 0, F32.fin 1]) := by decide!

/-- Helper: a standalone triangle built from the vertices of a mesh triangle
written by `mesh_set_triangle` runs the same test as the mesh loop. -/
theorem float_get_intersection_triangle_of_mesh_triangle (epsilon : F32) (ray : Line F32)
    (tri : MeshTriangle F32) (htri : tri = mesh_triangle_of tri.vertices) :
    get_intersection_triangle (init_triangle epsilon tri.vertices) ray =
      (mesh_triangle_hit epsilon ray tri).map (fun d => (d, tri.normal)) := by
  have he : tri.edges =
      ![subtract3 (tri.vertices 1) (tri.vertices 0), subtract3 (tri.vertices 2) (tri.vertices 0)] := by
    conv_lhs => rw [htri]
    rfl
  have hn : tri.normal = cross (tri.edges 0) (tri.edges 1) := by
    conv_lhs => rw [htri]
    rw [he]
    rfl
  unfold get_intersection_triangle mesh_triangle_hit init_triangle
  simp only []
  rw [he] at hn ⊢
  rw [hn]
  cases moller_trumbore (tri.vertices 0)
    ![subtract3 (tri.vertices 1) (tri.vertices 0), subtract3 (tri.vertices 2) (tri.vertices 0)]
    ray.position ray.vector epsilon <;> rfl

/-- C1 (amended): in `float` arithmetic, for a mesh whose triangles were
written by `mesh_set_triangle` and a ray that the bounding shape does not
reject, `get_intersection_mesh` reports a hit if and only if some triangle,
queried on its own as a standalone `Triangle` with the same vertices and
epsilon, reports a hit at a distance strictly below `FLT_MAX`; the reported
distance is then a standalone triangle's reported distance and is the minimum
of all of them. -/
theorem get_intersection_mesh_closest (sqrtf : F32 → F32) (mesh : Mesh F32) (ray : Line F32)
    (hpop : ∀ tri ∈ mesh.triangles, tri = mesh_triangle_of tri.vertices)
    (hacc : mesh.bounding_shape.intersects sqrtf ray = true) :
    ((get_intersection_mesh sqrtf mesh ray).isSome = true ↔
      ∃ tri ∈ mesh.triangles, ∃ d n,
        get_intersection_triangle (init_triangle mesh.epsilon tri.vertices) ray = some (d, n) ∧
        d < FLT_MAX) ∧
    ∀ distance normal, get_intersection_mesh sqrtf mesh ray = some (distance, normal) →
      (∃ tri ∈ mesh.triangles, ∃ n,
        get_intersection_triangle (init_triangle mesh.epsilon tri.vertices) ray =
          some (distance, n)) ∧
      ∀ tri ∈ mesh.triangles, ∀ d n,
        get_intersection_triangle (init_triangle mesh.epsilon tri.vertices) ray = some (d, n) →
        distance ≤ d := by
  have key : ∀ tri ∈ mesh.triangles, ∀ d n,
      get_intersection_triangle (init_triangle mesh.epsilon tri.vertices) ray = some (d, n) →
      mesh_triangle_hit mesh.epsilon ray tri = some d := by
    intro tri htri d n h
    rw [float_get_intersection_triangle_of_mesh_triangle _ _ _ (hpop tri htri)] at h
    cases hh : mesh_triangle_hit mesh.epsilon ray tri with
    | none => rw [hh] at h; exact absurd h (by simp)
    | some d2 =>
      rw [hh] at h
      simp only [Option.map_some', Option.some.injEq, Prod.mk.injEq] at h
      rw [h.1]
  rcases float_get_intersection_mesh_result sqrtf mesh ray hacc with
    ⟨hnone, hall⟩ | ⟨distance, i, t, hres, hlt, hi, hhit, hmin, _⟩
  · constructor
    · rw [hnone]
      constructor
      · intro h
        exact absurd h (by simp)
      · rintro ⟨tri, htri, d, n, h, hd⟩
        have h2 := hall tri htri d (key tri htri d n h)
        exact absurd (float_lt_of_lt_of_le hd h2) (float_lt_irrefl _)
    · intro distance normal h
      rw [hnone] at h
      exact absurd h (by simp)
  · have hmem : t ∈ mesh.triangles := List.getElem?_mem hi
    have hst : get_intersection_triangle (init_triangle mesh.epsilon t.vertices) ray =
        some (distance, t.normal) := by
      rw [float_get_intersection_triangle_of_mesh_triangle _ _ _ (hpop t hmem), hhit]
      rfl
    constructor
    · rw [hres]
      constructor
      · intro _
        exact ⟨t, hmem, distance, t.normal, hst, hlt⟩
      · intro _
        rfl
    · intro distance2 normal h
      rw [hres] at h
      simp only [Option.some.injEq, Prod.mk.injEq] at h
      rw [← h.1]
      exact ⟨⟨t, hmem, t.normal, hst⟩, fun tri htri d n hd => hmin tri htri d (key tri htri d n hd)⟩

theorem get_intersection_mesh_closest_witness :
    get_intersection_mesh F32.sqrt stacked_mesh spec_ray = some (F32.fin 1, ![F32.fin 0, F32.fin 0, F32.fin 1]) ∧
    get_intersection_triangle (init_triangle stacked_mesh.epsilon low_triangle_vertices)
      spec_ray = some (F32.fin 2, ![F32.fin 0, F32.fin 0, F32.fin 1]) ∧
    get_intersection_triangle (init_triangle stacked_mesh.epsilon unit_triangle_vertices32)
      spec_ray = some (F32.fin 1, ![F32.fin 0, F32.fin 0, F32.fin 1]) ∧
    ∀ tri ∈ stacked_mesh.triangles, ∀ d n,
      get_intersection_triangle (init_triangle stacked_mesh.epsilon tri.vertices) spec_ray =
        some (d, n) → (1 : F32) ≤ d :=
  ⟨stacked_mesh_hit, by decide!, by decide!,
    ((get_intersection_mesh_closest F32.sqrt stacked_mesh spec_ray stacked_mesh_populated
      stacked_mesh_accepts).2 1 ![0, 0, 1] stacked_mesh_hit).2⟩

/-- C7: in `float` arithmetic, when `get_intersection_mesh` reports a hit, the
returned normal is the stored normal of the triangle of lowest index among
those whose hit distance equals the reported distance, and that distance is
the minimum over all triangles that are hit. -/
theorem get_intersection_mesh_normal (sqrtf : F32 → F32) (mesh : Mesh F32) (ray : Line F32)
    (distance : F32) (normal : Vec3 F32)
    (hhit : get_intersection_mesh sqrtf mesh ray = some (distance, normal)) :
    ∃ (i : Nat) (t : MeshTriangle F32), mesh.triangles[i]? = some t ∧ normal = t.normal ∧
      mesh_triangle_hit mesh.epsilon ray t = some distance ∧
      (∀ tri ∈ mesh.triangles, ∀ d, mesh_triangle_hit mesh.epsilon ray tri = some d →
        distance ≤ d) ∧
      ∀ (j : Nat) (t2 : MeshTriangle F32), j < i → mesh.triangles[j]? = some t2 →
        mesh_triangle_hit mesh.epsilon ray t2 ≠ some distance := by
  have hacc : mesh.bounding_shape.intersects sqrtf ray = true := by
    by_contra h
    unfold get_intersection_mesh at hhit
    rw [if_pos h] at hhit
    exact absurd hhit (by simp)
  rcases float_get_intersection_mesh_result sqrtf mesh ray hacc with
    ⟨hnone, _⟩ | ⟨d, i, t, hres, _, hi, hh, hmin, hfirst⟩
  · rw [hnone] at hhit
    exact absurd hhit (by simp)
  · rw [hres] at hhit
    simp only [Option.some.injEq, Prod.mk.injEq] at hhit
    obtain ⟨hd, hn⟩ := hhit
    subst hd
    refine ⟨i, t, hi, hn.symm, hh, hmin, ?_⟩
    intro j t2 hj hj2 heq
    exact absurd (hfirst j t2 d hj hj2 heq) (float_lt_irrefl _)

theorem get_intersection_mesh_normal_witness :
    (mesh_triangle_hit stacked_mesh.epsilon spec_ray (mesh_triangle_of low_triangle_vertices) =
        some 2 ∧
      mesh_triangle_hit stacked_mesh.epsilon spec_ray
        (mesh_triangle_of unit_triangle_vertices32) = some 1 ∧
      mesh_triangle_hit stacked_mesh.epsilon spec_ray
        (mesh_triangle_of flipped_triangle_vertices) = some 1 ∧
      (mesh_triangle_of unit_triangle_vertices32).normal = ![0, 0, 1] ∧
      (mesh_triangle_of flipped_triangle_vertices).normal = ![0, 0, -1]) ∧
    ∃ (i : Nat) (t : MeshTriangle F32), stacked_mesh.triangles[i]? = some t ∧
      ![0, 0, 1] = t.normal ∧
      mesh_triangle_hit stacked_mesh.epsilon spec_ray t = some 1 ∧
      (∀ tri ∈ stacked_mesh.triangles, ∀ d,
        mesh_triangle_hit stacked_mesh.epsilon spec_ray tri = some d → (1 : F32) ≤ d) ∧
      ∀ (j : Nat) (t2 : MeshTriangle F32), j < i → stacked_mesh.triangles[j]? = some t2 →
        mesh_triangle_hit stacked_mesh.epsilon spec_ray t2 ≠ some 1 :=
  ⟨by decide!, get_intersection_mesh_normal F32.sqrt stacked_mesh spec_ray 1 ![0, 0, 1]
    stacked_mesh_hit⟩

/-! ### Occlusion query of a mesh -/

/-- Helper: the occlusion query is true exactly when the bounding shape accepts
the ray and some triangle is hit below `max_distance`. -/
theorem float_intersects_in_range_mesh_iff_exists (sqrtf : F32 → F32) (mesh : Mesh F32)
    (ray : Line F32) (max_distance : F32) :
    intersects_in_range_mesh sqrtf mesh ray max_distance = true ↔
      mesh.bounding_shape.intersects sqrtf ray = true ∧
      ∃ tri ∈ mesh.triangles, ∃ d, mesh_triangle_hit mesh.epsilon ray tri = some d ∧
        d < max_distance := by
  unfold intersects_in_range_mesh
  by_cases hacc : mesh.bounding_shape.intersects sqrtf ray = true
  · rw [if_pos hacc, List.any_eq_true]
    constructor
    · rintro ⟨tri, htri, h⟩
      refine ⟨hacc, tri, htri, ?_⟩
      unfold mesh_triangle_hit
      cases hm : moller_trumbore (tri.vertices 0) tri.edges ray.position ray.vector
        mesh.epsilon with
      | none => rw [hm] at h; exact absurd h (by simp)
      | some d =>
        rw [hm] at h
        exact ⟨d, rfl, of_decide_eq_true h⟩
    · rintro ⟨_, tri, htri, d, hd, hlt⟩
      refine ⟨tri, htri, ?_⟩
      unfold mesh_triangle_hit at hd
      rw [hd]
      exact decide_eq_true hlt
  · rw [if_neg hacc]
    constructor
    · intro h
      exact absurd h (by simp)
    · rintro ⟨h, _⟩
      exact absurd h hacc

/-- C13 (amended): in `float` arithmetic, `intersects_in_range_mesh` returns
true if and only if `get_intersection_mesh` reports a hit at a distance
strictly below `max_distance`, or the bounding shape accepts the ray and some
triangle is hit at a distance `d` with `FLT_MAX <= d < max_distance` (a hit
that `get_intersection_mesh` does not report); the second case needs
`max_distance` above `FLT_MAX`.  Whenever the bounding shape rejects the ray
both report no hit, whatever `max_distance` is. -/
theorem intersects_in_range_mesh_iff_closest_hit (sqrtf : F32 → F32) (mesh : Mesh F32)
    (ray : Line F32) (max_distance : F32) :
    (intersects_in_range_mesh sqrtf mesh ray max_distance = true ↔
      (∃ d n, get_intersection_mesh sqrtf mesh ray = some (d, n) ∧ d < max_distance) ∨
      (mesh.bounding_shape.intersects sqrtf ray = true ∧ FLT_MAX < max_distance ∧
        ∃ tri ∈ mesh.triangles, ∃ d, mesh_triangle_hit mesh.epsilon ray tri = some d ∧
          FLT_MAX ≤ d ∧ d < max_distance)) ∧
    (mesh.bounding_shape.intersects sqrtf ray = false →
      intersects_in_range_mesh sqrtf mesh ray max_distance = false ∧
      get_intersection_mesh sqrtf mesh ray = none) := by
  constructor
  · rw [float_intersects_in_range_mesh_iff_exists]
    constructor
    · rintro ⟨hacc, tri, htri, d, hd, hlt⟩
      rcases float_get_intersection_mesh_result sqrtf mesh ray hacc with
        ⟨_, hall⟩ | ⟨distance, i, t, hres, _, _, _, hmin, _⟩
      · right
        exact ⟨hacc, float_lt_of_le_of_lt (hall tri htri d hd) hlt, tri, htri, d, hd,
          hall tri htri d hd, hlt⟩
      · left
        exact ⟨distance, t.normal, hres, float_lt_of_le_of_lt (hmin tri htri d hd) hlt⟩
    · rintro (⟨d, n, hres, hlt⟩ | ⟨hacc, _, tri, htri, d, hd, _, hlt⟩)
      · have hacc : mesh.bounding_shape.intersects sqrtf ray = true := by
          by_contra h
          unfold get_intersection_mesh at hres
          rw [if_pos h] at hres
          exact absurd hres (by simp)
        rcases float_get_intersection_mesh_result sqrtf mesh ray hacc with
          ⟨hnone, _⟩ | ⟨distance, i, t, hres2, _, hi, hhit, _, _⟩
        · rw [hnone] at hres
          exact absurd hres (by simp)
        · rw [hres2] at hres
          simp only [Option.some.injEq, Prod.mk.injEq] at hres
          rw [hres.1] at hhit
          exact ⟨hacc, t, List.getElem?_mem hi, d, hhit, hlt⟩
      · exact ⟨hacc, tri, htri, d, hd, hlt⟩
  · intro hrej
    constructor
    · unfold intersects_in_range_mesh
      simp [hrej]
    · unfold get_intersection_mesh
      simp [hrej]

/-! ### Transfer of the slab test to exact arithmetic -/

section Transfer

variable {K : Type} [LinearOrderedField K]

theorem float_intersects_bounding_cuboid_eq (cuboid : BoundingCuboid F32) (ray : Line F32) :
    intersects_bounding_cuboid cuboid ray =
      interval_test
        (slab_interval (cuboid.corners 0 0) (cuboid.corners 1 0) (ray.position 0) (ray.vector 0))
        (slab_interval (cuboid.corners 0 1) (cuboid.corners 1 1) (ray.position 1) (ray.vector 1))
        (slab_interval (cuboid.corners 0 2) (cuboid.corners 1 2) (ray.position 2) (ray.vector 2)) := by
  rfl

/-- The comparison of two `float` values is the comparison of the exact
arithmetic with infinities. -/
theorem float_lt_toExtended (a b : F32) :
    Extended.lt (F32.toExtended a : Extended K) (F32.toExtended b) = F32.lt a b := by
  cases a <;> cases b <;> simp [Extended.lt, F32.toExtended, F32.lt, F32.toRat]

theorem float_lt_iff_toExtended (a b : F32) :
    a < b ↔ Extended.lt (F32.toExtended a : Extended K) (F32.toExtended b) = true := by
  rw [float_lt_toExtended]
  exact Iff.rfl

theorem float_interval_test_toExtended (tx ty tz : F32 × F32) :
    interval_test tx ty tz =
      interval_test_extended ((F32.toExtended tx.1 : Extended K), F32.toExtended tx.2)
        (F32.toExtended ty.1, F32.toExtended ty.2) (F32.toExtended tz.1, F32.toExtended tz.2) := by
  unfold interval_test interval_test_extended
  simp only [gt_iff_lt, float_lt_iff_toExtended (K := K)]
  simp only [← apply_ite (F32.toExtended (K := K))]

/-- A finite `float` is its value in the exact arithmetic with infinities. -/
theorem float_toExtended_of_value (x : F32) (q : ℚ) (h : x.value = some q) :
    (F32.toExtended x : Extended K) = .fin (q : K) := by
  cases x with
  | fin a =>
    simp only [F32.value, Option.some.injEq] at h
    subst h
    rfl
  | nzero =>
    simp only [F32.value, Option.some.injEq] at h
    subst h
    simp [F32.toExtended]
  | pinf => simp [F32.value] at h
  | ninf => simp [F32.value] at h
  | nan => simp [F32.value] at h

/-- The comparison `x >= 0` of a finite `float` is that of its value. -/
theorem float_ge_zero_of_value (x : F32) (q : ℚ) (h : x.value = some q) :
    x ≥ 0 ↔ 0 ≤ q := by
  rw [ge_iff_le, float_le_iff, float_zero_eq]
  cases x with
  | fin a =>
    simp only [F32.value, Option.some.injEq] at h
    subst h
    simp [F32.le, F32.toRat]
  | nzero =>
    simp only [F32.value, Option.some.injEq] at h
    subst h
    simp [F32.le, F32.toRat]
  | pinf => simp [F32.value] at h
  | ninf => simp [F32.value] at h
  | nan => simp [F32.value] at h

theorem float_slab_interval_toExtended_of_exact (c0 c1 p v : F32) (nz : Bool)
    (hv : v.toRat ≠ 0) (h : slab_exact c0 c1 p v) :
    ((F32.toExtended (slab_interval c0 c1 p v).1 : Extended K), F32.toExtended (slab_interval c0 c1 p v).2) =
      slab_interval_extended (F32.val c0) (F32.val c1) (F32.val p) (F32.val v) nz := by
  obtain ⟨_, h1, h2, h3⟩ := h
  have hvK : (F32.val v : K) ≠ 0 := by
    unfold F32.val
    exact_mod_cast hv
  rw [slab_interval_extended_of_ne_zero _ _ _ _ _ hvK]
  unfold slab_interval
  have hcond : (1 / v ≥ 0) ↔ ((1 : K) / F32.val v ≥ 0) := by
    rw [float_ge_zero_of_value _ _ h1, ge_iff_le]
    unfold F32.val
    rw [← Rat.cast_one (α := K), ← Rat.cast_div, Rat.cast_nonneg]
  by_cases hc : (1 : K) / F32.val v ≥ 0
  · rw [if_pos (hcond.mpr hc), if_pos hc]
    simp only [float_toExtended_of_value _ _ h2, float_toExtended_of_value _ _ h3, F32.val]
    push_cast
    rfl
  · rw [if_neg (fun h => hc (hcond.mp h)), if_neg hc]
    simp only [float_toExtended_of_value _ _ h2, float_toExtended_of_value _ _ h3, F32.val]
    push_cast
    rfl

theorem float_mul_fin_pinf (d : ℚ) :
    F32.fin d * F32.pinf = if 0 < d then F32.pinf else if d < 0 then F32.ninf else F32.nan := by
  show F32.mul (F32.fin d) F32.pinf = _
  rcases lt_trichotomy d 0 with h | h | h
  · simp [F32.mul, F32.value, F32.sign, h, not_lt.mpr (le_of_lt h), ne_of_lt h]
  · simp [F32.mul, F32.value, F32.sign, h]
  · simp [F32.mul, F32.value, F32.sign, h, not_lt.mpr (le_of_lt h), ne_of_gt h, le_of_lt h]

theorem float_mul_fin_ninf (d : ℚ) :
    F32.fin d * F32.ninf = if 0 < d then F32.ninf else if d < 0 then F32.pinf else F32.nan := by
  show F32.mul (F32.fin d) F32.ninf = _
  rcases lt_trichotomy d 0 with h | h | h
  · simp [F32.mul, F32.value, F32.sign, h, not_lt.mpr (le_of_lt h), ne_of_lt h]
  · simp [F32.mul, F32.value, F32.sign, h]
  · simp [F32.mul, F32.value, F32.sign, h, not_lt.mpr (le_of_lt h), ne_of_gt h, le_of_lt h]

theorem float_toExtended_mul_fin_pinf (d : ℚ) :
    (F32.toExtended (F32.fin d * F32.pinf) : Extended K) = Extended.mul_fin (d : K) .pinf := by
  rw [float_mul_fin_pinf]
  unfold Extended.mul_fin
  simp only [Rat.cast_pos, Rat.cast_lt_zero]
  split_ifs <;> rfl

theorem float_toExtended_mul_fin_ninf (d : ℚ) :
    (F32.toExtended (F32.fin d * F32.ninf) : Extended K) = Extended.mul_fin (d : K) .ninf := by
  rw [float_mul_fin_ninf]
  unfold Extended.mul_fin
  simp only [Rat.cast_pos, Rat.cast_lt_zero]
  split_ifs <;> rfl

theorem float_slab_interval_toExtended_of_zero (c0 c1 p v : F32)
    (hv : v = 0 ∨ v = F32.nzero) (h : slab_exact_zero c0 c1 p) :
    ((F32.toExtended (slab_interval c0 c1 p v).1 : Extended K), F32.toExtended (slab_interval c0 c1 p v).2) =
      slab_interval_extended (F32.val c0) (F32.val c1) (F32.val p) (F32.val v)
        (decide (v = F32.nzero)) := by
  obtain ⟨h0, h1⟩ := h
  unfold slab_interval slab_interval_extended
  rw [h0, h1]
  rcases hv with hv | hv
  · subst hv
    have e1 : (1 : F32) / 0 = F32.pinf := by decide!
    have e2 : (F32.pinf ≥ (0 : F32)) := by decide!
    have e3 : (F32.val (0 : F32) : K) = 0 := by simp [F32.val, float_zero_eq, F32.toRat]
    have e4 : decide ((0 : F32) = F32.nzero) = false := by decide!
    rw [e1, if_pos e2, e3, e4]
    simp only [Extended.recip, if_true, Bool.false_eq_true, if_false, Extended.ge_zero,
      float_toExtended_mul_fin_pinf, F32.val]
    push_cast
    rfl
  · subst hv
    have e1 : (1 : F32) / F32.nzero = F32.ninf := by decide!
    have e2 : ¬ (F32.ninf ≥ (0 : F32)) := by decide!
    have e3 : (F32.val F32.nzero : K) = 0 := by simp [F32.val, F32.toRat]
    rw [e1, if_neg e2, e3]
    simp only [Extended.recip, if_true, decide_True, Extended.ge_zero,
      float_toExtended_mul_fin_ninf, F32.val, Bool.false_eq_true, if_false]
    push_cast
    rfl

/-- The hypothesis of the transfer to exact arithmetic for one axis. -/
theorem float_slab_interval_toExtended (c0 c1 p v : F32)
    (h : (v.toRat ≠ 0 ∧ slab_exact c0 c1 p v) ∨
      ((v = 0 ∨ v = F32.nzero) ∧ slab_exact_zero c0 c1 p)) :
    ((F32.toExtended (slab_interval c0 c1 p v).1 : Extended K), F32.toExtended (slab_interval c0 c1 p v).2) =
      slab_interval_extended (F32.val c0) (F32.val c1) (F32.val p) (F32.val v)
        (decide (v = F32.nzero)) := by
  rcases h with ⟨hv, h⟩ | ⟨hv, h⟩
  · exact float_slab_interval_toExtended_of_exact c0 c1 p v _ hv h
  · exact float_slab_interval_toExtended_of_zero c0 c1 p v hv h

/-- Transfer of the slab test: when every axis is computed without rounding
error, the `float` test is the test of exact arithmetic with infinities on the
values of the data. -/
theorem float_intersects_bounding_cuboid_eq_extended (cuboid : BoundingCuboid F32) (ray : Line F32)
    (h : ∀ i, ((ray.vector i).toRat ≠ 0 ∧
        slab_exact (cuboid.corners 0 i) (cuboid.corners 1 i) (ray.position i) (ray.vector i)) ∨
      ((ray.vector i = 0 ∨ ray.vector i = F32.nzero) ∧
        slab_exact_zero (cuboid.corners 0 i) (cuboid.corners 1 i) (ray.position i))) :
    intersects_bounding_cuboid cuboid ray =
      slab_test_extended (cuboid_val cuboid : BoundingCuboid K) (line_val ray)
        (fun i => decide (ray.vector i = F32.nzero)) := by
  rw [float_intersects_bounding_cuboid_eq, float_interval_test_toExtended (K := K),
    slab_test_extended_eq, float_slab_interval_toExtended _ _ _ _ (h 0),
    float_slab_interval_toExtended _ _ _ _ (h 1), float_slab_interval_toExtended _ _ _ _ (h 2)]
  rfl

theorem float_le_val {a b : F32} (h : a ≤ b) (ha : a.isFinite = true) (hb : b.isFinite = true) :
    (F32.val a : K) ≤ F32.val b := by
  unfold F32.val
  rw [Rat.cast_le]
  cases a <;> cases b <;>
    simp_all [float_le_iff, F32.le, F32.toRat, F32.isFinite]

theorem line_val_vector_ne_zero (ray : Line F32) (i : Fin 3) (h : (ray.vector i).toRat ≠ 0) :
    (line_val ray : Line K).vector i ≠ 0 := by
  show ((((ray.vector i).toRat : ℚ) : K)) ≠ 0
  exact_mod_cast h

end Transfer

theorem float_val_ne_of_toRat_ne {a b : F32} (h : a.toRat ≠ b.toRat) :
    (F32.val a : ℝ) ≠ F32.val b := by
  unfold F32.val
  exact_mod_cast h

section Scan

variable {K : Type} [LinearOrderedField K]

theorem float_lt_iff_val {a b : F32} (ha : a.isFinite = true) (hb : b.isFinite = true) :
    a < b ↔ (F32.val a : K) < F32.val b := by
  unfold F32.val
  rw [Rat.cast_lt]
  cases a <;> cases b <;>
    simp_all [float_lt_iff, F32.lt, F32.toRat, F32.isFinite]

/-- One step of the scan commutes with taking values: it only compares and
copies finite values. -/
theorem float_cuboid_scan_direction_val (vertex : Vec3 F32) (corners : Fin 2 → Vec3 F32)
    (direction : Fin 3) (hv : ∀ i, (vertex i).isFinite = true)
    (hc : ∀ k i, (corners k i).isFinite = true) :
    (∀ k i, (cuboid_scan_direction vertex corners direction k i).isFinite = true) ∧
    (fun k i => (F32.val (cuboid_scan_direction vertex corners direction k i) : K)) =
      cuboid_scan_direction (fun i => F32.val (vertex i)) (fun k i => F32.val (corners k i))
        direction := by
  have e1 := float_lt_iff_val (K := K) (hv direction) (hc 0 direction)
  have e2 := float_lt_iff_val (K := K) (hc 1 direction) (hv direction)
  unfold cuboid_scan_direction
  by_cases h1 : vertex direction < corners 0 direction
  · by_cases h2 : vertex direction > corners 1 direction
    · constructor
      · intro k i
        fin_cases k <;> by_cases hi : i = direction <;>
          simp [h1, h2, hi, Function.update_apply, hv, hc]
      · funext k i
        fin_cases k <;> by_cases hi : i = direction <;>
          simp [h1, h2, e1.mp h1, e2.mp h2, hi, Function.update_apply]
    · constructor
      · intro k i
        fin_cases k <;> by_cases hi : i = direction <;>
          simp [h1, h2, hi, Function.update_apply, hv, hc]
      · funext k i
        fin_cases k <;> by_cases hi : i = direction <;>
          simp [h1, h2, e1.mp h1, mt e2.mpr h2, hi, Function.update_apply]
  · by_cases h2 : vertex direction > corners 1 direction
    · constructor
      · intro k i
        fin_cases k <;> by_cases hi : i = direction <;>
          simp [h1, h2, hi, Function.update_apply, hv, hc]
      · funext k i
        fin_cases k <;> by_cases hi : i = direction <;>
          simp [h1, h2, mt e1.mpr h1, e2.mp h2, hi, Function.update_apply]
    · constructor
      · intro k i
        fin_cases k <;> by_cases hi : i = direction <;>
          simp [h1, h2, hi, Function.update_apply, hv, hc]
      · funext k i
        fin_cases k <;> by_cases hi : i = direction <;>
          simp [h1, h2, mt e1.mpr h1, mt e2.mpr h2, hi, Function.update_apply]

theorem float_cuboid_scan_vertex_val (corners : Fin 2 → Vec3 F32) (vertex : Vec3 F32)
    (hv : ∀ i, (vertex i).isFinite = true) (hc : ∀ k i, (corners k i).isFinite = true) :
    (∀ k i, (cuboid_scan_vertex corners vertex k i).isFinite = true) ∧
    (fun k i => (F32.val (cuboid_scan_vertex corners vertex k i) : K)) =
      cuboid_scan_vertex (fun k i => F32.val (corners k i)) (fun i => F32.val (vertex i)) := by
  unfold cuboid_scan_vertex
  simp only [List.foldl_cons, List.foldl_nil]
  obtain ⟨f0, e0⟩ := float_cuboid_scan_direction_val (K := K) vertex corners 0 hv hc
  obtain ⟨f1, e1⟩ := float_cuboid_scan_direction_val (K := K) vertex _ 1 hv f0
  obtain ⟨f2, e2⟩ := float_cuboid_scan_direction_val (K := K) vertex _ 2 hv f1
  exact ⟨f2, by rw [e2, e1, e0]⟩

theorem float_cuboid_scan_triangle_val (corners : Fin 2 → Vec3 F32)
    (triangle : MeshTriangle F32) (hv : ∀ j i, (triangle.vertices j i).isFinite = true)
    (hc : ∀ k i, (corners k i).isFinite = true) :
    (∀ k i, (cuboid_scan_triangle corners triangle k i).isFinite = true) ∧
    (fun k i => (F32.val (cuboid_scan_triangle corners triangle k i) : K)) =
      cuboid_scan_triangle (fun k i => F32.val (corners k i)) (triangle_val triangle) := by
  unfold cuboid_scan_triangle
  simp only [List.foldl_cons, List.foldl_nil]
  obtain ⟨f0, e0⟩ := float_cuboid_scan_vertex_val (K := K) corners _ (hv 0) hc
  obtain ⟨f1, e1⟩ := float_cuboid_scan_vertex_val (K := K) _ _ (hv 1) f0
  obtain ⟨f2, e2⟩ := float_cuboid_scan_vertex_val (K := K) _ _ (hv 2) f1
  exact ⟨f2, by rw [e2, e1, e0]; rfl⟩

theorem float_cuboid_scan_list_val (l : List (MeshTriangle F32)) (corners : Fin 2 → Vec3 F32)
    (hv : ∀ tri ∈ l, ∀ j i, (tri.vertices j i).isFinite = true)
    (hc : ∀ k i, (corners k i).isFinite = true) :
    (∀ k i, (l.foldl cuboid_scan_triangle corners k i).isFinite = true) ∧
    (fun k i => (F32.val (l.foldl cuboid_scan_triangle corners k i) : K)) =
      (l.map triangle_val).foldl cuboid_scan_triangle (fun k i => F32.val (corners k i)) := by
  induction l generalizing corners with
  | nil => exact ⟨hc, rfl⟩
  | cons a l ih =>
    rw [List.foldl_cons, List.map_cons, List.foldl_cons]
    obtain ⟨f0, e0⟩ := float_cuboid_scan_triangle_val (K := K) corners a
      (hv a (List.mem_cons_self _ _)) hc
    obtain ⟨f1, e1⟩ := ih _ (fun tri htri => hv tri (List.mem_cons_of_mem _ htri)) f0
    exact ⟨f1, by rw [e1, e0]⟩

theorem float_FLT_MAX_val : (F32.val (FLT_MAX : F32) : K) = FLT_MAX := by
  rw [float_FLT_MAX_eq, FLT_MAX_eq]
  simp only [F32.val, F32.toRat]
  push_cast
  rfl

theorem float_FLT_MIN_val : (F32.val (FLT_MIN : F32) : K) = FLT_MIN := by
  rw [float_FLT_MIN_eq, FLT_MIN_eq]
  simp only [F32.val, F32.toRat]
  push_cast
  rfl

/-- The corners that the scan of `mesh_generate_bounding_cuboid` computes in
`float` arithmetic on finite vertices are finite, and their values are the
corners that the scan computes in exact arithmetic on the values. -/
theorem float_mesh_bounding_corners_val (mesh : Mesh F32)
    (hv : ∀ tri ∈ mesh.triangles, ∀ j i, (tri.vertices j i).isFinite = true) :
    (∀ k i, (mesh_bounding_corners mesh k i).isFinite = true) ∧
    ∀ k i, (F32.val (mesh_bounding_corners mesh k i) : K) =
      mesh_bounding_corners (mesh_val mesh : Mesh K) k i := by
  have hc : ∀ k i, ((![![FLT_MAX, FLT_MAX, FLT_MAX], ![FLT_MIN, FLT_MIN, FLT_MIN]] :
      Fin 2 → Vec3 F32) k i).isFinite = true := by decide!
  obtain ⟨f, e⟩ := float_cuboid_scan_list_val (K := K) mesh.triangles _ hv hc
  have hinit : (fun k i => (F32.val ((![![FLT_MAX, FLT_MAX, FLT_MAX],
      ![FLT_MIN, FLT_MIN, FLT_MIN]] : Fin 2 → Vec3 F32) k i) : K)) =
      ![![FLT_MAX, FLT_MAX, FLT_MAX], ![FLT_MIN, FLT_MIN, FLT_MIN]] := by
    funext k i
    fin_cases k <;> fin_cases i <;> simp [float_FLT_MAX_val, float_FLT_MIN_val]
  rw [hinit] at e
  exact ⟨f, fun k i => congrFun (congrFun e k) i⟩

end Scan

/-- Helper: a rounded value that is representable is the value itself,
whatever the sign given to a zero. -/
theorem float_round_value (b : Bool) (q : ℚ) (h : F32.round false q = F32.fin q) :
    (F32.round b q).value = some q := by
  unfold F32.round at h ⊢
  simp only [] at h ⊢
  by_cases h1 : (2 : ℚ) ^ 128 ≤ F32.round_abs |q|
  · rw [if_pos h1] at h
    split_ifs at h
  · rw [if_neg h1] at h ⊢
    by_cases h2 : F32.round_abs |q| = 0
    · rw [if_pos h2] at h ⊢
      simp only [Bool.false_eq_true, if_false, F32.fin.injEq] at h
      rw [← h]
      split_ifs <;> rfl
    · rw [if_neg h2] at h ⊢
      rw [h]
      rfl

/-- Helper: a finite representable `float` has a value that rounding leaves
unchanged. -/
theorem float_value_of_representable (x : F32) (hf : x.isFinite = true)
    (hr : x.representable = true) :
    x.value = some x.toRat ∧ F32.round false x.toRat = F32.fin x.toRat := by
  cases x with
  | fin q => exact ⟨rfl, by simpa [F32.representable] using hr⟩
  | nzero => exact ⟨rfl, by decide!⟩
  | pinf => exact absurd hf (by decide)
  | ninf => exact absurd hf (by decide)
  | nan => exact absurd hf (by decide)

/-- Helper: a product whose exact value is representable is computed
exactly. -/
theorem float_mul_value (a b : F32) (x y : ℚ) (ha : a.value = some x) (hb : b.value = some y)
    (h : F32.round false (x * y) = F32.fin (x * y)) : (a * b).value = some (x * y) := by
  show (F32.mul a b).value = _
  unfold F32.mul
  rw [ha, hb]
  exact float_round_value _ _ h

/-- Helper: a sum whose exact value is representable is computed exactly. -/
theorem float_add_value (a b : F32) (x y : ℚ) (ha : a.value = some x) (hb : b.value = some y)
    (h : F32.round false (x + y) = F32.fin (x + y)) : (a + b).value = some (x + y) := by
  show (F32.add a b).value = _
  unfold F32.add
  rw [ha, hb]
  exact float_round_value _ _ h

/-- Helper: zero is representable. -/
theorem float_round_zero : F32.round false 0 = F32.fin 0 := by decide!

/-- Helper: a dot product all of whose exact intermediate results are
representable is computed exactly. -/
theorem float_dot3_value (r w : Vec3 F32) (c q : Vec3 ℚ) (hr : ∀ j, (r j).value = some (c j))
    (hw : ∀ j, (w j).value = some (q j))
    (h0 : F32.round false (c 0 * q 0) = F32.fin (c 0 * q 0))
    (h1 : F32.round false (c 1 * q 1) = F32.fin (c 1 * q 1))
    (h2 : F32.round false (c 2 * q 2) = F32.fin (c 2 * q 2))
    (h01 : F32.round false (c 0 * q 0 + c 1 * q 1) = F32.fin (c 0 * q 0 + c 1 * q 1))
    (h012 : F32.round false (c 0 * q 0 + c 1 * q 1 + c 2 * q 2) =
      F32.fin (c 0 * q 0 + c 1 * q 1 + c 2 * q 2)) :
    (dot3 r w).value = some (c 0 * q 0 + c 1 * q 1 + c 2 * q 2) := by
  unfold dot3
  exact float_add_value _ _ _ _
    (float_add_value _ _ _ _ (float_mul_value _ _ _ _ (hr 0) (hw 0) h0)
      (float_mul_value _ _ _ _ (hr 1) (hw 1) h1) h01)
    (float_mul_value _ _ _ _ (hr 2) (hw 2) h2) h012

/-- Helper: with all angles 0 the rotation matrix is the identity matrix (the
entry `-sinf(0)` is `-0.0`). -/
theorem float_stl_rotation_matrix_zero (cosf sinf : F32 → F32) (hc : cosf 0 = 1)
    (hs : sinf 0 = 0) :
    stl_rotation_matrix cosf sinf ![0, 0, 0] =
      ![![F32.fin 1, F32.fin 0, F32.fin 0], ![F32.fin 0, F32.fin 1, F32.fin 0],
        ![F32.nzero, F32.fin 0, F32.fin 1]] := by
  have e : ∀ k, (![0, 0, 0] : Vec3 F32) k = 0 := by
    intro k
    fin_cases k <;> rfl
  unfold stl_rotation_matrix
  simp only [e, hc, hs]
  decide!

/-- Helper: with all angles 0, scale 1 and position 0 the transform leaves the
value of every finite representable vertex unchanged. -/
theorem float_stl_transform_identity (cosf sinf : F32 → F32) (hc : cosf 0 = 1)
    (hs : sinf 0 = 0) (w : Vec3 F32)
    (hw : ∀ i, (w i).isFinite = true ∧ (w i).representable = true) (i : Fin 3) :
    (stl_transform_vertex (stl_rotation_matrix cosf sinf ![0, 0, 0]) ![0, 0, 0] 1 w i).value =
      some (w i).toRat := by
  rw [float_stl_rotation_matrix_zero cosf sinf hc hs]
  have hv : ∀ j, (w j).value = some (vec_toRat w j) := fun j =>
    (float_value_of_representable (w j) (hw j).1 (hw j).2).1
  have hq : ∀ j, F32.round false (vec_toRat w j) = F32.fin (vec_toRat w j) := fun j =>
    (float_value_of_representable (w j) (hw j).1 (hw j).2).2
  have hz := float_round_zero
  have key : ∀ (r : Vec3 F32) (c : Vec3 ℚ), (∀ j, (r j).value = some (c j)) →
      c 0 * vec_toRat w 0 + c 1 * vec_toRat w 1 + c 2 * vec_toRat w 2 = vec_toRat w i →
      F32.round false (c 0 * vec_toRat w 0) = F32.fin (c 0 * vec_toRat w 0) →
      F32.round false (c 1 * vec_toRat w 1) = F32.fin (c 1 * vec_toRat w 1) →
      F32.round false (c 2 * vec_toRat w 2) = F32.fin (c 2 * vec_toRat w 2) →
      F32.round false (c 0 * vec_toRat w 0 + c 1 * vec_toRat w 1) =
        F32.fin (c 0 * vec_toRat w 0 + c 1 * vec_toRat w 1) →
      (dot3 r w * 1 + 0).value = some (w i).toRat := by
    intro r c hr hsum h0 h1 h2 h01
    have h012 : F32.round false (c 0 * vec_toRat w 0 + c 1 * vec_toRat w 1 +
        c 2 * vec_toRat w 2) =
        F32.fin (c 0 * vec_toRat w 0 + c 1 * vec_toRat w 1 + c 2 * vec_toRat w 2) := by
      rw [hsum]
      exact hq i
    have hd := float_dot3_value r w c (vec_toRat w) hr hv h0 h1 h2 h01 h012
    rw [hsum] at hd
    have hm := float_mul_value (dot3 r w) 1 _ 1 hd rfl (by rw [mul_one]; exact hq i)
    rw [mul_one] at hm
    have ha := float_add_value (dot3 r w * 1) 0 _ 0 hm rfl (by rw [add_zero]; exact hq i)
    rw [add_zero] at ha
    exact ha
  fin_cases i
  · refine key _ ![1, 0, 0] ?_ ?_ ?_ ?_ ?_ ?_
    · intro j
      fin_cases j <;> rfl
    all_goals simp [hz, hq]
  · refine key _ ![0, 1, 0] ?_ ?_ ?_ ?_ ?_ ?_
    · intro j
      fin_cases j <;> rfl
    all_goals simp [hz, hq]
  · refine key _ ![0, 0, 1] ?_ ?_ ?_ ?_ ?_ ?_
    · intro j
      fin_cases j <;> rfl
    all_goals simp [hz, hq]

/-- Helper: under `rotation_exact` the values of the stored matrix are the
matrix computed exactly from the values of `cosf` and `sinf`, which satisfy
`c^2 + s^2 = 1`. -/
theorem float_stl_rotation_matrix_val (cosf sinf : F32 → F32) (rot : Vec3 F32)
    (hrot : rotation_exact cosf sinf rot) :
    (fun k => vec_toRat (stl_rotation_matrix cosf sinf rot k)) =
        stl_rotation_matrix (fun x => (cosf (F32.fin x)).toRat)
          (fun x => (sinf (F32.fin x)).toRat) (vec_toRat rot) ∧
      ∀ k, sqr ((fun x => (cosf (F32.fin x)).toRat) (vec_toRat rot k)) +
        sqr ((fun x => (sinf (F32.fin x)).toRat) (vec_toRat rot k)) = 1 := by
  obtain ⟨hfin, htrig, hent⟩ := hrot
  constructor
  · funext i j
    exact (float_finite_of_value _ _ (hent i j)).2
  · intro k
    show sqr (cosf (F32.fin (rot k).toRat)).toRat + sqr (sinf (F32.fin (rot k).toRat)).toRat = 1
    rw [← hfin k]
    exact htrig k

/-- Helper: with all angles 0 the matrix is computed without rounding error. -/
theorem float_rotation_exact_zero (cosf sinf : F32 → F32) (hc : cosf 0 = 1) (hs : sinf 0 = 0) :
    rotation_exact cosf sinf ![0, 0, 0] := by
  have hc2 : cosf (F32.fin 0) = F32.fin 1 := hc
  have hs2 : sinf (F32.fin 0) = F32.fin 0 := hs
  have e : ∀ k, (![0, 0, 0] : Vec3 F32) k = F32.fin 0 := by
    intro k
    fin_cases k <;> rfl
  have eq : ∀ k, vec_toRat (![0, 0, 0] : Vec3 F32) k = 0 := by
    intro k
    fin_cases k <;> rfl
  refine ⟨fun k => ?_, fun k => ?_, fun i j => ?_⟩
  · rw [e k]
    rfl
  · rw [e k, hc2, hs2]
    decide!
  · rw [float_stl_rotation_matrix_zero cosf sinf hc hs]
    unfold stl_rotation_matrix
    simp only [eq, hc2, hs2]
    fin_cases i <;> fin_cases j <;> decide!

/-- C1 (as stated) fails: `get_intersection_mesh` starts `*distance` at
`FLT_MAX` and reports no hit when it still equals `FLT_MAX`.  For the mesh of
the single unit triangle and the ray from `(1/2 - 2^22, 1/2 - 2^22, FLT_MAX)`
along `(2^-106, 2^-106, -1)`, all representable, the generated bounding cuboid
accepts the ray and the standalone triangle reports a hit at distance
`FLT_MAX`, yet `get_intersection_mesh` reports no hit. -/
theorem get_intersection_mesh_misses_hit_at_FLT_MAX :
    unit_mesh32.triangles = [mesh_triangle_of unit_triangle_vertices32] ∧
    (∀ i, (far_ray32.position i).representable = true ∧
      (far_ray32.vector i).representable = true) ∧
    unit_mesh32.bounding_shape.intersects F32.sqrt far_ray32 = true ∧
    get_intersection_triangle (init_triangle unit_mesh32.epsilon unit_triangle_vertices32)
        far_ray32 = some (FLT_MAX, z_axis32) ∧
    get_intersection_mesh F32.sqrt unit_mesh32 far_ray32 = none := by
  refine ⟨rfl, by decide!, by decide!, by decide!, by decide!⟩

theorem intersects_in_range_mesh_iff_closest_hit_witness :
    intersects_in_range_mesh F32.sqrt stacked_mesh spec_ray (F32.fin (3 / 2)) = true ∧
    get_intersection_mesh F32.sqrt stacked_mesh spec_ray = some (F32.fin 1, z_axis32) ∧
    (intersects_in_range_mesh F32.sqrt stacked_mesh spec_ray (F32.fin (3 / 2)) = true ↔
      (∃ d n, get_intersection_mesh F32.sqrt stacked_mesh spec_ray = some (d, n) ∧
        d < F32.fin (3 / 2)) ∨
      (stacked_mesh.bounding_shape.intersects F32.sqrt spec_ray = true ∧
        FLT_MAX < F32.fin (3 / 2) ∧
        ∃ tri ∈ stacked_mesh.triangles, ∃ d,
          mesh_triangle_hit stacked_mesh.epsilon spec_ray tri = some d ∧
          FLT_MAX ≤ d ∧ d < F32.fin (3 / 2))) :=
  ⟨by decide!, by decide!,
    (intersects_in_range_mesh_iff_closest_hit F32.sqrt stacked_mesh spec_ray
      (F32.fin (3 / 2))).1⟩

/-- C13 (as stated) fails: for the mesh of the single unit triangle, the ray
from `(1/2 - 2^22, 1/2 - 2^22, FLT_MAX)` along `(2^-106, 2^-106, -1)` and
`max_distance = INFINITY`, the occlusion query returns true (the triangle is
hit at distance `FLT_MAX`, below `INFINITY`) while `get_intersection_mesh`
reports no hit at all. -/
theorem intersects_in_range_mesh_beyond_FLT_MAX :
    intersects_in_range_mesh F32.sqrt unit_mesh32 far_ray32 F32.pinf = true ∧
    mesh_triangle_hit unit_mesh32.epsilon far_ray32
        (mesh_triangle_of unit_triangle_vertices32) = some FLT_MAX ∧
    get_intersection_mesh F32.sqrt unit_mesh32 far_ray32 = none ∧
    ¬ ∃ d n, get_intersection_mesh F32.sqrt unit_mesh32 far_ray32 = some (d, n) ∧
      d < F32.pinf := by
  have hnone : get_intersection_mesh F32.sqrt unit_mesh32 far_ray32 = none := by decide!
  refine ⟨by decide!, by decide!, hnone, ?_⟩
  rintro ⟨d, n, h, _⟩
  rw [hnone] at h
  exact absurd h (by simp)

end Raytracer
